import Mathlib

/-! # Biharmonic boundary-condition imposition (oomph-lib `biharmonic_problem.cc`)

A shallow embedding of the boundary-condition routines of `BiharmonicProblem`
and `BiharmonicFluidProblem`.

Modelling conventions.

* `double` arithmetic is modelled by exact arithmetic in an arbitrary field `α`
  (division by zero follows the field convention `x / 0 = 0`); `sqrt` and `pow`
  of the C maths library are parameters, bundled in `Libm`.
* Nodes are shared objects: the mesh owns a store `node : Nat → Node α` indexed
  by node identifiers, and `boundary_node b` lists the identifiers of the nodes
  on boundary `b` in the order of `boundary_node_pt(b,n)`.
* A function that can throw returns an `Outcome`: the error raised, if any,
  together with the state reached at that point.
* User call-backs (`DirichletBCFctPt`) are pure functions `α → α`; a null
  pointer is `none`.
-/

namespace Biharmonic

/-- Ways in which a routine can stop abnormally. -/
inductive Err
  | OomphLibError
  | NullFunctionPointer
  deriving DecidableEq

/-- The result of running a routine: the error raised (if any) and the state
reached when the routine stopped. -/
structure Outcome (σ : Type) where
  err : Option Err
  st : σ

/-- The two functions of the C maths library used by the source. -/
structure Libm (α : Type) where
  sqrt : α → α
  pow : α → α → α

/-- A Hermite node: four dof slots, each with a value and a pinned flag, the
generalised position data `x_gen(k,i)` and the coordinates on each boundary. -/
structure Node (α : Type) where
  value : Nat → α
  pinned : Nat → Bool
  x_gen : Nat → Nat → α
  get_coordinates_on_boundary : Nat → α × α

/-- `Node::pin(k)`. -/
def Node.pin {α : Type} (nd : Node α) (k : Nat) : Node α :=
  { nd with pinned := Function.update nd.pinned k true }

/-- `Node::set_value(k, v)`. -/
def Node.set_value {α : Type} (nd : Node α) (k : Nat) (v : α) : Node α :=
  { nd with value := Function.update nd.value k v }

/-- Elements stored in the mesh of a `BiharmonicFluidProblem`: the bulk
elements and the point elements `BiharmonicFluidBoundaryElement(node, s_fixed_index)`. -/
inductive Element
  | bulk (id : Nat)
  | BiharmonicFluidBoundaryElement (node_pt : Nat) (S_fixed_index : Nat)
  deriving DecidableEq

/-- One call `boundary_element_pt(b,e)->hijack_nodal_value(n, i)`. -/
structure HijackCall where
  b : Nat
  e : Nat
  n : Nat
  i : Nat
  deriving DecidableEq

/-- The part of `Mesh` the routines use. -/
structure Mesh (α : Type) where
  node : Nat → Node α
  boundary_node : Nat → List Nat
  face_index_at_boundary : Nat → Nat → Int
  boundary_element_pt : Nat → Nat → Nat
  nboundary_element : Nat → Nat
  element_pt : List Element
  hijacked : List HijackCall

variable {α : Type}

/-- `Mesh::nboundary_node(b)`. -/
def Mesh.nboundary_node (M : Mesh α) (b : Nat) : Nat := (M.boundary_node b).length

/-- `Mesh::boundary_node_pt(b,n)`: the identifier of the `n`-th node on `b`. -/
def Mesh.boundary_node_pt (M : Mesh α) (b n : Nat) : Nat := (M.boundary_node b).getD n 0

/-- Apply `f` to the node with identifier `id`. -/
def Mesh.modify_node (M : Mesh α) (id : Nat) (f : Node α → Node α) : Mesh α :=
  { M with node := Function.update M.node id (f (M.node id)) }

/-- `node->pin(k)` on the node with identifier `id`. -/
def Mesh.pin (M : Mesh α) (id k : Nat) : Mesh α := M.modify_node id (fun nd => nd.pin k)

/-- `node->set_value(k, v)` on the node with identifier `id`. -/
def Mesh.set_value (M : Mesh α) (id k : Nat) (v : α) : Mesh α :=
  M.modify_node id (fun nd => nd.set_value k v)

/-- `Mesh::add_element_pt`. -/
def Mesh.add_element_pt (M : Mesh α) (e : Element) : Mesh α :=
  { M with element_pt := M.element_pt ++ [e] }

/-- `boundary_element_pt(b,e)->hijack_nodal_value(n,i)`, recorded in the log. -/
def Mesh.hijack_nodal_value (M : Mesh α) (b e n i : Nat) : Mesh α :=
  { M with hijacked := M.hijacked ++ [⟨b, e, n, i⟩] }

/-- A `BiharmonicFluxElement<2>` built from `(bulk_elem_pt, face_index, b)` with
its two flux function pointers. -/
structure BiharmonicFluxElement (α : Type) where
  bulk_elem_pt : Nat
  face_index : Int
  b : Nat
  flux0_fct_pt : Option (α → α)
  flux1_fct_pt : Option (α → α)

/-- State of a `BiharmonicProblem`. -/
structure BiharmonicProblem (α : Type) where
  Bulk_element_mesh_pt : Mesh α
  Face_element_mesh_pt : Option (List (BiharmonicFluxElement α))

/-- State of a `BiharmonicFluidProblem`. -/
structure BiharmonicFluidProblem (α : Type) where
  mesh_pt : Mesh α
  Npoint_element : Nat

/-- A `for (n = 0; n < n_node; n++)` loop whose body can fail: the loop stops at
the first failing iteration and keeps the state reached so far. -/
def for_loop {σ : Type} (body : σ → Nat → Except Err σ) : List Nat → σ → Outcome σ
  | [], s => ⟨none, s⟩
  | n :: ns, s =>
    match body s n with
    | .ok s1 => for_loop body ns s1
    | .error e => ⟨some e, s⟩

section Arithmetic

variable [Field α]

/-- The finite-difference step `const double h = 10e-8`. -/
def h : α := 10 / 10 ^ 8

/-- First `switch(face_index)` of `set_dirichlet_boundary_condition` and of
`impose_traction_free_edge`: the fixed local coordinate, `none` for the
`default:` branch that throws. -/
def s_fixed_index_of (face_index : Int) : Option Nat :=
  if face_index = -1 ∨ face_index = 1 then some 0
  else if face_index = -2 ∨ face_index = 2 then some 1
  else none

/-- Second `switch(face_index)` of `set_dirichlet_boundary_condition`
(`int edge_sign = 0` when no case applies). -/
def edge_sign_of (face_index : Int) : Int :=
  if face_index = -1 ∨ face_index = 2 then -1
  else if face_index = 1 ∨ face_index = -2 then 1
  else 0

/-- The vector `dxds_n` read from `x_gen(1+s_fixed_index, ·)`. -/
def Node.dxds_n (nd : Node α) (s_fixed_index : Nat) : α × α :=
  (nd.x_gen (1 + s_fixed_index) 0, nd.x_gen (1 + s_fixed_index) 1)

/-- The vector `dxds_t` read from `x_gen(2-s_fixed_index, ·)`. -/
def Node.dxds_t (nd : Node α) (s_fixed_index : Nat) : α × α :=
  (nd.x_gen (2 - s_fixed_index) 0, nd.x_gen (2 - s_fixed_index) 1)

/-- The vector `d2xds_nds_t` read from `x_gen(3, ·)`. -/
def Node.d2xds_nds_t (nd : Node α) : α × α := (nd.x_gen 3 0, nd.x_gen 3 1)

/-- The expression `dn/ds_n`. -/
def dnds_n (F : Libm α) (dxds_n dxds_t : α × α) (edge_sign : Int) : α :=
  ((dxds_n.1 * dxds_t.2) - (dxds_n.2 * dxds_t.1))
    / (F.sqrt (dxds_t.1 * dxds_t.1 + dxds_t.2 * dxds_t.2) * (edge_sign : α))

/-- The expression `dt/ds_n`. -/
def dtds_n (F : Libm α) (dxds_n dxds_t : α × α) : α :=
  ((dxds_n.1 * dxds_t.1) + (dxds_n.2 * dxds_t.2))
    / F.sqrt (dxds_t.1 * dxds_t.1 + dxds_t.2 * dxds_t.2)

/-- The expression `ds_t/dt`. -/
def ds_tdt (F : Libm α) (dxds_t : α × α) : α :=
  1 / F.sqrt (dxds_t.1 * dxds_t.1 + dxds_t.2 * dxds_t.2)

/-- The expression `d2t/ds_nds_t`. -/
def d2tds_nds_t (F : Libm α) (dxds_t d2xds_nds_t : α × α) : α :=
  (dxds_t.1 * d2xds_nds_t.1 + dxds_t.2 * d2xds_nds_t.2)
    / F.sqrt (dxds_t.1 * dxds_t.1 + dxds_t.2 * dxds_t.2)

/-- The slope `dudm_t` of the `u_fn` pass: `u_L`, `u_R` are chosen by the
position of the node on the boundary, then `(u_R-u_L)/h`. -/
def dirichlet_dudm_t (u_fn : α → α) (n n_node : Nat) (m0 : α) : α :=
  let u_L := if n = 0 then u_fn m0
    else if n = n_node - 1 then u_fn (m0 - h)
    else u_fn (m0 - (1 / 2) * h)
  let u_R := if n = 0 then u_fn (m0 + h)
    else if n = n_node - 1 then u_fn m0
    else u_fn (m0 + (1 / 2) * h)
  (u_R - u_L) / h

/-- Body of the `u_fn` loop of `set_dirichlet_boundary_condition` for node `n`. -/
def dirichlet_u_node (b s_fixed_index n_node : Nat) (u_fn : α → α) (M : Mesh α) (n : Nat) :
    Mesh α :=
  let nd := M.boundary_node_pt b n
  let m := (M.node nd).get_coordinates_on_boundary b
  let u := u_fn m.1
  let dudm_t := dirichlet_dudm_t u_fn n n_node m.1
  let duds_t := m.2 * dudm_t
  let M := M.pin nd 0
  let M := M.set_value nd 0 u
  let M := M.pin nd (2 - s_fixed_index)
  M.set_value nd (2 - s_fixed_index) duds_t

/-- The quotient `d2udm_t2 = (u_2L+u_2R-2*u_N)/(h*h)` of the `dudn_fn` pass;
`value0` is `value(0)` of the node, read in the interior branch. -/
def dirichlet_d2udm_t2 (u_fn : α → α) (n n_node : Nat) (m0 value0 : α) : α :=
  let u_2L := if n = 0 then u_fn m0
    else if n = n_node - 1 then u_fn (m0 - 2 * h)
    else u_fn (m0 - h)
  let u_N := if n = 0 then u_fn (m0 + h)
    else if n = n_node - 1 then u_fn (m0 - h)
    else value0
  let u_2R := if n = 0 then u_fn (m0 - 2 * h)
    else if n = n_node - 1 then u_fn m0
    else u_fn (m0 + h)
  (u_2L + u_2R - 2 * u_N) / (h * h)

/-- The quotient `ddm_tdudn = (dudn_R-dudn_L)/h` of the `dudn_fn` pass. -/
def dirichlet_ddm_tdudn (dudn_fn : α → α) (n n_node : Nat) (m0 : α) : α :=
  let dudn_L := if n = 0 then dudn_fn m0
    else if n = n_node - 1 then dudn_fn (m0 - h)
    else dudn_fn (m0 - (1 / 2) * h)
  let dudn_R := if n = 0 then dudn_fn (m0 + h)
    else if n = n_node - 1 then dudn_fn m0
    else dudn_fn (m0 + (1 / 2) * h)
  (dudn_R - dudn_L) / h

/-- The pair `(duds_n, d2uds_nds_t)` computed for one node in the `dudn_fn`
pass, from the node as it is when the iteration starts.  The statement
`double d2udndt = ds_tdt= dtds_t*m_N[1]*ddm_tdudn;` assigns to `ds_tdt`, so the
later uses of `ds_tdt` read the new value. -/
def dirichlet_dudn_values (F : Libm α) (b s_fixed_index n_node : Nat) (edge_sign : Int)
    (u_fn dudn_fn : α → α) (n : Nat) (nd : Node α) : α × α :=
  let dxds_n := nd.dxds_n s_fixed_index
  let dxds_t := nd.dxds_t s_fixed_index
  let d2xds_nds_t := nd.d2xds_nds_t
  let dnds_n := dnds_n F dxds_n dxds_t edge_sign
  let dtds_n := dtds_n F dxds_n dxds_t
  let dtds_t := F.sqrt (F.pow dxds_t.1 2 + F.pow dxds_t.2 2)
  let ds_ndn := -1 * ((edge_sign : α) * F.sqrt (F.pow dxds_t.1 2 + F.pow dxds_t.2 2))
    / (dxds_t.1 * dxds_n.2 - dxds_n.1 * dxds_t.2)
  let ds_tdt := ds_tdt F dxds_t
  let d2tds_nds_t := d2tds_nds_t F dxds_t d2xds_nds_t
  let d2s_tds_ndt := (dxds_t.1 * d2xds_nds_t.1 + dxds_t.2 * d2xds_nds_t.2)
    / F.pow (dxds_t.1 * dxds_t.1 + dxds_t.2 * dxds_t.2) (3 / 2)
  let m_N := nd.get_coordinates_on_boundary b
  let d2udm_t2 := dirichlet_d2udm_t2 u_fn n n_node m_N.1 (nd.value 0)
  let ddm_tdudn := dirichlet_ddm_tdudn dudn_fn n n_node m_N.1
  let dudn := dudn_fn m_N.1
  let d2uds_t2 := m_N.2 * m_N.2 * d2udm_t2
  let duds_t := nd.value (2 - s_fixed_index)
  let dudt := ds_tdt * duds_t
  let ds_tdt := dtds_t * m_N.2 * ddm_tdudn
  let d2udndt := ds_tdt
  let dtds_nd2udt2 := (edge_sign : α) * (dxds_t.1 * dxds_n.2 - dxds_n.1 * dxds_t.2)
    * (ds_tdt * (d2udndt - ds_ndn * (d2s_tds_ndt * dudt + ds_tdt * d2uds_t2)))
  let dds_ndudt := dtds_nd2udt2 + dnds_n * d2udndt
  let duds_n := dnds_n * dudn + dtds_n * ds_tdt * duds_t
  let d2uds_nds_t := d2tds_nds_t * dudt + dtds_t * dds_ndudt
  (duds_n, d2uds_nds_t)

/-- Body of the `dudn_fn` loop for node `n` when `u_fn` is a callable function. -/
def dirichlet_dudn_node_body (F : Libm α) (b s_fixed_index n_node : Nat) (edge_sign : Int)
    (u_fn dudn_fn : α → α) (M : Mesh α) (n : Nat) : Mesh α :=
  let nd := M.boundary_node_pt b n
  let v := dirichlet_dudn_values F b s_fixed_index n_node edge_sign u_fn dudn_fn n (M.node nd)
  let M := M.pin nd (1 + s_fixed_index)
  let M := M.set_value nd (1 + s_fixed_index) v.1
  let M := M.pin nd 3
  M.set_value nd 3 v.2

/-- Body of the `dudn_fn` loop for node `n`.  Every branch starts by calling
`(*u_fn)(...)`, which is a call through a null pointer when `u_fn` is absent. -/
def dirichlet_dudn_node (F : Libm α) (b s_fixed_index n_node : Nat) (edge_sign : Int)
    (u_fn : Option (α → α)) (dudn_fn : α → α) (M : Mesh α) (n : Nat) : Except Err (Mesh α) :=
  match u_fn with
  | none => .error Err.NullFunctionPointer
  | some u => .ok (dirichlet_dudn_node_body F b s_fixed_index n_node edge_sign u dudn_fn M n)

/-- `BiharmonicProblem::set_dirichlet_boundary_condition(b, u_fn, dudn_fn)`. -/
def set_dirichlet_boundary_condition (F : Libm α) (b : Nat) (u_fn dudn_fn : Option (α → α))
    (P : BiharmonicProblem α) : Outcome (BiharmonicProblem α) :=
  let n_node := P.Bulk_element_mesh_pt.nboundary_node b
  let face_index := P.Bulk_element_mesh_pt.face_index_at_boundary b 0
  match s_fixed_index_of face_index with
  | none => ⟨some Err.OomphLibError, P⟩
  | some s_fixed_index =>
    let edge_sign := edge_sign_of face_index
    let M1 := match u_fn with
      | some u => (List.range n_node).foldl (dirichlet_u_node b s_fixed_index n_node u)
          P.Bulk_element_mesh_pt
      | none => P.Bulk_element_mesh_pt
    match dudn_fn with
    | none => ⟨none, { P with Bulk_element_mesh_pt := M1 }⟩
    | some dudn =>
      let r := for_loop (dirichlet_dudn_node F b s_fixed_index n_node edge_sign u_fn dudn)
        (List.range n_node) M1
      ⟨r.err, { P with Bulk_element_mesh_pt := r.st }⟩

/-- The hijacking block of `impose_traction_free_edge` for node `n`: the
four-way table on the boundary number `b`. -/
def traction_free_hijack (b s_fixed_index n_node : Nat) (M : Mesh α) (n : Nat) : Mesh α :=
  if b = 0 then
    let M := if n > 0 then M.hijack_nodal_value b (n - 1) 1 (1 + s_fixed_index) else M
    if n < n_node - 1 then M.hijack_nodal_value b n 0 (1 + s_fixed_index) else M
  else if b = 1 then
    let M := if n > 0 then M.hijack_nodal_value b (n - 1) 3 (1 + s_fixed_index) else M
    if n < n_node - 1 then M.hijack_nodal_value b n 1 (1 + s_fixed_index) else M
  else if b = 2 then
    let M := if n > 0 then M.hijack_nodal_value b (n - 1) 3 (1 + s_fixed_index) else M
    if n < n_node - 1 then M.hijack_nodal_value b n 2 (1 + s_fixed_index) else M
  else if b = 3 then
    let M := if n > 0 then M.hijack_nodal_value b (n - 1) 2 (1 + s_fixed_index) else M
    if n < n_node - 1 then M.hijack_nodal_value b n 0 (1 + s_fixed_index) else M
  else M

/-- Body of the node loop of `impose_traction_free_edge`. -/
def traction_free_node [DecidableEq α] (F : Libm α) (b s_fixed_index n_node : Nat)
    (P : BiharmonicFluidProblem α) (n : Nat) : BiharmonicFluidProblem α :=
  let nd := P.mesh_pt.boundary_node_pt b n
  let dxds_n := (P.mesh_pt.node nd).dxds_n s_fixed_index
  let dxds_t := (P.mesh_pt.node nd).dxds_t s_fixed_index
  let dtds_n := dtds_n F dxds_n dxds_t
  if dtds_n = 0 then
    let M := P.mesh_pt.pin nd (1 + s_fixed_index)
    let M := M.set_value nd (1 + s_fixed_index) 0
    { P with mesh_pt := M }
  else
    let M := traction_free_hijack b s_fixed_index n_node P.mesh_pt n
    let M := M.add_element_pt (Element.BiharmonicFluidBoundaryElement nd s_fixed_index)
    { mesh_pt := M, Npoint_element := P.Npoint_element + 1 }

/-- `BiharmonicFluidProblem::impose_traction_free_edge(b)`. -/
def impose_traction_free_edge [DecidableEq α] (F : Libm α) (b : Nat)
    (P : BiharmonicFluidProblem α) : Outcome (BiharmonicFluidProblem α) :=
  let face_index := P.mesh_pt.face_index_at_boundary b 0
  match s_fixed_index_of face_index with
  | none => ⟨some Err.OomphLibError, P⟩
  | some s_fixed_index =>
    let n_node := P.mesh_pt.nboundary_node b
    ⟨none, (List.range n_node).foldl (traction_free_node F b s_fixed_index n_node) P⟩

/-- The `switch(face_index)` of `impose_fluid_flow_on_edge`: the pair
`(s_fixed_index, edge_sign)`, `none` for the `default:` branch that throws. -/
def fluid_flow_switch (face_index : Int) : Option (Nat × Int) :=
  if face_index = -1 then some (0, -1)
  else if face_index = 1 then some (0, 1)
  else if face_index = -2 then some (1, 1)
  else if face_index = 2 then some (1, -1)
  else none

/-- The triple `(duds_n, duds_t, d2uds_nds_t)` computed for one node by
`impose_fluid_flow_on_edge`. -/
def fluid_flow_values (F : Libm α) (b s_fixed_index n_node : Nat) (edge_sign : Int)
    (u_imposed_fn : α → α × α) (n : Nat) (nd : Node α) : α × α × α :=
  let m_N := nd.get_coordinates_on_boundary b
  let dxds_n := nd.dxds_n s_fixed_index
  let dxds_t := nd.dxds_t s_fixed_index
  let d2xds_nds_t := nd.d2xds_nds_t
  let dnds_n := dnds_n F dxds_n dxds_t edge_sign
  let dtds_n := dtds_n F dxds_n dxds_t
  let dtds_t := F.sqrt (dxds_t.1 * dxds_t.1 + dxds_t.2 * dxds_t.2)
  let d2tds_nds_t := d2tds_nds_t F dxds_t d2xds_nds_t
  let u := u_imposed_fn m_N.1
  let u0 := u.1 * (edge_sign : α)
  let u1 := u.2 * (-(edge_sign : α))
  let u_L := if n = 0 then u_imposed_fn m_N.1
    else if n = n_node - 1 then u_imposed_fn (m_N.1 - h)
    else u_imposed_fn (m_N.1 - (1 / 2) * h)
  let u_R := if n = 0 then u_imposed_fn (m_N.1 + h)
    else if n = n_node - 1 then u_imposed_fn m_N.1
    else u_imposed_fn (m_N.1 + (1 / 2) * h)
  let ddm_tdudn := (u_R.2 - u_L.2) / h
  let ddm_tdudt := (u_R.1 - u_L.1) / h
  let duds_t := dtds_t * u0
  let duds_n := dnds_n * u1 + dtds_n * u0
  let d2uds_nds_t := dnds_n * m_N.2 * ddm_tdudn + d2tds_nds_t * u0 + dtds_n * m_N.2 * ddm_tdudt
  (duds_n, duds_t, d2uds_nds_t)

/-- Body of the node loop of `impose_fluid_flow_on_edge`. -/
def fluid_flow_node (F : Libm α) (b s_fixed_index n_node : Nat) (edge_sign : Int)
    (u_imposed_fn : α → α × α) (M : Mesh α) (n : Nat) : Mesh α :=
  let nd := M.boundary_node_pt b n
  let v := fluid_flow_values F b s_fixed_index n_node edge_sign u_imposed_fn n (M.node nd)
  let M := M.pin nd (1 + s_fixed_index)
  let M := M.set_value nd (1 + s_fixed_index) v.1
  let M := M.pin nd (2 - s_fixed_index)
  let M := M.set_value nd (2 - s_fixed_index) v.2.1
  let M := M.pin nd 3
  M.set_value nd 3 v.2.2

/-- `BiharmonicFluidProblem::impose_fluid_flow_on_edge(b, u_imposed_fn)`; the
call-back is called unconditionally by the source and is taken to be callable. -/
def impose_fluid_flow_on_edge (F : Libm α) (b : Nat) (u_imposed_fn : α → α × α)
    (P : BiharmonicFluidProblem α) : Outcome (BiharmonicFluidProblem α) :=
  let n_node := P.mesh_pt.nboundary_node b
  let face_index := P.mesh_pt.face_index_at_boundary b 0
  match fluid_flow_switch face_index with
  | none => ⟨some Err.OomphLibError, P⟩
  | some (s_fixed_index, edge_sign) =>
    let M := (List.range n_node).foldl
      (fluid_flow_node F b s_fixed_index n_node edge_sign u_imposed_fn) P.mesh_pt
    ⟨none, { P with mesh_pt := M }⟩


/-! ## Auxiliary definitions: closed forms of the node loops -/

/-- The node with identifier `j` after iterations `0 .. k-1` of a loop whose
`i`-th iteration applies `F i` to the node `ids[i]`. -/
def node_after (ids : List Nat) (F : Nat → Node α → Node α) (k j : Nat) (nd : Node α) : Node α :=
  ((List.range k).filter (fun i => ids.getD i 0 = j)).foldl (fun x i => F i x) nd

/-- Net effect on the visited node of iteration `n` of the `u_fn` loop. -/
def dirichlet_u_effect (b s_fixed_index n_node : Nat) (u_fn : α → α) (n : Nat)
    (nd : Node α) : Node α :=
  (((nd.pin 0).set_value 0 (u_fn (nd.get_coordinates_on_boundary b).1)).pin
    (2 - s_fixed_index)).set_value (2 - s_fixed_index)
      ((nd.get_coordinates_on_boundary b).2
        * dirichlet_dudm_t u_fn n n_node (nd.get_coordinates_on_boundary b).1)

/-- Net effect on the visited node of iteration `n` of the `dudn_fn` loop. -/
def dirichlet_dudn_effect (F : Libm α) (b s_fixed_index n_node : Nat) (edge_sign : Int)
    (u_fn dudn_fn : α → α) (n : Nat) (nd : Node α) : Node α :=
  (((nd.pin (1 + s_fixed_index)).set_value (1 + s_fixed_index)
    (dirichlet_dudn_values F b s_fixed_index n_node edge_sign u_fn dudn_fn n nd).1).pin
      3).set_value 3
        (dirichlet_dudn_values F b s_fixed_index n_node edge_sign u_fn dudn_fn n nd).2

/-- The mesh after a loop over the nodes of boundary `b` whose `n`-th iteration
applies `E n` to the node it visits. -/
def Mesh.after_loop (M : Mesh α) (b : Nat) (E : Nat → Node α → Node α) : Mesh α :=
  { M with node := fun j => node_after (M.boundary_node b) E (M.nboundary_node b) j (M.node j) }

/-- The bulk mesh after the `u_fn` loop. -/
def dirichlet_u_mesh (b s_fixed_index : Nat) (u_fn : α → α) (M : Mesh α) : Mesh α :=
  M.after_loop b (dirichlet_u_effect b s_fixed_index (M.nboundary_node b) u_fn)

/-- The bulk mesh after the `dudn_fn` loop (with `u_fn` callable). -/
def dirichlet_dudn_mesh (F : Libm α) (b s_fixed_index : Nat) (edge_sign : Int)
    (u_fn dudn_fn : α → α) (M : Mesh α) : Mesh α :=
  M.after_loop b
    (dirichlet_dudn_effect F b s_fixed_index (M.nboundary_node b) edge_sign u_fn dudn_fn)

/-- The node `boundary_node_pt(b,n)` of the bulk mesh before a call. -/
def BiharmonicProblem.boundary_node (P : BiharmonicProblem α) (b n : Nat) : Node α :=
  P.Bulk_element_mesh_pt.node (P.Bulk_element_mesh_pt.boundary_node_pt b n)

/-- The node `boundary_node_pt(b,n)` of the bulk mesh in the state reached by
`set_dirichlet_boundary_condition(b, u_fn, dudn_fn)`. -/
def dirichlet_node_after (F : Libm α) (b : Nat) (u_fn dudn_fn : Option (α → α))
    (P : BiharmonicProblem α) (n : Nat) : Node α :=
  (set_dirichlet_boundary_condition F b u_fn dudn_fn P).st.Bulk_element_mesh_pt.node
    (P.Bulk_element_mesh_pt.boundary_node_pt b n)


/-! ## A concrete three-node boundary over `ℚ`, used to instantiate the theorems -/

/-- A maths library over `ℚ`: the rational square root, and `pow` for the two
exponents that occur. -/
def exLibm : Libm ℚ :=
  ⟨Rat.sqrt, fun x y => if y = 2 then x * x else Rat.sqrt x * Rat.sqrt x * Rat.sqrt x⟩

/-- A free node at boundary coordinate `m0` with stretch factor `1`, tangent
`(1,0)` and second direction `(skew,1)`. -/
def exNode (m0 skew : ℚ) : Node ℚ :=
  { value := fun _ => 0
    pinned := fun _ => false
    x_gen := fun k i =>
      if k = 0 then (if i = 0 then m0 else 0)
      else if k = 1 then (if i = 0 then 1 else 0)
      else if k = 2 then (if i = 0 then skew else 1)
      else 0
    get_coordinates_on_boundary := fun _ => (m0, 1) }

/-- Two bulk elements in a row; boundary `0` carries the nodes `0, 1, 2` at
boundary coordinates `-1, 0, 1` and has face index `-2`. -/
def exMesh (skew : ℚ) : Mesh ℚ :=
  { node := fun j => exNode ((j : ℚ) - 1) skew
    boundary_node := fun b => if b = 0 then [0, 1, 2] else []
    face_index_at_boundary := fun _ _ => -2
    boundary_element_pt := fun _ e => e
    nboundary_element := fun b => if b = 0 then 2 else 0
    element_pt := [Element.bulk 0, Element.bulk 1]
    hijacked := [] }

/-- The example as a `BiharmonicProblem`. -/
def exProblem (skew : ℚ) : BiharmonicProblem ℚ := ⟨exMesh skew, none⟩

/-- The example as a `BiharmonicFluidProblem`. -/
def exFluidProblem (skew : ℚ) : BiharmonicFluidProblem ℚ := ⟨exMesh skew, 0⟩


/-- Net effect of one iteration of the loop of `impose_traction_free_edge` on
the node it visits. -/
def traction_free_effect [DecidableEq α] (F : Libm α) (s_fixed_index : Nat) (nd : Node α) :
    Node α :=
  if dtds_n F (nd.dxds_n s_fixed_index) (nd.dxds_t s_fixed_index) = 0 then
    (nd.pin (1 + s_fixed_index)).set_value (1 + s_fixed_index) 0
  else nd

/-- The calls of `hijack_nodal_value` made for node `n` of boundary `b`, in
order. -/
def traction_free_hijacks (b s_fixed_index n_node n : Nat) : List HijackCall :=
  if b = 0 then
    (if n > 0 then [⟨b, n - 1, 1, 1 + s_fixed_index⟩] else [])
      ++ (if n < n_node - 1 then [⟨b, n, 0, 1 + s_fixed_index⟩] else [])
  else if b = 1 then
    (if n > 0 then [⟨b, n - 1, 3, 1 + s_fixed_index⟩] else [])
      ++ (if n < n_node - 1 then [⟨b, n, 1, 1 + s_fixed_index⟩] else [])
  else if b = 2 then
    (if n > 0 then [⟨b, n - 1, 3, 1 + s_fixed_index⟩] else [])
      ++ (if n < n_node - 1 then [⟨b, n, 2, 1 + s_fixed_index⟩] else [])
  else if b = 3 then
    (if n > 0 then [⟨b, n - 1, 2, 1 + s_fixed_index⟩] else [])
      ++ (if n < n_node - 1 then [⟨b, n, 0, 1 + s_fixed_index⟩] else [])
  else []

/-- The value `dt/ds_n` computed by `impose_traction_free_edge` at node `n` of
boundary `b`. -/
def traction_free_dtds_n (F : Libm α) (M : Mesh α) (b s_fixed_index n : Nat) : α :=
  dtds_n F ((M.node (M.boundary_node_pt b n)).dxds_n s_fixed_index)
    ((M.node (M.boundary_node_pt b n)).dxds_t s_fixed_index)

/-- The indices `n < k` of the boundary nodes with `dt/ds_n ≠ 0`. -/
def traction_free_active [DecidableEq α] (F : Libm α) (M : Mesh α) (b s_fixed_index k : Nat) :
    List Nat :=
  (List.range k).filter (fun n => decide (traction_free_dtds_n F M b s_fixed_index n ≠ 0))

/-- The state after iterations `0 .. k-1` of the loop of
`impose_traction_free_edge`. -/
def traction_free_state [DecidableEq α] (F : Libm α) (b s_fixed_index n_node k : Nat)
    (P : BiharmonicFluidProblem α) : BiharmonicFluidProblem α :=
  ⟨⟨fun j => node_after (P.mesh_pt.boundary_node b)
        (fun _ => traction_free_effect F s_fixed_index) k j (P.mesh_pt.node j),
      P.mesh_pt.boundary_node, P.mesh_pt.face_index_at_boundary, P.mesh_pt.boundary_element_pt,
      P.mesh_pt.nboundary_element,
      P.mesh_pt.element_pt ++ (traction_free_active F P.mesh_pt b s_fixed_index k).map
        (fun n => Element.BiharmonicFluidBoundaryElement (P.mesh_pt.boundary_node_pt b n)
          s_fixed_index),
      P.mesh_pt.hijacked ++ (traction_free_active F P.mesh_pt b s_fixed_index k).flatMap
        (traction_free_hijacks b s_fixed_index n_node)⟩,
    P.Npoint_element + (traction_free_active F P.mesh_pt b s_fixed_index k).length⟩

/-- The node `boundary_node_pt(b,n)` of a fluid problem. -/
def BiharmonicFluidProblem.boundary_node (P : BiharmonicFluidProblem α) (b n : Nat) : Node α :=
  P.mesh_pt.node (P.mesh_pt.boundary_node_pt b n)


/-- The node `boundary_node_pt(b,n)` in the state reached by
`impose_traction_free_edge(b)`. -/
def traction_free_node_after [DecidableEq α] (F : Libm α) (b : Nat)
    (P : BiharmonicFluidProblem α) (n : Nat) : Node α :=
  (impose_traction_free_edge F b P).st.mesh_pt.node (P.mesh_pt.boundary_node_pt b n)

/-- The value `dt/ds_n` of a node, as `impose_traction_free_edge` computes it. -/
def Node.dtds_n (nd : Node α) (F : Libm α) (s_fixed_index : Nat) : α :=
  Biharmonic.dtds_n F (nd.dxds_n s_fixed_index) (nd.dxds_t s_fixed_index)


/-! ## `BiharmonicFluidBoundaryElement`: residual and Jacobian -/

/-- A `BiharmonicFluidBoundaryElement` as its residual routine sees it: the
node `node_pt(0)`, `S_fixed_index`, and the local equation numbers
`nodal_local_eqn(0,k)` (negative for a pinned dof). -/
structure BiharmonicFluidBoundaryElement (α : Type) where
  node_pt : Node α
  S_fixed_index : Nat
  nodal_local_eqn : Nat → Int

/-- `jacobian(i,j) += v` on a `DenseMatrix<double>`. -/
def DenseMatrix_add (jacobian : Nat → Nat → α) (i j : Nat) (v : α) : Nat → Nat → α :=
  fun a c => if a = i ∧ c = j then jacobian a c + v else jacobian a c

/-- `BiharmonicFluidBoundaryElement::
fill_in_generic_residual_contribution_biharmonic_boundary(residual, jacobian, JFLAG)`:
the residual vector and the Jacobian after the call. -/
def BiharmonicFluidBoundaryElement.fill_in_generic_residual_contribution_biharmonic_boundary
    (E : BiharmonicFluidBoundaryElement α) (F : Libm α) (residual : Nat → α)
    (jacobian : Nat → Nat → α) (JFLAG : Nat) : (Nat → α) × (Nat → Nat → α) :=
  let k_normal := 1 + E.S_fixed_index
  let k_tangential := 2 - E.S_fixed_index
  let dxds_n := E.node_pt.dxds_n E.S_fixed_index
  let dxds_t := E.node_pt.dxds_t E.S_fixed_index
  let dtds_n := dtds_n F dxds_n dxds_t
  let ds_tdt := ds_tdt F dxds_t
  let local_eqn_number := E.nodal_local_eqn k_normal
  if local_eqn_number ≥ 0 then
    let residual := Function.update residual local_eqn_number.toNat
      (residual local_eqn_number.toNat
        + (E.node_pt.value k_normal - dtds_n * ds_tdt * E.node_pt.value k_tangential))
    if JFLAG = 1 then
      let local_dof_number := E.nodal_local_eqn k_normal
      let jacobian := if local_dof_number ≥ 0 then
          DenseMatrix_add jacobian local_eqn_number.toNat local_dof_number.toNat 1
        else jacobian
      let local_dof_number := E.nodal_local_eqn k_tangential
      let jacobian := if local_dof_number ≥ 0 then
          DenseMatrix_add jacobian local_eqn_number.toNat local_dof_number.toNat
            (-(dtds_n * ds_tdt))
        else jacobian
      (residual, jacobian)
    else (residual, jacobian)
  else (residual, jacobian)

/-- The coefficient `dt/ds_n * ds_t/dt` of the boundary element. -/
def BiharmonicFluidBoundaryElement.coefficient (E : BiharmonicFluidBoundaryElement α)
    (F : Libm α) : α :=
  dtds_n F (E.node_pt.dxds_n E.S_fixed_index) (E.node_pt.dxds_t E.S_fixed_index)
    * ds_tdt F (E.node_pt.dxds_t E.S_fixed_index)

/-- The element with nodal value `k` of its node replaced by `v`. -/
def BiharmonicFluidBoundaryElement.with_value (E : BiharmonicFluidBoundaryElement α)
    (k : Nat) (v : α) : BiharmonicFluidBoundaryElement α :=
  ⟨E.node_pt.set_value k v, E.S_fixed_index, E.nodal_local_eqn⟩

/-- An example element over `ℚ`: node `1` of the skewed example with nodal
values `value(k) = k`, normal dof at local equation `0`, tangential dof at `1`. -/
def exBoundaryElement : BiharmonicFluidBoundaryElement ℚ :=
  ⟨{ exNode 0 1 with value := fun k => (k : ℚ) }, 1, fun k => if k = 2 then 0 else if k = 1 then 1 else -1⟩


/-! ## `set_neumann_boundary_condition` and `impose_solid_boundary_on_edge` -/

/-- Modelled from the spec: the constructor
`BiharmonicFluxElement<2>(bulk_elem_pt, face_index, b)`, whose code is not in
these sources.  Following the spec ("construct one boundary flux element bound
to that element's edge ... weak/natural BC, no pinning") it records its three
arguments, leaves both flux pointers null and touches no node of the bulk
mesh. -/
def BiharmonicFluxElement.construct (bulk_elem_pt : Nat) (face_index : Int) (b : Nat) :
    BiharmonicFluxElement α :=
  ⟨bulk_elem_pt, face_index, b, none, none⟩

/-- Body of the element loop of `set_neumann_boundary_condition`: build the
flux element of bulk element `e`, pass it the flux pointers and add it to the
face mesh. -/
def neumann_element (b : Nat) (flux0_fct_pt flux1_fct_pt : Option (α → α)) (M : Mesh α)
    (face_mesh : List (BiharmonicFluxElement α)) (e : Nat) : List (BiharmonicFluxElement α) :=
  let bulk_elem_pt := M.boundary_element_pt b e
  let face_index := M.face_index_at_boundary b e
  let flux_element_pt : BiharmonicFluxElement α :=
    BiharmonicFluxElement.construct bulk_elem_pt face_index b
  let flux_element_pt := { flux_element_pt with flux0_fct_pt := flux0_fct_pt }
  let flux_element_pt := match flux1_fct_pt with
    | some f => { flux_element_pt with flux1_fct_pt := some f }
    | none => flux_element_pt
  face_mesh ++ [flux_element_pt]

/-- `BiharmonicProblem::set_neumann_boundary_condition(b, flux0_fct_pt, flux1_fct_pt)`. -/
def set_neumann_boundary_condition (b : Nat) (flux0_fct_pt flux1_fct_pt : Option (α → α))
    (P : BiharmonicProblem α) : BiharmonicProblem α :=
  let face_mesh := match P.Face_element_mesh_pt with
    | none => []
    | some m => m
  let n_element := P.Bulk_element_mesh_pt.nboundary_element b
  let face_mesh := (List.range n_element).foldl
    (neumann_element b flux0_fct_pt flux1_fct_pt P.Bulk_element_mesh_pt) face_mesh
  { P with Face_element_mesh_pt := some face_mesh }

/-- Body of the node loop of `impose_solid_boundary_on_edge`. -/
def solid_boundary_node (b : Nat) (psi : α) (M : Mesh α) (n : Nat) : Mesh α :=
  let M := [1, 2, 3].foldl
    (fun M k => (M.pin (M.boundary_node_pt b n) k).set_value (M.boundary_node_pt b n) k 0) M
  let M := M.pin (M.boundary_node_pt b n) 0
  M.set_value (M.boundary_node_pt b n) 0 psi

/-- `BiharmonicFluidProblem::impose_solid_boundary_on_edge(b, psi)`. -/
def impose_solid_boundary_on_edge (b : Nat) (psi : α) (P : BiharmonicFluidProblem α) :
    BiharmonicFluidProblem α :=
  let n_node := P.mesh_pt.nboundary_node b
  let M := (List.range n_node).foldl (solid_boundary_node b psi) P.mesh_pt
  { P with mesh_pt := M }

/-- Net effect of one iteration of the loop of `impose_solid_boundary_on_edge`
on the node it visits. -/
def solid_boundary_effect (psi : α) (nd : Node α) : Node α :=
  ((((((((nd.pin 1).set_value 1 0).pin 2).set_value 2 0).pin 3).set_value 3 0).pin
    0).set_value 0 psi)

/-- Net effect of one iteration of the loop of `impose_fluid_flow_on_edge` on
the node it visits. -/
def fluid_flow_effect (F : Libm α) (b s_fixed_index n_node : Nat) (edge_sign : Int)
    (u_imposed_fn : α → α × α) (n : Nat) (nd : Node α) : Node α :=
  ((((((nd.pin (1 + s_fixed_index)).set_value (1 + s_fixed_index)
    (fluid_flow_values F b s_fixed_index n_node edge_sign u_imposed_fn n nd).1).pin
      (2 - s_fixed_index)).set_value (2 - s_fixed_index)
        (fluid_flow_values F b s_fixed_index n_node edge_sign u_imposed_fn n nd).2.1).pin
          3).set_value 3
            (fluid_flow_values F b s_fixed_index n_node edge_sign u_imposed_fn n nd).2.2)


/-! ## The preconditioner classes of `biharmonic_preconditioner.h`

Pointers are `Option Nat`: `none` is the null pointer, `some p` the object with
handle `p`.  The heap is represented by the log of the handles passed to
`delete`, in order; a handle that occurs twice in the log has been deleted
twice. -/

/-- The statement `delete p;`: deleting the null pointer does nothing. -/
def delete (p : Option Nat) (deleted : List Nat) : List Nat :=
  match p with
  | none => deleted
  | some a => deleted ++ [a]

/-- Data members of `BiharmonicPreconditioner` (`nmesh` is the value passed to
`set_nmesh`). -/
structure BiharmonicPreconditioner where
  Preconditioner_type : Nat
  Sub_preconditioner_1_pt : Option Nat
  Sub_preconditioner_2_pt : Option Nat
  Hijacked_sub_block_preconditioner_pt : Option Nat
  Bulk_element_mesh_pt : Option Nat
  nmesh : Nat
  deriving DecidableEq

/-- The constructor `BiharmonicPreconditioner()`; `OOMPH_HAS_HYPRE` tells
whether the preprocessor symbol is defined. -/
def BiharmonicPreconditioner.construct (OOMPH_HAS_HYPRE : Bool) : BiharmonicPreconditioner :=
  { Sub_preconditioner_1_pt := none
    Sub_preconditioner_2_pt := none
    Hijacked_sub_block_preconditioner_pt := none
    Preconditioner_type := if OOMPH_HAS_HYPRE then 2 else 1
    nmesh := 1
    Bulk_element_mesh_pt := none }

/-- `BiharmonicPreconditioner::clean_up_memory()`: three `delete` statements;
the data members are not assigned. -/
def BiharmonicPreconditioner.clean_up_memory (S : BiharmonicPreconditioner × List Nat) :
    BiharmonicPreconditioner × List Nat :=
  let deleted := delete S.1.Sub_preconditioner_1_pt S.2
  let deleted := delete S.1.Sub_preconditioner_2_pt deleted
  let deleted := delete S.1.Hijacked_sub_block_preconditioner_pt deleted
  (S.1, deleted)

/-- Data members of `ExactSubBiharmonicPreconditioner`. -/
structure ExactSubBiharmonicPreconditioner where
  Sub_preconditioner_pt : Option Nat
  Retain_all_blocks : Bool
  deriving DecidableEq

/-- `ExactSubBiharmonicPreconditioner::clean_up_memory()`. -/
def ExactSubBiharmonicPreconditioner.clean_up_memory
    (S : ExactSubBiharmonicPreconditioner × List Nat) :
    ExactSubBiharmonicPreconditioner × List Nat :=
  let deleted := delete S.1.Sub_preconditioner_pt S.2
  ({ S.1 with Sub_preconditioner_pt := none }, deleted)

/-- A `DenseMatrix<CRDoubleMatrix*>`: its dimensions and entries. -/
structure DenseMatrix where
  nrow : Nat
  ncol : Nat
  entry : Nat → Nat → Option Nat

/-- Data members of `InexactSubBiharmonicPreconditioner`. -/
structure InexactSubBiharmonicPreconditioner where
  S_00_preconditioner_pt : Option Nat
  Lumped_J_11_preconditioner_pt : Option Nat
  Lumped_J_22_preconditioner_pt : Option Nat
  Matrix_of_block_pointers : DenseMatrix
  S_00_pt : Option Nat
  Use_amg : Nat

/-- Body of the inner loop of `InexactSubBiharmonicPreconditioner::clean_up_memory`:
`if (Matrix_of_block_pointers(i,j) != 0) { delete ...; Matrix_of_block_pointers(i,j) = 0; }`. -/
def clean_block_pointer (i : Nat) (S : (Nat → Nat → Option Nat) × List Nat) (j : Nat) :
    (Nat → Nat → Option Nat) × List Nat :=
  match S.1 i j with
  | some a => (fun r c => if r = i ∧ c = j then none else S.1 r c, delete (some a) S.2)
  | none => S

/-- `InexactSubBiharmonicPreconditioner::clean_up_memory()`. -/
def InexactSubBiharmonicPreconditioner.clean_up_memory
    (S : InexactSubBiharmonicPreconditioner × List Nat) :
    InexactSubBiharmonicPreconditioner × List Nat :=
  let deleted := delete S.1.S_00_preconditioner_pt S.2
  let deleted := delete S.1.Lumped_J_11_preconditioner_pt deleted
  let deleted := delete S.1.Lumped_J_22_preconditioner_pt deleted
  let n := S.1.Matrix_of_block_pointers.nrow
  let blocks := (List.range n).foldl
    (fun st i => (List.range n).foldl (clean_block_pointer i) st)
    (S.1.Matrix_of_block_pointers.entry, deleted)
  ({ S.1 with
      S_00_preconditioner_pt := none
      Lumped_J_11_preconditioner_pt := none
      Lumped_J_22_preconditioner_pt := none
      Matrix_of_block_pointers :=
        ⟨S.1.Matrix_of_block_pointers.nrow, S.1.Matrix_of_block_pointers.ncol, blocks.1⟩ },
    blocks.2)

/-- A `BiharmonicPreconditioner` after a `setup()` that created the exact
sub-preconditioner (handle `7`) and the hijacked-block preconditioner (handle `9`). -/
def exPreconditioner : BiharmonicPreconditioner :=
  { BiharmonicPreconditioner.construct false with
    Sub_preconditioner_1_pt := some 7
    Hijacked_sub_block_preconditioner_pt := some 9 }

/-- An `InexactSubBiharmonicPreconditioner` holding a Schur-complement
preconditioner (handle `1`), one lumped preconditioner (handle `2`) and a
`3 x 3` matrix of block pointers with the blocks `(0,0)`, `(0,1)`, `(1,0)` set. -/
def exInexact : InexactSubBiharmonicPreconditioner :=
  { S_00_preconditioner_pt := some 1
    Lumped_J_11_preconditioner_pt := some 2
    Lumped_J_22_preconditioner_pt := none
    Matrix_of_block_pointers :=
      ⟨3, 3, fun i j => if i + j ≤ 1 then some (10 + 3 * i + j) else none⟩
    S_00_pt := none
    Use_amg := 0 }


/-- The skewed example with its three nodes placed on boundary `4`. -/
def exFluidProblem4 : BiharmonicFluidProblem ℚ :=
  ⟨{ exMesh 1 with boundary_node := fun b => if b = 4 then [0, 1, 2] else [] }, 0⟩


/-! ## Sequences of edge routines of `BiharmonicFluidProblem`, and `doc_solution` -/

/-- One call of an edge routine of `BiharmonicFluidProblem`. -/
inductive FluidEdgeCall (α : Type)
  | impose_traction_free_edge (b : Nat)
  | impose_solid_boundary_on_edge (b : Nat) (psi : α)
  | impose_fluid_flow_on_edge (b : Nat) (u_imposed_fn : α → α × α)

/-- The state after one call (for a call that throws, the state at the throw). -/
def FluidEdgeCall.run [DecidableEq α] (F : Libm α) (P : BiharmonicFluidProblem α)
    (c : FluidEdgeCall α) : BiharmonicFluidProblem α :=
  match c with
  | .impose_traction_free_edge b => (Biharmonic.impose_traction_free_edge F b P).st
  | .impose_solid_boundary_on_edge b psi => Biharmonic.impose_solid_boundary_on_edge b psi P
  | .impose_fluid_flow_on_edge b u_imposed_fn =>
    (Biharmonic.impose_fluid_flow_on_edge F b u_imposed_fn P).st

/-- Whether an element is a `BiharmonicFluidBoundaryElement`. -/
def Element.is_point : Element → Bool
  | .bulk _ => false
  | .BiharmonicFluidBoundaryElement _ _ => true

/-- The elements visited by the velocity loop of `doc_solution`,
`for (i = 0; i < n_element-Npoint_element; i++)`, which treats each of them as a
bulk element. -/
def doc_solution_elements (P : BiharmonicFluidProblem α) : List Element :=
  (List.range (P.mesh_pt.element_pt.length - P.Npoint_element)).map
    (fun i => P.mesh_pt.element_pt.getD i (Element.bulk 0))

/-! ## `LinearElasticityEquationsBase<DIM>` -/

/-- `LinearElasticityEquationsBase<DIM>::ndof_types()`. -/
def LinearElasticityEquationsBase.ndof_types : Nat := 2

/-- `LinearElasticityEquationsBase<DIM>::get_dof_numbers_for_unknowns(dof_lookup_list)`:
`nodal_local_eqn(n,i)` is negative for a pinned value, `eqn_number` maps local
to global equation numbers, new pairs are pushed to the front of the list. -/
def LinearElasticityEquationsBase.get_dof_numbers_for_unknowns (DIM n_node : Nat)
    (nodal_local_eqn : Nat → Nat → Int) (eqn_number : Nat → Nat)
    (dof_lookup_list : List (Nat × Nat)) : List (Nat × Nat) :=
  (List.range n_node).foldl
    (fun l n => (List.range DIM).foldl
      (fun l i =>
        let local_unknown := nodal_local_eqn n i
        if local_unknown ≥ 0 then (eqn_number local_unknown.toNat, i) :: l else l)
      l)
    dof_lookup_list


/-! ## The inexact Schur complement -/

/-- Modelled from the spec: the lumped approximation of a block, kept by
`MatrixBasedLumpedPreconditioner`, whose code is not in these sources.
Following the spec ("a diagonal approximation of a block matrix where each
diagonal entry equals the ... row-sum ... of that block-row's entries") entry
`i` is the sum of row `i`. -/
def lumped {n : Nat} (J : Matrix (Fin n) (Fin n) α) : Fin n → α :=
  fun i => Finset.univ.sum (fun j => J i j)

/-- Modelled from the spec: the body of
`InexactSubBiharmonicPreconditioner::compute_inexact_schur_complement`, of which
these sources hold only the declaration.  Following the spec, the lumped
approximations of `J_11` and `J_22` are "inverted by reciprocal of diagonal
entries" and the products against them are "a diagonal scaling of each
row/column": entry `(i,j)` of `S_00` is `J_00(i,j)` minus the sums over `k` of
`J_01(i,k) * (1/lumped(J_11)(k)) * J_10(k,j)` and of
`J_02(i,k) * (1/lumped(J_22)(k)) * J_20(k,j)`. -/
def compute_inexact_schur_complement {n0 n1 n2 : Nat}
    (J_00 : Matrix (Fin n0) (Fin n0) α) (J_01 : Matrix (Fin n0) (Fin n1) α)
    (J_02 : Matrix (Fin n0) (Fin n2) α) (J_10 : Matrix (Fin n1) (Fin n0) α)
    (J_11 : Matrix (Fin n1) (Fin n1) α) (J_20 : Matrix (Fin n2) (Fin n0) α)
    (J_22 : Matrix (Fin n2) (Fin n2) α) : Matrix (Fin n0) (Fin n0) α :=
  fun i j => J_00 i j
    - Finset.univ.sum (fun k => J_01 i k * (1 / lumped J_11 k) * J_10 k j)
    - Finset.univ.sum (fun k => J_02 i k * (1 / lumped J_22 k) * J_20 k j)


/-- A `1 x 1` block over `ℚ` with entry `c`. -/
def exBlock (c : ℚ) : Matrix (Fin 1) (Fin 1) ℚ := fun _ _ => c

end Arithmetic

/-! # Theorems -/

/-! ## Loops over the nodes of a boundary -/

theorem for_loop_ok {σ : Type} (body : σ → Nat → Except Err σ) (g : σ → Nat → σ)
    (hb : ∀ s n, body s n = .ok (g s n)) (ns : List Nat) (s : σ) :
    for_loop body ns s = ⟨none, ns.foldl g s⟩ := by
  induction ns generalizing s with
  | nil => rfl
  | cons n ns ih => simp [for_loop, hb, ih]

theorem modify_node_modify_node (M : Mesh α) (id : Nat) (f g : Node α → Node α) :
    (M.modify_node id f).modify_node id g = M.modify_node id (fun nd => g (f nd)) := by
  simp [Mesh.modify_node]

theorem foldl_modify_node (b : Nat) (F : Nat → Node α → Node α) (M : Mesh α) (k : Nat) :
    (List.range k).foldl (fun M n => M.modify_node (M.boundary_node_pt b n) (F n)) M
      = { M with node := fun j => node_after (M.boundary_node b) F k j (M.node j) } := by
  induction k with
  | zero => simp [node_after]
  | succ k ih =>
    rw [List.range_succ, List.foldl_append, ih]
    simp only [List.foldl_cons, List.foldl_nil, Mesh.modify_node, Mesh.boundary_node_pt]
    congr 1
    funext j
    by_cases hj : (M.boundary_node b).getD k 0 = j
    · subst hj
      simp [node_after, List.filter_append, List.range_succ]
    · rw [Function.update_noteq (Ne.symm hj)]
      unfold node_after
      rw [List.range_succ, List.filter_append, List.foldl_append]
      have hk : List.filter (fun i => decide ((M.boundary_node b).getD i 0 = j)) [k] = [] := by
        rw [List.filter_cons]
        simp only [hj, decide_False, List.filter_nil]
        rfl
      rw [hk]
      rfl

theorem filter_eq_index (n k : Nat) :
    (List.range k).filter (fun i => decide (i = n)) = if n < k then [n] else [] := by
  induction k with
  | zero => simp
  | succ k ih =>
    rw [List.range_succ, List.filter_append, ih]
    by_cases h1 : n < k
    · have h2 : k ≠ n := by omega
      simp [h1, h2, Nat.lt_succ_of_lt h1]
    · by_cases h2 : k = n
      · subst h2; simp
      · have h3 : ¬ n < k + 1 := by omega
        simp [h1, h2, h3]

theorem filter_index_nodup (ids : List Nat) (hnd : ids.Nodup) (n k : Nat) (hn : n < k)
    (hk : k ≤ ids.length) :
    (List.range k).filter (fun i => decide (ids.getD i 0 = ids.getD n 0)) = [n] := by
  have hcongr : (List.range k).filter (fun i => decide (ids.getD i 0 = ids.getD n 0))
      = (List.range k).filter (fun i => decide (i = n)) := by
    apply List.filter_congr
    intro i hi
    have hik : i < ids.length := lt_of_lt_of_le (List.mem_range.mp hi) hk
    have hnk : n < ids.length := lt_of_lt_of_le hn hk
    rw [List.getD_eq_getElem _ _ hik, List.getD_eq_getElem _ _ hnk]
    simp [List.Nodup.getElem_inj_iff hnd]
  rw [hcongr, filter_eq_index]
  simp [hn]

theorem node_after_nodup (ids : List Nat) (hnd : ids.Nodup) (F : Nat → Node α → Node α)
    (n k : Nat) (hn : n < k) (hk : k ≤ ids.length) (nd : Node α) :
    node_after ids F k (ids.getD n 0) nd = F n nd := by
  unfold node_after
  rw [filter_index_nodup ids hnd n k hn hk]
  rfl

theorem node_after_not_mem (ids : List Nat) (F : Nat → Node α → Node α) (k j : Nat)
    (hk : k ≤ ids.length) (hj : j ∉ ids) (nd : Node α) :
    node_after ids F k j nd = nd := by
  have hnil : (List.range k).filter (fun i => decide (ids.getD i 0 = j)) = [] := by
    rw [List.filter_eq_nil_iff]
    intro i hi
    have hik : i < ids.length := lt_of_lt_of_le (List.mem_range.mp hi) hk
    rw [List.getD_eq_getElem _ _ hik]
    intro he
    exact hj (by rw [← of_decide_eq_true he]; exact List.getElem_mem hik)
  unfold node_after
  rw [hnil]
  rfl

/-- Invariant rule for `node_after`: if `Q` holds initially and is kept by
every `F i`, and every `F i` establishes `P` from `Q`, then `P` holds for a
node that is visited at least once. -/
theorem node_after_ind (ids : List Nat) (F : Nat → Node α → Node α) (n k : Nat) (hn : n < k)
    (nd : Node α) (Q P : Node α → Prop) (hQ0 : Q nd) (hQ : ∀ i x, Q x → Q (F i x))
    (hP : ∀ i x, Q x → P (F i x)) :
    P (node_after ids F k (ids.getD n 0) nd) := by
  have hfold : ∀ (L : List Nat) (x : Node α), Q x → Q (L.foldl (fun x i => F i x) x) := by
    intro L
    induction L with
    | nil => intro x hx; simpa using hx
    | cons a L ih => intro x hx; exact ih _ (hQ a x hx)
  have hmem : n ∈ (List.range k).filter (fun i => decide (ids.getD i 0 = ids.getD n 0)) := by
    simp [hn]
  rcases List.eq_nil_or_concat
      ((List.range k).filter (fun i => decide (ids.getD i 0 = ids.getD n 0))) with hnil | ⟨L, a, hL⟩
  · rw [hnil] at hmem; simp at hmem
  · unfold node_after
    rw [hL, List.concat_eq_append, List.foldl_append]
    exact hP a _ (hfold L nd hQ0)

/-- Invariant rule for `node_after` without a visit: a property kept by every
`F i` holds afterwards. -/
theorem node_after_inv (ids : List Nat) (F : Nat → Node α → Node α) (k j : Nat)
    (nd : Node α) (Q : Node α → Prop) (hQ0 : Q nd) (hQ : ∀ i x, Q x → Q (F i x)) :
    Q (node_after ids F k j nd) := by
  have hfold : ∀ (L : List Nat) (x : Node α), Q x → Q (L.foldl (fun x i => F i x) x) := by
    intro L
    induction L with
    | nil => intro x hx; simpa using hx
    | cons a L ih => intro x hx; exact ih _ (hQ a x hx)
  exact hfold _ nd hQ0

/-! ## Net effect of one loop iteration on the node it visits -/

section Effects

variable [Field α]

theorem dirichlet_u_node_eq (b s_fixed_index n_node : Nat) (u_fn : α → α) (M : Mesh α)
    (n : Nat) :
    dirichlet_u_node b s_fixed_index n_node u_fn M n
      = M.modify_node (M.boundary_node_pt b n)
          (dirichlet_u_effect b s_fixed_index n_node u_fn n) := by
  simp only [dirichlet_u_node, Mesh.pin, Mesh.set_value, modify_node_modify_node]
  simp only [Mesh.modify_node, dirichlet_u_effect]

theorem dirichlet_dudn_node_body_eq (F : Libm α) (b s_fixed_index n_node : Nat)
    (edge_sign : Int) (u_fn dudn_fn : α → α) (M : Mesh α) (n : Nat) :
    dirichlet_dudn_node_body F b s_fixed_index n_node edge_sign u_fn dudn_fn M n
      = M.modify_node (M.boundary_node_pt b n)
          (dirichlet_dudn_effect F b s_fixed_index n_node edge_sign u_fn dudn_fn n) := by
  simp only [dirichlet_dudn_node_body, Mesh.pin, Mesh.set_value, modify_node_modify_node]
  simp only [Mesh.modify_node, dirichlet_dudn_effect]

theorem set_dirichlet_u_only (F : Libm α) (b : Nat) (u_fn : α → α) (P : BiharmonicProblem α)
    (s : Nat)
    (hs : s_fixed_index_of (P.Bulk_element_mesh_pt.face_index_at_boundary b 0) = some s) :
    set_dirichlet_boundary_condition F b (some u_fn) none P
      = ⟨none, ⟨dirichlet_u_mesh b s u_fn P.Bulk_element_mesh_pt, P.Face_element_mesh_pt⟩⟩ := by
  have hbody : dirichlet_u_node b s (P.Bulk_element_mesh_pt.nboundary_node b) u_fn
      = fun M n => M.modify_node (M.boundary_node_pt b n)
          (dirichlet_u_effect b s (P.Bulk_element_mesh_pt.nboundary_node b) u_fn n) := by
    funext M n
    exact dirichlet_u_node_eq b s _ u_fn M n
  simp only [set_dirichlet_boundary_condition, hs]
  rw [hbody, foldl_modify_node]
  rfl

theorem set_dirichlet_both (F : Libm α) (b : Nat) (u_fn dudn_fn : α → α)
    (P : BiharmonicProblem α) (s : Nat)
    (hs : s_fixed_index_of (P.Bulk_element_mesh_pt.face_index_at_boundary b 0) = some s) :
    set_dirichlet_boundary_condition F b (some u_fn) (some dudn_fn) P
      = ⟨none, ⟨dirichlet_dudn_mesh F b s
          (edge_sign_of (P.Bulk_element_mesh_pt.face_index_at_boundary b 0)) u_fn dudn_fn
          (dirichlet_u_mesh b s u_fn P.Bulk_element_mesh_pt), P.Face_element_mesh_pt⟩⟩ := by
  have hbody : dirichlet_u_node b s (P.Bulk_element_mesh_pt.nboundary_node b) u_fn
      = fun M n => M.modify_node (M.boundary_node_pt b n)
          (dirichlet_u_effect b s (P.Bulk_element_mesh_pt.nboundary_node b) u_fn n) := by
    funext M n
    exact dirichlet_u_node_eq b s _ u_fn M n
  have hloop := for_loop_ok
    (dirichlet_dudn_node F b s (P.Bulk_element_mesh_pt.nboundary_node b)
      (edge_sign_of (P.Bulk_element_mesh_pt.face_index_at_boundary b 0)) (some u_fn) dudn_fn)
    (fun M n => M.modify_node (M.boundary_node_pt b n)
      (dirichlet_dudn_effect F b s (P.Bulk_element_mesh_pt.nboundary_node b)
        (edge_sign_of (P.Bulk_element_mesh_pt.face_index_at_boundary b 0)) u_fn dudn_fn n))
    (fun M n => by simp only [dirichlet_dudn_node, dirichlet_dudn_node_body_eq])
  simp only [set_dirichlet_boundary_condition, hs]
  rw [hloop, hbody, foldl_modify_node, foldl_modify_node]
  rfl

end Effects

/-! ## Facts about the face-index switches and the stencils -/

theorem s_fixed_index_of_valid (f : Int) (hf : f = -2 ∨ f = -1 ∨ f = 1 ∨ f = 2) :
    ∃ s, s_fixed_index_of f = some s ∧ (s = 0 ∨ s = 1) := by
  rcases hf with rfl | rfl | rfl | rfl <;> simp [s_fixed_index_of]

theorem s_fixed_index_of_range (f : Int) (s : Nat) (hs : s_fixed_index_of f = some s) :
    s = 0 ∨ s = 1 := by
  unfold s_fixed_index_of at hs
  split_ifs at hs <;> simp_all

theorem s_fixed_index_of_eq_none (f : Int) :
    s_fixed_index_of f = none ↔ ¬ (f = -2 ∨ f = -1 ∨ f = 1 ∨ f = 2) := by
  unfold s_fixed_index_of
  split_ifs with h1 h2 <;> simp <;> omega

section Stencils

variable [Field α]

theorem h_eq : (h : α) = 1 / 10 ^ 7 := by
  unfold h
  by_cases h10 : (10 : α) = 0
  · simp [h10]
  · field_simp
    ring

theorem h_ne_zero [CharZero α] : (h : α) ≠ 0 := by
  unfold h
  norm_num

theorem dirichlet_dudm_t_affine [CharZero α] (a c : α) (n n_node : Nat) (m0 : α) :
    dirichlet_dudm_t (fun m => a * m + c) n n_node m0 = a := by
  have hh : (h : α) ≠ 0 := h_ne_zero
  unfold dirichlet_dudm_t
  split_ifs <;> field_simp <;> ring

theorem dirichlet_dudm_t_const (c : α) (n n_node : Nat) (m0 : α) :
    dirichlet_dudm_t (fun _ => c) n n_node m0 = 0 := by
  unfold dirichlet_dudm_t
  split_ifs <;> simp

end Stencils

/-! ## Field-wise description of the node effects -/

section EffectFacts

variable [Field α]

theorem dirichlet_u_effect_geometry (b s n_node : Nat) (u_fn : α → α) (n : Nat) (nd : Node α) :
    (dirichlet_u_effect b s n_node u_fn n nd).x_gen = nd.x_gen
      ∧ (dirichlet_u_effect b s n_node u_fn n nd).get_coordinates_on_boundary
          = nd.get_coordinates_on_boundary := by
  simp [dirichlet_u_effect, Node.pin, Node.set_value]

theorem dirichlet_u_effect_slots (b s n_node : Nat) (hs : s = 0 ∨ s = 1) (u_fn : α → α)
    (n : Nat) (nd : Node α) :
    (dirichlet_u_effect b s n_node u_fn n nd).pinned 0 = true
      ∧ (dirichlet_u_effect b s n_node u_fn n nd).value 0
          = u_fn (nd.get_coordinates_on_boundary b).1
      ∧ (dirichlet_u_effect b s n_node u_fn n nd).pinned (2 - s) = true
      ∧ (dirichlet_u_effect b s n_node u_fn n nd).value (2 - s)
          = (nd.get_coordinates_on_boundary b).2
              * dirichlet_dudm_t u_fn n n_node (nd.get_coordinates_on_boundary b).1 := by
  rcases hs with rfl | rfl <;> simp [dirichlet_u_effect, Node.pin, Node.set_value]

theorem dirichlet_u_effect_frame (b s n_node : Nat) (u_fn : α → α) (n : Nat) (nd : Node α)
    (k : Nat) (hk0 : k ≠ 0) (hk : k ≠ 2 - s) :
    (dirichlet_u_effect b s n_node u_fn n nd).pinned k = nd.pinned k
      ∧ (dirichlet_u_effect b s n_node u_fn n nd).value k = nd.value k := by
  simp [dirichlet_u_effect, Node.pin, Node.set_value, Function.update_noteq hk0,
    Function.update_noteq hk]

theorem dirichlet_dudn_effect_geometry (F : Libm α) (b s n_node : Nat) (es : Int)
    (u_fn dudn_fn : α → α) (n : Nat) (nd : Node α) :
    (dirichlet_dudn_effect F b s n_node es u_fn dudn_fn n nd).x_gen = nd.x_gen
      ∧ (dirichlet_dudn_effect F b s n_node es u_fn dudn_fn n nd).get_coordinates_on_boundary
          = nd.get_coordinates_on_boundary := by
  simp [dirichlet_dudn_effect, Node.pin, Node.set_value]

theorem dirichlet_dudn_effect_slots (F : Libm α) (b s n_node : Nat) (hs : s = 0 ∨ s = 1)
    (es : Int) (u_fn dudn_fn : α → α) (n : Nat) (nd : Node α) :
    (dirichlet_dudn_effect F b s n_node es u_fn dudn_fn n nd).pinned (1 + s) = true
      ∧ (dirichlet_dudn_effect F b s n_node es u_fn dudn_fn n nd).value (1 + s)
          = (dirichlet_dudn_values F b s n_node es u_fn dudn_fn n nd).1
      ∧ (dirichlet_dudn_effect F b s n_node es u_fn dudn_fn n nd).pinned 3 = true
      ∧ (dirichlet_dudn_effect F b s n_node es u_fn dudn_fn n nd).value 3
          = (dirichlet_dudn_values F b s n_node es u_fn dudn_fn n nd).2 := by
  rcases hs with rfl | rfl <;> simp [dirichlet_dudn_effect, Node.pin, Node.set_value]

theorem dirichlet_dudn_effect_frame (F : Libm α) (b s n_node : Nat) (es : Int)
    (u_fn dudn_fn : α → α) (n : Nat) (nd : Node α) (k : Nat) (hk1 : k ≠ 1 + s) (hk3 : k ≠ 3) :
    (dirichlet_dudn_effect F b s n_node es u_fn dudn_fn n nd).pinned k = nd.pinned k
      ∧ (dirichlet_dudn_effect F b s n_node es u_fn dudn_fn n nd).value k = nd.value k := by
  simp [dirichlet_dudn_effect, Node.pin, Node.set_value, Function.update_noteq hk1,
    Function.update_noteq hk3]

end EffectFacts

/-! ## `set_dirichlet_boundary_condition`: the nodes of the boundary after the call -/

section Dirichlet

variable [Field α]

theorem dirichlet_node_after_u_only (F : Libm α) (b : Nat) (u_fn : α → α)
    (P : BiharmonicProblem α) (s : Nat)
    (hs : s_fixed_index_of (P.Bulk_element_mesh_pt.face_index_at_boundary b 0) = some s)
    (hnd : (P.Bulk_element_mesh_pt.boundary_node b).Nodup) (n : Nat)
    (hn : n < P.Bulk_element_mesh_pt.nboundary_node b) :
    dirichlet_node_after F b (some u_fn) none P n
      = dirichlet_u_effect b s (P.Bulk_element_mesh_pt.nboundary_node b) u_fn n
          (P.boundary_node b n) := by
  unfold dirichlet_node_after
  rw [set_dirichlet_u_only F b u_fn P s hs]
  exact node_after_nodup _ hnd _ n _ hn le_rfl _

theorem dirichlet_node_after_both (F : Libm α) (b : Nat) (u_fn dudn_fn : α → α)
    (P : BiharmonicProblem α) (s : Nat)
    (hs : s_fixed_index_of (P.Bulk_element_mesh_pt.face_index_at_boundary b 0) = some s)
    (hnd : (P.Bulk_element_mesh_pt.boundary_node b).Nodup) (n : Nat)
    (hn : n < P.Bulk_element_mesh_pt.nboundary_node b) :
    dirichlet_node_after F b (some u_fn) (some dudn_fn) P n
      = dirichlet_dudn_effect F b s (P.Bulk_element_mesh_pt.nboundary_node b)
          (edge_sign_of (P.Bulk_element_mesh_pt.face_index_at_boundary b 0)) u_fn dudn_fn n
          (dirichlet_u_effect b s (P.Bulk_element_mesh_pt.nboundary_node b) u_fn n
            (P.boundary_node b n)) := by
  unfold dirichlet_node_after
  rw [set_dirichlet_both F b u_fn dudn_fn P s hs]
  have h1 := node_after_nodup (P.Bulk_element_mesh_pt.boundary_node b) hnd
    (dirichlet_dudn_effect F b s (P.Bulk_element_mesh_pt.nboundary_node b)
      (edge_sign_of (P.Bulk_element_mesh_pt.face_index_at_boundary b 0)) u_fn dudn_fn)
    n _ hn le_rfl
  have h2 := node_after_nodup (P.Bulk_element_mesh_pt.boundary_node b) hnd
    (dirichlet_u_effect b s (P.Bulk_element_mesh_pt.nboundary_node b) u_fn)
    n _ hn le_rfl (P.boundary_node b n)
  simp only [dirichlet_dudn_mesh, dirichlet_u_mesh, Mesh.after_loop, Mesh.nboundary_node,
    Mesh.boundary_node_pt, BiharmonicProblem.boundary_node] at h1 h2 ⊢
  rw [h1, h2]

theorem set_dirichlet_err_none (F : Libm α) (b : Nat) (u_fn : α → α)
    (dudn_fn : Option (α → α)) (P : BiharmonicProblem α) (s : Nat)
    (hs : s_fixed_index_of (P.Bulk_element_mesh_pt.face_index_at_boundary b 0) = some s) :
    (set_dirichlet_boundary_condition F b (some u_fn) dudn_fn P).err = none := by
  cases dudn_fn with
  | none => rw [set_dirichlet_u_only F b u_fn P s hs]
  | some d => rw [set_dirichlet_both F b u_fn d P s hs]

/-- The value and tangential slots of node `n` after the call, for any `dudn_fn`. -/
theorem dirichlet_node_after_u_slots (F : Libm α) (b : Nat) (u_fn : α → α)
    (dudn_fn : Option (α → α)) (P : BiharmonicProblem α) (s : Nat)
    (hs : s_fixed_index_of (P.Bulk_element_mesh_pt.face_index_at_boundary b 0) = some s)
    (hnd : (P.Bulk_element_mesh_pt.boundary_node b).Nodup) (n : Nat)
    (hn : n < P.Bulk_element_mesh_pt.nboundary_node b) :
    (dirichlet_node_after F b (some u_fn) dudn_fn P n).pinned 0 = true
      ∧ (dirichlet_node_after F b (some u_fn) dudn_fn P n).value 0
          = u_fn ((P.boundary_node b n).get_coordinates_on_boundary b).1
      ∧ (dirichlet_node_after F b (some u_fn) dudn_fn P n).pinned (2 - s) = true
      ∧ (dirichlet_node_after F b (some u_fn) dudn_fn P n).value (2 - s)
          = ((P.boundary_node b n).get_coordinates_on_boundary b).2
              * dirichlet_dudm_t u_fn n (P.Bulk_element_mesh_pt.nboundary_node b)
                  ((P.boundary_node b n).get_coordinates_on_boundary b).1 := by
  have hs01 := s_fixed_index_of_range _ s hs
  have hu := dirichlet_u_effect_slots b s (P.Bulk_element_mesh_pt.nboundary_node b) hs01 u_fn n
    (P.boundary_node b n)
  cases dudn_fn with
  | none =>
    rw [dirichlet_node_after_u_only F b u_fn P s hs hnd n hn]
    exact hu
  | some d =>
    rw [dirichlet_node_after_both F b u_fn d P s hs hnd n hn]
    have f0 := dirichlet_dudn_effect_frame F b s (P.Bulk_element_mesh_pt.nboundary_node b)
      (edge_sign_of (P.Bulk_element_mesh_pt.face_index_at_boundary b 0)) u_fn d n
      (dirichlet_u_effect b s (P.Bulk_element_mesh_pt.nboundary_node b) u_fn n
        (P.boundary_node b n)) 0 (by omega) (by omega)
    have f2 := dirichlet_dudn_effect_frame F b s (P.Bulk_element_mesh_pt.nboundary_node b)
      (edge_sign_of (P.Bulk_element_mesh_pt.face_index_at_boundary b 0)) u_fn d n
      (dirichlet_u_effect b s (P.Bulk_element_mesh_pt.nboundary_node b) u_fn n
        (P.boundary_node b n)) (2 - s) (by omega) (by omega)
    rw [f0.1, f0.2, f2.1, f2.2]
    exact hu

end Dirichlet


/-! ## Claims about `set_dirichlet_boundary_condition` -/

section DirichletClaims

variable [Field α]

/-- C1: for a boundary `b` whose face index is one of `-2, -1, 1, 2` and a
supplied `u_fn` (with any `dudn_fn`, supplied or not), the call completes and
every node `n` of boundary `b` has slot `0` pinned with value `u_fn(m0)` and
the tangential slot `2 - s_fixed_index` pinned with value `m1 * dudm_t`, where
`(m0, m1)` are the coordinates of the node on `b` and `dudm_t` is the
finite-difference slope computed by the code.  The boundary node list is
duplicate-free, as in every mesh. -/
theorem set_dirichlet_pins_value_and_tangential (F : Libm α) (b : Nat) (u_fn : α → α)
    (dudn_fn : Option (α → α)) (P : BiharmonicProblem α)
    (hface : P.Bulk_element_mesh_pt.face_index_at_boundary b 0 = -2
      ∨ P.Bulk_element_mesh_pt.face_index_at_boundary b 0 = -1
      ∨ P.Bulk_element_mesh_pt.face_index_at_boundary b 0 = 1
      ∨ P.Bulk_element_mesh_pt.face_index_at_boundary b 0 = 2)
    (hnd : (P.Bulk_element_mesh_pt.boundary_node b).Nodup) (n : Nat)
    (hn : n < P.Bulk_element_mesh_pt.nboundary_node b) :
    ∃ s_fixed_index,
      s_fixed_index_of (P.Bulk_element_mesh_pt.face_index_at_boundary b 0) = some s_fixed_index
      ∧ (set_dirichlet_boundary_condition F b (some u_fn) dudn_fn P).err = none
      ∧ (dirichlet_node_after F b (some u_fn) dudn_fn P n).pinned 0 = true
      ∧ (dirichlet_node_after F b (some u_fn) dudn_fn P n).value 0
          = u_fn ((P.boundary_node b n).get_coordinates_on_boundary b).1
      ∧ (dirichlet_node_after F b (some u_fn) dudn_fn P n).pinned (2 - s_fixed_index) = true
      ∧ (dirichlet_node_after F b (some u_fn) dudn_fn P n).value (2 - s_fixed_index)
          = ((P.boundary_node b n).get_coordinates_on_boundary b).2
              * dirichlet_dudm_t u_fn n (P.Bulk_element_mesh_pt.nboundary_node b)
                  ((P.boundary_node b n).get_coordinates_on_boundary b).1 := by
  obtain ⟨s, hs, _⟩ := s_fixed_index_of_valid _ hface
  exact ⟨s, hs, set_dirichlet_err_none F b u_fn dudn_fn P s hs,
    dirichlet_node_after_u_slots F b u_fn dudn_fn P s hs hnd n hn⟩

/-- C2: in the `u_fn` pass the step is `h = 1e-7` and the slope stored (times
the stretch factor `m1`) in the tangential slot of node `n` is the forward
difference `(u_fn(m0+h) - u_fn(m0))/h` at the first node, the backward
difference `(u_fn(m0) - u_fn(m0-h))/h` at the last node (`n = n_node-1`,
`n ≠ 0`) and the centred difference `(u_fn(m0+h/2) - u_fn(m0-h/2))/h` at every
other node. -/
theorem set_dirichlet_tangential_stencil (F : Libm α) (b : Nat) (u_fn : α → α)
    (dudn_fn : Option (α → α)) (P : BiharmonicProblem α) (s : Nat)
    (hs : s_fixed_index_of (P.Bulk_element_mesh_pt.face_index_at_boundary b 0) = some s)
    (hnd : (P.Bulk_element_mesh_pt.boundary_node b).Nodup) (n : Nat)
    (hn : n < P.Bulk_element_mesh_pt.nboundary_node b) :
    (h : α) = 1 / 10 ^ 7
      ∧ (n = 0 → (dirichlet_node_after F b (some u_fn) dudn_fn P n).value (2 - s)
          = ((P.boundary_node b n).get_coordinates_on_boundary b).2
            * ((u_fn (((P.boundary_node b n).get_coordinates_on_boundary b).1 + h)
                - u_fn ((P.boundary_node b n).get_coordinates_on_boundary b).1) / h))
      ∧ (n ≠ 0 → n = P.Bulk_element_mesh_pt.nboundary_node b - 1 →
          (dirichlet_node_after F b (some u_fn) dudn_fn P n).value (2 - s)
          = ((P.boundary_node b n).get_coordinates_on_boundary b).2
            * ((u_fn ((P.boundary_node b n).get_coordinates_on_boundary b).1
                - u_fn (((P.boundary_node b n).get_coordinates_on_boundary b).1 - h)) / h))
      ∧ (n ≠ 0 → n ≠ P.Bulk_element_mesh_pt.nboundary_node b - 1 →
          (dirichlet_node_after F b (some u_fn) dudn_fn P n).value (2 - s)
          = ((P.boundary_node b n).get_coordinates_on_boundary b).2
            * ((u_fn (((P.boundary_node b n).get_coordinates_on_boundary b).1 + h / 2)
                - u_fn (((P.boundary_node b n).get_coordinates_on_boundary b).1 - h / 2))
                  / h)) := by
  have hv := (dirichlet_node_after_u_slots F b u_fn dudn_fn P s hs hnd n hn).2.2.2
  have hhalf : (1 / 2 : α) * h = h / 2 := by ring
  refine ⟨h_eq, ?_, ?_, ?_⟩
  · intro h0
    rw [hv]
    simp [dirichlet_dudm_t, h0]
  · intro h0 h1
    rw [hv]
    simp [dirichlet_dudm_t, h0, ← h1]
  · intro h0 h1
    rw [hv]
    simp only [dirichlet_dudm_t, if_neg h0, if_neg h1, hhalf]

/-- C3: for an affine boundary function `u_fn(m) = a*m + c` and no `dudn_fn`
(valid face index, characteristic zero so that `h ≠ 0`), the call completes and
sets the value slot of every boundary node to `a*m0 + c` and its tangential
slot to `m1 * a`, whatever the position of the node (first, interior, last);
for `u_fn(m) = m` the tangential slot is exactly `m1`. -/
theorem set_dirichlet_affine [CharZero α] (F : Libm α) (b : Nat) (a c : α)
    (P : BiharmonicProblem α) (s : Nat)
    (hs : s_fixed_index_of (P.Bulk_element_mesh_pt.face_index_at_boundary b 0) = some s)
    (n : Nat) (hn : n < P.Bulk_element_mesh_pt.nboundary_node b) :
    (set_dirichlet_boundary_condition F b (some (fun m => a * m + c)) none P).err = none
      ∧ (dirichlet_node_after F b (some (fun m => a * m + c)) none P n).value 0
          = a * ((P.boundary_node b n).get_coordinates_on_boundary b).1 + c
      ∧ (dirichlet_node_after F b (some (fun m => a * m + c)) none P n).value (2 - s)
          = ((P.boundary_node b n).get_coordinates_on_boundary b).2 * a
      ∧ (dirichlet_node_after F b (some (fun m => m)) none P n).value (2 - s)
          = ((P.boundary_node b n).get_coordinates_on_boundary b).2 := by
  have hs01 := s_fixed_index_of_range _ s hs
  have key : ∀ a c : α,
      (dirichlet_node_after F b (some (fun m => a * m + c)) none P n).value 0
          = a * ((P.boundary_node b n).get_coordinates_on_boundary b).1 + c
      ∧ (dirichlet_node_after F b (some (fun m => a * m + c)) none P n).value (2 - s)
          = ((P.boundary_node b n).get_coordinates_on_boundary b).2 * a := by
    intro a c
    unfold dirichlet_node_after
    rw [set_dirichlet_u_only F b _ P s hs]
    exact node_after_ind (P.Bulk_element_mesh_pt.boundary_node b)
      (dirichlet_u_effect b s (P.Bulk_element_mesh_pt.nboundary_node b) (fun m => a * m + c))
      n _ hn (P.boundary_node b n)
      (fun x => x.get_coordinates_on_boundary
        = (P.boundary_node b n).get_coordinates_on_boundary)
      (fun x => x.value 0 = a * ((P.boundary_node b n).get_coordinates_on_boundary b).1 + c
        ∧ x.value (2 - s) = ((P.boundary_node b n).get_coordinates_on_boundary b).2 * a)
      rfl
      (fun i x hx => by
        beta_reduce at hx ⊢
        rw [(dirichlet_u_effect_geometry b s _ _ i x).2, hx])
      (fun i x hx => by
        beta_reduce at hx ⊢
        have hsl := dirichlet_u_effect_slots b s (P.Bulk_element_mesh_pt.nboundary_node b)
          hs01 (fun m => a * m + c) i x
        rw [hsl.2.1, hsl.2.2.2, dirichlet_dudm_t_affine, hx]
        exact ⟨rfl, rfl⟩)
  refine ⟨set_dirichlet_err_none F b _ none P s hs, (key a c).1, (key a c).2, ?_⟩
  have hid : (fun m : α => m) = fun m => 1 * m + 0 := by
    funext m
    ring
  rw [hid, (key 1 0).2, mul_one]

end DirichletClaims


/-! ## Induction principles for the two passes, without assumptions on the
boundary node list -/

section DirichletInd

variable [Field α]

theorem for_loop_error {σ : Type} (body : σ → Nat → Except Err σ) (e : Err)
    (hb : ∀ s n, body s n = .error e) (ns : List Nat) (hns : ns ≠ []) (s : σ) :
    for_loop body ns s = ⟨some e, s⟩ := by
  cases ns with
  | nil => exact absurd rfl hns
  | cons n ns => simp [for_loop, hb]

theorem set_dirichlet_null_u_fn (F : Libm α) (b : Nat) (dudn_fn : α → α)
    (P : BiharmonicProblem α) (s : Nat)
    (hs : s_fixed_index_of (P.Bulk_element_mesh_pt.face_index_at_boundary b 0) = some s)
    (hn : 0 < P.Bulk_element_mesh_pt.nboundary_node b) :
    set_dirichlet_boundary_condition F b none (some dudn_fn) P
      = ⟨some Err.NullFunctionPointer, P⟩ := by
  have hne : List.range (P.Bulk_element_mesh_pt.nboundary_node b) ≠ [] := by
    intro hnil
    have hlen := congrArg List.length hnil
    simp at hlen
    omega
  simp only [set_dirichlet_boundary_condition, hs]
  rw [for_loop_error _ Err.NullFunctionPointer (fun M n => by simp only [dirichlet_dudn_node])
    _ hne]

/-- Rule for a property of a boundary node after the `u_fn` pass alone. -/
theorem dirichlet_u_only_ind (F : Libm α) (b : Nat) (u_fn : α → α) (P : BiharmonicProblem α)
    (s : Nat)
    (hs : s_fixed_index_of (P.Bulk_element_mesh_pt.face_index_at_boundary b 0) = some s)
    (n : Nat) (hn : n < P.Bulk_element_mesh_pt.nboundary_node b) (R : Node α → Prop)
    (hR : ∀ i x, x.x_gen = (P.boundary_node b n).x_gen →
      x.get_coordinates_on_boundary = (P.boundary_node b n).get_coordinates_on_boundary →
      R (dirichlet_u_effect b s (P.Bulk_element_mesh_pt.nboundary_node b) u_fn i x)) :
    R (dirichlet_node_after F b (some u_fn) none P n) := by
  unfold dirichlet_node_after
  rw [set_dirichlet_u_only F b _ P s hs]
  exact node_after_ind (P.Bulk_element_mesh_pt.boundary_node b)
    (dirichlet_u_effect b s (P.Bulk_element_mesh_pt.nboundary_node b) u_fn)
    n _ hn (P.boundary_node b n)
    (fun x => x.x_gen = (P.boundary_node b n).x_gen
      ∧ x.get_coordinates_on_boundary = (P.boundary_node b n).get_coordinates_on_boundary)
    R ⟨rfl, rfl⟩
    (fun i x hx => by
      beta_reduce at hx ⊢
      rw [(dirichlet_u_effect_geometry b s _ _ i x).1,
        (dirichlet_u_effect_geometry b s _ _ i x).2]
      exact hx)
    (fun i x hx => hR i x hx.1 hx.2)

/-- Rule for a property of a boundary node after both passes: `Q` is
established by the `u_fn` pass and kept by the `dudn_fn` pass, which
establishes `R` from it. -/
theorem dirichlet_both_ind (F : Libm α) (b : Nat) (u_fn dudn_fn : α → α)
    (P : BiharmonicProblem α) (s : Nat)
    (hs : s_fixed_index_of (P.Bulk_element_mesh_pt.face_index_at_boundary b 0) = some s)
    (n : Nat) (hn : n < P.Bulk_element_mesh_pt.nboundary_node b) (Q R : Node α → Prop)
    (h1 : ∀ i x, x.x_gen = (P.boundary_node b n).x_gen →
      x.get_coordinates_on_boundary = (P.boundary_node b n).get_coordinates_on_boundary →
      Q (dirichlet_u_effect b s (P.Bulk_element_mesh_pt.nboundary_node b) u_fn i x))
    (hQ : ∀ i x, x.x_gen = (P.boundary_node b n).x_gen →
      x.get_coordinates_on_boundary = (P.boundary_node b n).get_coordinates_on_boundary →
      Q x → Q (dirichlet_dudn_effect F b s (P.Bulk_element_mesh_pt.nboundary_node b)
        (edge_sign_of (P.Bulk_element_mesh_pt.face_index_at_boundary b 0)) u_fn dudn_fn i x))
    (hR : ∀ i x, x.x_gen = (P.boundary_node b n).x_gen →
      x.get_coordinates_on_boundary = (P.boundary_node b n).get_coordinates_on_boundary →
      Q x → R (dirichlet_dudn_effect F b s (P.Bulk_element_mesh_pt.nboundary_node b)
        (edge_sign_of (P.Bulk_element_mesh_pt.face_index_at_boundary b 0)) u_fn dudn_fn i x)) :
    R (dirichlet_node_after F b (some u_fn) (some dudn_fn) P n) := by
  have hpass1 := node_after_ind (P.Bulk_element_mesh_pt.boundary_node b)
    (dirichlet_u_effect b s (P.Bulk_element_mesh_pt.nboundary_node b) u_fn)
    n _ hn (P.boundary_node b n)
    (fun x => x.x_gen = (P.boundary_node b n).x_gen
      ∧ x.get_coordinates_on_boundary = (P.boundary_node b n).get_coordinates_on_boundary)
    (fun x => (x.x_gen = (P.boundary_node b n).x_gen
      ∧ x.get_coordinates_on_boundary = (P.boundary_node b n).get_coordinates_on_boundary)
      ∧ Q x)
    ⟨rfl, rfl⟩
    (fun i x hx => by
      beta_reduce at hx ⊢
      rw [(dirichlet_u_effect_geometry b s _ _ i x).1,
        (dirichlet_u_effect_geometry b s _ _ i x).2]
      exact hx)
    (fun i x hx => by
      beta_reduce at hx ⊢
      rw [(dirichlet_u_effect_geometry b s _ _ i x).1,
        (dirichlet_u_effect_geometry b s _ _ i x).2]
      exact ⟨hx, h1 i x hx.1 hx.2⟩)
  unfold dirichlet_node_after
  rw [set_dirichlet_both F b _ _ P s hs]
  exact node_after_ind (P.Bulk_element_mesh_pt.boundary_node b)
    (dirichlet_dudn_effect F b s (P.Bulk_element_mesh_pt.nboundary_node b)
      (edge_sign_of (P.Bulk_element_mesh_pt.face_index_at_boundary b 0)) u_fn dudn_fn)
    n _ hn _
    (fun x => (x.x_gen = (P.boundary_node b n).x_gen
      ∧ x.get_coordinates_on_boundary = (P.boundary_node b n).get_coordinates_on_boundary)
      ∧ Q x)
    R hpass1
    (fun i x hx => by
      beta_reduce at hx ⊢
      rw [(dirichlet_dudn_effect_geometry F b s _ _ _ _ i x).1,
        (dirichlet_dudn_effect_geometry F b s _ _ _ _ i x).2]
      exact ⟨hx.1, hQ i x hx.1.1 hx.1.2 hx.2⟩)
    (fun i x hx => hR i x hx.1.1 hx.1.2 hx.2)

theorem dirichlet_dudn_values_const (F : Libm α) (b s n_node : Nat) (es : Int) (c : α)
    (n : Nat) (nd : Node α) (h0 : nd.value 0 = c) (ht : nd.value (2 - s) = 0) :
    dirichlet_dudn_values F b s n_node es (fun _ => c) (fun _ => 0) n nd = (0, 0) := by
  have hd2 : dirichlet_d2udm_t2 (fun _ => c) n n_node (nd.get_coordinates_on_boundary b).1
      (nd.value 0) = 0 := by
    unfold dirichlet_d2udm_t2
    rw [h0]
    have hz : c + c - 2 * c = 0 := by ring
    split_ifs <;> simp [hz]
  have hdd : dirichlet_ddm_tdudn (fun _ => (0 : α)) n n_node
      (nd.get_coordinates_on_boundary b).1 = 0 := by
    unfold dirichlet_ddm_tdudn
    split_ifs <;> simp
  simp only [dirichlet_dudn_values, hd2, hdd, ht]
  simp

end DirichletInd


section DirichletClaims2

variable [Field α]

/-- C4: with `u_fn` identically `c` and `dudn_fn` identically `0` (valid face
index, every node of the boundary with non-degenerate geometry: `dxds_t ≠ 0`
and `dxds_n × dxds_t ≠ 0`), the call completes and every boundary node has
value slot `c` and tangential, normal and mixed slots exactly `0`. -/
theorem set_dirichlet_constant (F : Libm α) (b : Nat) (c : α) (P : BiharmonicProblem α)
    (s : Nat)
    (hs : s_fixed_index_of (P.Bulk_element_mesh_pt.face_index_at_boundary b 0) = some s)
    (_hgeo : ∀ k, k < P.Bulk_element_mesh_pt.nboundary_node b →
      (P.boundary_node b k).dxds_t s ≠ (0, 0)
      ∧ ((P.boundary_node b k).dxds_n s).1 * ((P.boundary_node b k).dxds_t s).2
          - ((P.boundary_node b k).dxds_n s).2 * ((P.boundary_node b k).dxds_t s).1 ≠ 0)
    (n : Nat) (hn : n < P.Bulk_element_mesh_pt.nboundary_node b) :
    (set_dirichlet_boundary_condition F b (some (fun _ => c)) (some (fun _ => 0)) P).err = none
      ∧ (dirichlet_node_after F b (some (fun _ => c)) (some (fun _ => 0)) P n).value 0 = c
      ∧ (dirichlet_node_after F b (some (fun _ => c)) (some (fun _ => 0)) P n).value (2 - s) = 0
      ∧ (dirichlet_node_after F b (some (fun _ => c)) (some (fun _ => 0)) P n).value (1 + s) = 0
      ∧ (dirichlet_node_after F b (some (fun _ => c)) (some (fun _ => 0)) P n).value 3 = 0 := by
  have hs01 := s_fixed_index_of_range _ s hs
  refine ⟨set_dirichlet_err_none F b _ _ P s hs, ?_⟩
  exact dirichlet_both_ind F b (fun _ => c) (fun _ => 0) P s hs n hn
    (fun x => x.value 0 = c ∧ x.value (2 - s) = 0)
    (fun x => x.value 0 = c ∧ x.value (2 - s) = 0 ∧ x.value (1 + s) = 0 ∧ x.value 3 = 0)
    (fun i x _ _ => by
      beta_reduce
      have hsl := dirichlet_u_effect_slots b s (P.Bulk_element_mesh_pt.nboundary_node b)
        hs01 (fun _ => c) i x
      rw [hsl.2.1, hsl.2.2.2, dirichlet_dudm_t_const]
      simp)
    (fun i x _ _ hx => by
      beta_reduce at hx ⊢
      rw [(dirichlet_dudn_effect_frame F b s _ _ _ _ i x 0 (by omega) (by omega)).2,
        (dirichlet_dudn_effect_frame F b s _ _ _ _ i x (2 - s) (by omega) (by omega)).2]
      exact hx)
    (fun i x _ _ hx => by
      beta_reduce at hx ⊢
      have hsl := dirichlet_dudn_effect_slots F b s (P.Bulk_element_mesh_pt.nboundary_node b)
        hs01 (edge_sign_of (P.Bulk_element_mesh_pt.face_index_at_boundary b 0))
        (fun _ => c) (fun _ => 0) i x
      rw [(dirichlet_dudn_effect_frame F b s _ _ _ _ i x 0 (by omega) (by omega)).2,
        (dirichlet_dudn_effect_frame F b s _ _ _ _ i x (2 - s) (by omega) (by omega)).2,
        hsl.2.1, hsl.2.2.2, dirichlet_dudn_values_const F b s _ _ c i x hx.1 hx.2]
      exact ⟨hx.1, hx.2, rfl, rfl⟩)

/-- C5: with `dudn_fn` supplied (valid face index), whenever the call completes
every node of boundary `b` has the normal slot `1 + s_fixed_index` and the mixed
slot `3` pinned; when `u_fn` is supplied as well the call does complete and all
four slots `0..3` of every boundary node are pinned; the normal and tangential
slots `1 + s_fixed_index` and `2 - s_fixed_index` are the two distinct slots
`1` and `2`. -/
theorem set_dirichlet_pins_normal_and_mixed (F : Libm α) (b : Nat) (dudn_fn : α → α)
    (P : BiharmonicProblem α) (s : Nat)
    (hs : s_fixed_index_of (P.Bulk_element_mesh_pt.face_index_at_boundary b 0) = some s)
    (n : Nat) (hn : n < P.Bulk_element_mesh_pt.nboundary_node b) :
    (∀ u_fn : Option (α → α),
        (set_dirichlet_boundary_condition F b u_fn (some dudn_fn) P).err = none →
        (dirichlet_node_after F b u_fn (some dudn_fn) P n).pinned (1 + s) = true
          ∧ (dirichlet_node_after F b u_fn (some dudn_fn) P n).pinned 3 = true)
      ∧ (∀ u_fn : α → α,
        (set_dirichlet_boundary_condition F b (some u_fn) (some dudn_fn) P).err = none
          ∧ (dirichlet_node_after F b (some u_fn) (some dudn_fn) P n).pinned 0 = true
          ∧ (dirichlet_node_after F b (some u_fn) (some dudn_fn) P n).pinned 1 = true
          ∧ (dirichlet_node_after F b (some u_fn) (some dudn_fn) P n).pinned 2 = true
          ∧ (dirichlet_node_after F b (some u_fn) (some dudn_fn) P n).pinned 3 = true)
      ∧ ((1 + s = 1 ∧ 2 - s = 2) ∨ (1 + s = 2 ∧ 2 - s = 1)) := by
  have hs01 := s_fixed_index_of_range _ s hs
  have hall : ∀ u_fn : α → α,
      (dirichlet_node_after F b (some u_fn) (some dudn_fn) P n).pinned 0 = true
        ∧ (dirichlet_node_after F b (some u_fn) (some dudn_fn) P n).pinned (2 - s) = true
        ∧ (dirichlet_node_after F b (some u_fn) (some dudn_fn) P n).pinned (1 + s) = true
        ∧ (dirichlet_node_after F b (some u_fn) (some dudn_fn) P n).pinned 3 = true := by
    intro u_fn
    exact dirichlet_both_ind F b u_fn dudn_fn P s hs n hn
      (fun x => x.pinned 0 = true ∧ x.pinned (2 - s) = true)
      (fun x => x.pinned 0 = true ∧ x.pinned (2 - s) = true ∧ x.pinned (1 + s) = true
        ∧ x.pinned 3 = true)
      (fun i x _ _ => by
        beta_reduce
        have hsl := dirichlet_u_effect_slots b s (P.Bulk_element_mesh_pt.nboundary_node b)
          hs01 u_fn i x
        exact ⟨hsl.1, hsl.2.2.1⟩)
      (fun i x _ _ hx => by
        beta_reduce at hx ⊢
        rw [(dirichlet_dudn_effect_frame F b s _ _ _ _ i x 0 (by omega) (by omega)).1,
          (dirichlet_dudn_effect_frame F b s _ _ _ _ i x (2 - s) (by omega) (by omega)).1]
        exact hx)
      (fun i x _ _ hx => by
        beta_reduce at hx ⊢
        have hsl := dirichlet_dudn_effect_slots F b s
          (P.Bulk_element_mesh_pt.nboundary_node b) hs01
          (edge_sign_of (P.Bulk_element_mesh_pt.face_index_at_boundary b 0)) u_fn dudn_fn i x
        rw [(dirichlet_dudn_effect_frame F b s _ _ _ _ i x 0 (by omega) (by omega)).1,
          (dirichlet_dudn_effect_frame F b s _ _ _ _ i x (2 - s) (by omega) (by omega)).1]
        exact ⟨hx.1, hx.2, hsl.1, hsl.2.2.1⟩)
  refine ⟨?_, ?_, ?_⟩
  · intro u_fn herr
    cases u_fn with
    | none =>
      rw [set_dirichlet_null_u_fn F b dudn_fn P s hs (by omega)] at herr
      simp at herr
    | some u => exact ⟨(hall u).2.2.1, (hall u).2.2.2⟩
  · intro u_fn
    refine ⟨set_dirichlet_err_none F b u_fn _ P s hs, (hall u_fn).1, ?_, ?_, (hall u_fn).2.2.2⟩
    · rcases hs01 with rfl | rfl
      · exact (hall u_fn).2.2.1
      · exact (hall u_fn).2.1
    · rcases hs01 with rfl | rfl
      · exact (hall u_fn).2.1
      · exact (hall u_fn).2.2.1
  · omega

end DirichletClaims2

/-! ## The claims at the three-node example -/

theorem set_dirichlet_pins_value_and_tangential_witness :
    ((exProblem 0).Bulk_element_mesh_pt.boundary_node 0).Nodup
      ∧ (set_dirichlet_boundary_condition exLibm 0 (some (fun m => m)) none (exProblem 0)).err
          = none
      ∧ (dirichlet_node_after exLibm 0 (some (fun m => m)) none (exProblem 0) 1).pinned 0
          = true := by
  obtain ⟨_, _, h1, h2, _⟩ := set_dirichlet_pins_value_and_tangential exLibm 0 (fun m => m)
    none (exProblem 0) (Or.inl rfl) (by decide) 1 (by decide)
  exact ⟨by decide, h1, h2⟩

theorem set_dirichlet_tangential_stencil_witness :
    s_fixed_index_of ((exProblem 0).Bulk_element_mesh_pt.face_index_at_boundary 0 0) = some 1
      ∧ (h : ℚ) = 1 / 10 ^ 7 :=
  ⟨by decide, (set_dirichlet_tangential_stencil exLibm 0 (fun m => m * m) none (exProblem 0) 1
    (by decide) (by decide) 2 (by decide)).1⟩

theorem set_dirichlet_affine_witness :
    (dirichlet_node_after exLibm 0 (some (fun m => 3 * m + 5)) none (exProblem 0) 2).value
        (2 - 1)
      = (((exProblem 0).boundary_node 0 2).get_coordinates_on_boundary 0).2 * 3 :=
  (set_dirichlet_affine exLibm 0 3 5 (exProblem 0) 1 (by decide) 2 (by decide)).2.2.1

theorem set_dirichlet_constant_witness :
    (dirichlet_node_after exLibm 0 (some (fun _ => 7)) (some (fun _ => 0)) (exProblem 0) 1).value
        3 = 0 :=
  (set_dirichlet_constant exLibm 0 7 (exProblem 0) 1 (by decide)
    (fun k _ => by
      constructor
      · intro hz
        have h1 := congrArg Prod.fst hz
        simp [BiharmonicProblem.boundary_node, exProblem, exMesh, exNode, Node.dxds_t] at h1
      · simp [BiharmonicProblem.boundary_node, exProblem, exMesh, exNode, Node.dxds_t,
          Node.dxds_n])
    1 (by decide)).2.2.2.2

theorem set_dirichlet_pins_normal_and_mixed_witness :
    (dirichlet_node_after exLibm 0 (some (fun m => m)) (some (fun m => m)) (exProblem 0) 0).pinned
        2 = true :=
  ((set_dirichlet_pins_normal_and_mixed exLibm 0 (fun m => m) (exProblem 0) 1 (by decide) 0
    (by decide)).2.1 (fun m => m)).2.2.2.1


/-! ## The `dudn_fn` pass: the normal-derivative value and the second difference -/

section DudnPass

variable [Field α]

/-- The value the code writes to the normal-derivative slot: the factor of the
tangential term is the reassigned `ds_tdt = dtds_t*m_N[1]*ddm_tdudn`. -/
theorem dirichlet_dudn_values_fst (F : Libm α) (b s n_node : Nat) (es : Int)
    (u_fn dudn_fn : α → α) (n : Nat) (nd : Node α) :
    (dirichlet_dudn_values F b s n_node es u_fn dudn_fn n nd).1
      = dnds_n F (nd.dxds_n s) (nd.dxds_t s) es * dudn_fn (nd.get_coordinates_on_boundary b).1
        + dtds_n F (nd.dxds_n s) (nd.dxds_t s)
          * (F.sqrt (F.pow (nd.dxds_t s).1 2 + F.pow (nd.dxds_t s).2 2)
              * (nd.get_coordinates_on_boundary b).2
              * dirichlet_ddm_tdudn dudn_fn n n_node (nd.get_coordinates_on_boundary b).1)
          * nd.value (2 - s) := by
  rfl

/-- At the first node the quotient `d2udm_t2` of a quadratic
`u_fn(m) = a*m^2 + b1*m + c` is `2*a - 4*(2*a*m0 + b1)/h`: the stencil reads
`u_fn` at `m0`, `m0+h` and `m0-2*h`. -/
theorem dirichlet_d2udm_t2_first_node [CharZero α] (a b1 c : α) (n_node : Nat)
    (m0 value0 : α) :
    dirichlet_d2udm_t2 (fun m => a * m ^ 2 + b1 * m + c) 0 n_node m0 value0
      = 2 * a - 4 * (2 * a * m0 + b1) / h := by
  have hh : (h : α) ≠ 0 := h_ne_zero
  simp only [dirichlet_d2udm_t2, if_true]
  field_simp
  ring

/-- At the last node the quotient `d2udm_t2` of a quadratic is its second
derivative `2*a`. -/
theorem dirichlet_d2udm_t2_last_node [CharZero α] (a b1 c : α) (n n_node : Nat)
    (hn0 : n ≠ 0) (hlast : n = n_node - 1) (m0 value0 : α) :
    dirichlet_d2udm_t2 (fun m => a * m ^ 2 + b1 * m + c) n n_node m0 value0 = 2 * a := by
  have hh : (h : α) ≠ 0 := h_ne_zero
  simp only [dirichlet_d2udm_t2, if_neg hn0, if_pos hlast]
  field_simp
  ring

/-- At an interior node, where `value(0)` holds `u_fn(m0)` after the `u_fn`
pass, the quotient `d2udm_t2` of a quadratic is its second derivative `2*a`. -/
theorem dirichlet_d2udm_t2_interior_node [CharZero α] (a b1 c : α) (n n_node : Nat)
    (hn0 : n ≠ 0) (hlast : n ≠ n_node - 1) (m0 : α) :
    dirichlet_d2udm_t2 (fun m => a * m ^ 2 + b1 * m + c) n n_node m0
      (a * m0 ^ 2 + b1 * m0 + c) = 2 * a := by
  have hh : (h : α) ≠ 0 := h_ne_zero
  simp only [dirichlet_d2udm_t2, if_neg hn0, if_neg hlast]
  field_simp
  ring

end DudnPass

/-- C6 (the code at a failing input): on the example with skewed second
direction `dxds_n = (1,1)`, `u_fn(m) = m` and `dudn_fn = 0`, the interior node
`1` has `dn/ds_n = -1`, `dt/ds_n = 1`, `ds_t/dt = 1` and tangential slot `1`, so
the claimed value of the normal slot is `1`; the code writes `0`. -/
theorem set_dirichlet_normal_slot_at_skewed_node :
    (dirichlet_node_after exLibm 0 (some (fun m => m)) (some (fun _ => 0)) (exProblem 1) 1).value
        (1 + 1) = 0
      ∧ dnds_n exLibm (((exProblem 1).boundary_node 0 1).dxds_n 1)
            (((exProblem 1).boundary_node 0 1).dxds_t 1) (edge_sign_of (-2))
          * (fun _ => (0 : ℚ)) (((exProblem 1).boundary_node 0 1).get_coordinates_on_boundary 0).1
        + dtds_n exLibm (((exProblem 1).boundary_node 0 1).dxds_n 1)
            (((exProblem 1).boundary_node 0 1).dxds_t 1)
          * ds_tdt exLibm (((exProblem 1).boundary_node 0 1).dxds_t 1)
          * (dirichlet_node_after exLibm 0 (some (fun m => m)) (some (fun _ => 0))
              (exProblem 1) 1).value (2 - 1)
        = 1 := by
  rw [dirichlet_node_after_both exLibm 0 _ _ (exProblem 1) 1 (by decide) (by decide) 1
    (by decide)]
  constructor
  · simp [dirichlet_dudn_effect, dirichlet_dudn_values, Node.set_value, Node.pin,
      dirichlet_ddm_tdudn]
  · have hne : (h : ℚ) ≠ 0 := h_ne_zero
    simp [dirichlet_dudn_effect, dirichlet_u_effect, Node.set_value, Node.pin,
      dirichlet_dudm_t, dtds_n, ds_tdt, exLibm, BiharmonicProblem.boundary_node, exProblem,
      exMesh, exNode, Node.dxds_n, Node.dxds_t, Mesh.nboundary_node, Mesh.boundary_node_pt]
    field_simp

/-- C7 (the code at a failing input): for the affine `u_fn(m) = m` on the
three-node example the quotient `d2udm_t2` is `-4/h = -40000000` at the first
node (`m0 = -1`), while it is `0` at the interior node (`m0 = 0`, `value(0) = 0`)
and at the last node (`m0 = 1`).  With `dudn_fn(m) = m` the call accordingly
leaves `-40000000` in the mixed slot of the first node and `0` in that of the
last node. -/
theorem dirichlet_d2udm_t2_affine_at_first_node :
    dirichlet_d2udm_t2 (fun m : ℚ => m) 0 3 (-1) (-1) = -40000000
      ∧ dirichlet_d2udm_t2 (fun m : ℚ => m) 1 3 0 0 = 0
      ∧ dirichlet_d2udm_t2 (fun m : ℚ => m) 2 3 1 1 = 0
      ∧ (dirichlet_node_after exLibm 0 (some (fun m => m)) (some (fun m => m))
          (exProblem 0) 0).value 3 = -40000000
      ∧ (dirichlet_node_after exLibm 0 (some (fun m => m)) (some (fun m => m))
          (exProblem 0) 2).value 3 = 0 := by
  rw [dirichlet_node_after_both exLibm 0 _ _ (exProblem 0) 1 (by decide) (by decide) 0
    (by decide),
    dirichlet_node_after_both exLibm 0 _ _ (exProblem 0) 1 (by decide) (by decide) 2
    (by decide)]
  refine ⟨?_, ?_, ?_, ?_, ?_⟩
  · norm_num [dirichlet_d2udm_t2, h]
  · norm_num [dirichlet_d2udm_t2, h]
  · norm_num [dirichlet_d2udm_t2, h]
  · simp [dirichlet_dudn_effect, dirichlet_dudn_values, dirichlet_u_effect, Node.set_value,
      Node.pin, dirichlet_ddm_tdudn, dirichlet_d2udm_t2, dirichlet_dudm_t, dnds_n, dtds_n,
      ds_tdt, d2tds_nds_t, exLibm, BiharmonicProblem.boundary_node, exProblem,
      exMesh, exNode, Node.dxds_n, Node.dxds_t, Node.d2xds_nds_t, Mesh.nboundary_node,
      Mesh.boundary_node_pt, edge_sign_of]
    norm_num [h]
  · simp [dirichlet_dudn_effect, dirichlet_dudn_values, dirichlet_u_effect, Node.set_value,
      Node.pin, dirichlet_ddm_tdudn, dirichlet_d2udm_t2, dirichlet_dudm_t, dnds_n, dtds_n,
      ds_tdt, d2tds_nds_t, exLibm, BiharmonicProblem.boundary_node, exProblem,
      exMesh, exNode, Node.dxds_n, Node.dxds_t, Node.d2xds_nds_t, Mesh.nboundary_node,
      Mesh.boundary_node_pt, edge_sign_of]
    norm_num [h]


/-! ## `impose_traction_free_edge`: closed form of the node loop -/

theorem traction_free_hijack_eq (b s n_node : Nat) (M : Mesh α) (n : Nat) :
    traction_free_hijack b s n_node M n
      = { M with hijacked := M.hijacked ++ traction_free_hijacks b s n_node n } := by
  unfold traction_free_hijack traction_free_hijacks
  split_ifs <;> simp [Mesh.hijack_nodal_value]

theorem node_after_succ (ids : List Nat) (E : Nat → Node α → Node α) (k j : Nat)
    (nd : Node α) :
    node_after ids E (k + 1) j nd
      = if ids.getD k 0 = j then E k (node_after ids E k j nd) else node_after ids E k j nd := by
  unfold node_after
  rw [List.range_succ, List.filter_append, List.foldl_append]
  by_cases hj : ids.getD k 0 = j
  · rw [if_pos hj]
    have hk : List.filter (fun i => decide (ids.getD i 0 = j)) [k] = [k] := by
      rw [List.filter_cons]
      simp only [hj, decide_True, List.filter_nil]
      rfl
    rw [hk]
    rfl
  · rw [if_neg hj]
    have hk : List.filter (fun i => decide (ids.getD i 0 = j)) [k] = [] := by
      rw [List.filter_cons]
      simp only [hj, decide_False, List.filter_nil]
      rfl
    rw [hk]
    rfl

section TractionFree

variable [Field α] [DecidableEq α]

theorem traction_free_effect_x_gen (F : Libm α) (s : Nat) (nd : Node α) :
    (traction_free_effect F s nd).x_gen = nd.x_gen := by
  unfold traction_free_effect
  split_ifs <;> simp [Node.pin, Node.set_value]

theorem node_after_traction_free_x_gen (F : Libm α) (s : Nat) (ids : List Nat) (k j : Nat)
    (nd : Node α) :
    (node_after ids (fun _ => traction_free_effect F s) k j nd).x_gen = nd.x_gen :=
  node_after_inv ids (fun _ => traction_free_effect F s) k j nd
    (fun x => x.x_gen = nd.x_gen) rfl
    (fun _ x hx => by
      beta_reduce at hx ⊢
      rw [traction_free_effect_x_gen, hx])

theorem traction_free_active_succ (F : Libm α) (M : Mesh α) (b s k : Nat) :
    traction_free_active F M b s (k + 1)
      = traction_free_active F M b s k
          ++ (if traction_free_dtds_n F M b s k = 0 then [] else [k]) := by
  unfold traction_free_active
  rw [List.range_succ, List.filter_append]
  by_cases hz : traction_free_dtds_n F M b s k = 0
  · simp [hz]
  · simp [hz]

theorem traction_free_node_state (F : Libm α) (b s n_node k : Nat)
    (P : BiharmonicFluidProblem α) :
    traction_free_node F b s n_node (traction_free_state F b s n_node k P) k
      = traction_free_state F b s n_node (k + 1) P := by
  have hx := node_after_traction_free_x_gen F s (P.mesh_pt.boundary_node b) k
    (P.mesh_pt.boundary_node_pt b k) (P.mesh_pt.node (P.mesh_pt.boundary_node_pt b k))
  have hdt : dtds_n F
      ((node_after (P.mesh_pt.boundary_node b) (fun _ => traction_free_effect F s) k
        (P.mesh_pt.boundary_node_pt b k)
        (P.mesh_pt.node (P.mesh_pt.boundary_node_pt b k))).dxds_n s)
      ((node_after (P.mesh_pt.boundary_node b) (fun _ => traction_free_effect F s) k
        (P.mesh_pt.boundary_node_pt b k)
        (P.mesh_pt.node (P.mesh_pt.boundary_node_pt b k))).dxds_t s)
      = traction_free_dtds_n F P.mesh_pt b s k := by
    simp only [Node.dxds_n, Node.dxds_t, hx, traction_free_dtds_n]
  have hnodes : (fun j => node_after (P.mesh_pt.boundary_node b)
        (fun _ => traction_free_effect F s) (k + 1) j (P.mesh_pt.node j))
      = Function.update (fun j => node_after (P.mesh_pt.boundary_node b)
          (fun _ => traction_free_effect F s) k j (P.mesh_pt.node j))
          (P.mesh_pt.boundary_node_pt b k)
          (traction_free_effect F s (node_after (P.mesh_pt.boundary_node b)
            (fun _ => traction_free_effect F s) k (P.mesh_pt.boundary_node_pt b k)
            (P.mesh_pt.node (P.mesh_pt.boundary_node_pt b k)))) := by
    funext j
    rw [node_after_succ]
    by_cases hj : (P.mesh_pt.boundary_node b).getD k 0 = j
    · subst hj
      simp [Mesh.boundary_node_pt]
    · rw [if_neg hj, Function.update_noteq (fun hjk => hj (by rw [hjk]; rfl))]
  by_cases hz : traction_free_dtds_n F P.mesh_pt b s k = 0
  · simp only [traction_free_node, traction_free_state, Mesh.boundary_node_pt] at hdt ⊢
    rw [if_pos (by rw [hdt]; exact hz)]
    simp only [Mesh.pin, Mesh.set_value, modify_node_modify_node, Mesh.modify_node]
    rw [traction_free_active_succ, if_pos hz, List.append_nil]
    simp only [Mesh.boundary_node_pt] at hnodes
    rw [hnodes]
    simp only [traction_free_effect]
    rw [if_pos (by rw [hdt]; exact hz)]
    simp only [Function.update_idem, Function.update_same]
  · simp only [traction_free_node, traction_free_state, Mesh.boundary_node_pt] at hdt ⊢
    rw [if_neg (by rw [hdt]; exact hz)]
    simp only [traction_free_hijack_eq, Mesh.add_element_pt]
    rw [traction_free_active_succ, if_neg hz]
    simp only [Mesh.boundary_node_pt] at hnodes
    rw [hnodes]
    simp only [traction_free_effect]
    rw [if_neg (by rw [hdt]; exact hz), Function.update_eq_self]
    simp [List.map_append, List.flatMap_append, List.append_assoc, Nat.add_assoc,
      Mesh.boundary_node_pt]

theorem traction_free_foldl (F : Libm α) (b s n_node : Nat) (P : BiharmonicFluidProblem α)
    (k : Nat) :
    (List.range k).foldl (traction_free_node F b s n_node) P
      = traction_free_state F b s n_node k P := by
  induction k with
  | zero =>
    simp [traction_free_state, traction_free_active, node_after]
  | succ k ih =>
    rw [List.range_succ, List.foldl_append, ih]
    exact traction_free_node_state F b s n_node k P

theorem impose_traction_free_edge_eq (F : Libm α) (b : Nat) (P : BiharmonicFluidProblem α)
    (s : Nat) (hs : s_fixed_index_of (P.mesh_pt.face_index_at_boundary b 0) = some s) :
    impose_traction_free_edge F b P
      = ⟨none, traction_free_state F b s (P.mesh_pt.nboundary_node b)
          (P.mesh_pt.nboundary_node b) P⟩ := by
  simp only [impose_traction_free_edge, hs, traction_free_foldl]

end TractionFree


theorem map_getD_range (ids : List Nat) :
    (List.range ids.length).map (fun i => ids.getD i 0) = ids := by
  apply List.ext_getElem
  · simp
  · intro i h1 h2
    simp [List.getElem?_eq_getElem h2]

/-! ## Error handling of the three edge routines -/

section ErrorHandling

variable [Field α]

theorem fluid_flow_switch_eq_none (f : Int) :
    fluid_flow_switch f = none ↔ ¬ (f = -2 ∨ f = -1 ∨ f = 1 ∨ f = 2) := by
  unfold fluid_flow_switch
  split_ifs with h1 h2 h3 h4 <;> simp <;> omega

theorem set_dirichlet_err_of_valid (F : Libm α) (b : Nat) (u_fn dudn_fn : Option (α → α))
    (P : BiharmonicProblem α) (s : Nat)
    (hs : s_fixed_index_of (P.Bulk_element_mesh_pt.face_index_at_boundary b 0) = some s) :
    (set_dirichlet_boundary_condition F b u_fn dudn_fn P).err ≠ some Err.OomphLibError := by
  cases u_fn with
  | some u => rw [set_dirichlet_err_none F b u dudn_fn P s hs]; simp
  | none =>
    cases dudn_fn with
    | none => simp [set_dirichlet_boundary_condition, hs]
    | some d =>
      by_cases hn : 0 < P.Bulk_element_mesh_pt.nboundary_node b
      · rw [set_dirichlet_null_u_fn F b d P s hs hn]; simp
      · have h0 : P.Bulk_element_mesh_pt.nboundary_node b = 0 := by omega
        simp [set_dirichlet_boundary_condition, hs, h0, for_loop]

theorem set_dirichlet_failure_state (F : Libm α) (b : Nat) (u_fn dudn_fn : Option (α → α))
    (P : BiharmonicProblem α) (s : Nat)
    (hs : s_fixed_index_of (P.Bulk_element_mesh_pt.face_index_at_boundary b 0) = some s) :
    (set_dirichlet_boundary_condition F b u_fn dudn_fn P).err ≠ none →
      (set_dirichlet_boundary_condition F b u_fn dudn_fn P).st = P := by
  cases u_fn with
  | some u => rw [set_dirichlet_err_none F b u dudn_fn P s hs]; simp
  | none =>
    cases dudn_fn with
    | none => simp [set_dirichlet_boundary_condition, hs]
    | some d =>
      by_cases hn : 0 < P.Bulk_element_mesh_pt.nboundary_node b
      · rw [set_dirichlet_null_u_fn F b d P s hs hn]; simp
      · have h0 : P.Bulk_element_mesh_pt.nboundary_node b = 0 := by omega
        simp [set_dirichlet_boundary_condition, hs, h0, for_loop]

/-- C8: each of `set_dirichlet_boundary_condition`, `impose_traction_free_edge`
and `impose_fluid_flow_on_edge` raises the face-index error
(`OomphLibError`) if and only if the face index of the first element of the
boundary is not one of `-2, -1, 1, 2`, and whenever a call fails the state is
the state before the call: no node pinned or assigned, no element created or
hijacked. -/
theorem face_index_error_iff_unsupported [DecidableEq α] (F : Libm α) (b : Nat)
    (u_fn dudn_fn : Option (α → α)) (u_imposed_fn : α → α × α) (P : BiharmonicProblem α)
    (Q : BiharmonicFluidProblem α) :
    (((set_dirichlet_boundary_condition F b u_fn dudn_fn P).err = some Err.OomphLibError
          ↔ ¬ (P.Bulk_element_mesh_pt.face_index_at_boundary b 0 = -2
            ∨ P.Bulk_element_mesh_pt.face_index_at_boundary b 0 = -1
            ∨ P.Bulk_element_mesh_pt.face_index_at_boundary b 0 = 1
            ∨ P.Bulk_element_mesh_pt.face_index_at_boundary b 0 = 2))
        ∧ ((set_dirichlet_boundary_condition F b u_fn dudn_fn P).err ≠ none
          → (set_dirichlet_boundary_condition F b u_fn dudn_fn P).st = P))
      ∧ (((impose_traction_free_edge F b Q).err = some Err.OomphLibError
          ↔ ¬ (Q.mesh_pt.face_index_at_boundary b 0 = -2
            ∨ Q.mesh_pt.face_index_at_boundary b 0 = -1
            ∨ Q.mesh_pt.face_index_at_boundary b 0 = 1
            ∨ Q.mesh_pt.face_index_at_boundary b 0 = 2))
        ∧ ((impose_traction_free_edge F b Q).err ≠ none
          → (impose_traction_free_edge F b Q).err = some Err.OomphLibError
            ∧ (impose_traction_free_edge F b Q).st = Q))
      ∧ (((impose_fluid_flow_on_edge F b u_imposed_fn Q).err = some Err.OomphLibError
          ↔ ¬ (Q.mesh_pt.face_index_at_boundary b 0 = -2
            ∨ Q.mesh_pt.face_index_at_boundary b 0 = -1
            ∨ Q.mesh_pt.face_index_at_boundary b 0 = 1
            ∨ Q.mesh_pt.face_index_at_boundary b 0 = 2))
        ∧ ((impose_fluid_flow_on_edge F b u_imposed_fn Q).err ≠ none
          → (impose_fluid_flow_on_edge F b u_imposed_fn Q).err = some Err.OomphLibError
            ∧ (impose_fluid_flow_on_edge F b u_imposed_fn Q).st = Q)) := by
  refine ⟨?_, ?_, ?_⟩
  · cases hs : s_fixed_index_of (P.Bulk_element_mesh_pt.face_index_at_boundary b 0) with
    | none =>
      have hinv := (s_fixed_index_of_eq_none _).mp hs
      have he : set_dirichlet_boundary_condition F b u_fn dudn_fn P
          = ⟨some Err.OomphLibError, P⟩ := by
        simp only [set_dirichlet_boundary_condition, hs]
      rw [he]
      exact ⟨⟨fun _ => hinv, fun _ => rfl⟩, fun _ => rfl⟩
    | some s =>
      have hval : ¬ ¬ (P.Bulk_element_mesh_pt.face_index_at_boundary b 0 = -2
          ∨ P.Bulk_element_mesh_pt.face_index_at_boundary b 0 = -1
          ∨ P.Bulk_element_mesh_pt.face_index_at_boundary b 0 = 1
          ∨ P.Bulk_element_mesh_pt.face_index_at_boundary b 0 = 2) := by
        intro hinv
        rw [← s_fixed_index_of_eq_none, hs] at hinv
        simp at hinv
      have hne := set_dirichlet_err_of_valid F b u_fn dudn_fn P s hs
      exact ⟨⟨fun he => absurd he hne, fun hinv => absurd hinv hval⟩,
        set_dirichlet_failure_state F b u_fn dudn_fn P s hs⟩
  · cases hs : s_fixed_index_of (Q.mesh_pt.face_index_at_boundary b 0) with
    | none =>
      have hinv := (s_fixed_index_of_eq_none _).mp hs
      have he : impose_traction_free_edge F b Q = ⟨some Err.OomphLibError, Q⟩ := by
        simp only [impose_traction_free_edge, hs]
      rw [he]
      exact ⟨⟨fun _ => hinv, fun _ => rfl⟩, fun _ => ⟨rfl, rfl⟩⟩
    | some s =>
      have hval : ¬ ¬ (Q.mesh_pt.face_index_at_boundary b 0 = -2
          ∨ Q.mesh_pt.face_index_at_boundary b 0 = -1
          ∨ Q.mesh_pt.face_index_at_boundary b 0 = 1
          ∨ Q.mesh_pt.face_index_at_boundary b 0 = 2) := by
        intro hinv
        rw [← s_fixed_index_of_eq_none, hs] at hinv
        simp at hinv
      have hnone : (impose_traction_free_edge F b Q).err = none := by
        simp only [impose_traction_free_edge, hs]
      rw [hnone]
      exact ⟨⟨fun he => by simp at he, fun hinv => absurd hinv hval⟩,
        fun he => absurd rfl he⟩
  · cases hs : fluid_flow_switch (Q.mesh_pt.face_index_at_boundary b 0) with
    | none =>
      have hinv := (fluid_flow_switch_eq_none _).mp hs
      have he : impose_fluid_flow_on_edge F b u_imposed_fn Q = ⟨some Err.OomphLibError, Q⟩ := by
        simp only [impose_fluid_flow_on_edge, hs]
      rw [he]
      exact ⟨⟨fun _ => hinv, fun _ => rfl⟩, fun _ => ⟨rfl, rfl⟩⟩
    | some se =>
      have hval : ¬ ¬ (Q.mesh_pt.face_index_at_boundary b 0 = -2
          ∨ Q.mesh_pt.face_index_at_boundary b 0 = -1
          ∨ Q.mesh_pt.face_index_at_boundary b 0 = 1
          ∨ Q.mesh_pt.face_index_at_boundary b 0 = 2) := by
        intro hinv
        rw [← fluid_flow_switch_eq_none, hs] at hinv
        simp at hinv
      have hnone : (impose_fluid_flow_on_edge F b u_imposed_fn Q).err = none := by
        simp only [impose_fluid_flow_on_edge, hs]
      rw [hnone]
      exact ⟨⟨fun he => by simp at he, fun hinv => absurd hinv hval⟩,
        fun he => absurd rfl he⟩

end ErrorHandling


/-! ## Claims about `impose_traction_free_edge` -/

section TractionFreeClaims

variable [Field α] [DecidableEq α]

theorem traction_free_node_after_eq (F : Libm α) (b : Nat) (P : BiharmonicFluidProblem α)
    (s : Nat) (hs : s_fixed_index_of (P.mesh_pt.face_index_at_boundary b 0) = some s)
    (n : Nat) :
    traction_free_node_after F b P n
      = node_after (P.mesh_pt.boundary_node b) (fun _ => traction_free_effect F s)
          (P.mesh_pt.nboundary_node b) (P.mesh_pt.boundary_node_pt b n) (P.boundary_node b n) := by
  unfold traction_free_node_after
  rw [impose_traction_free_edge_eq F b P s hs]
  rfl

/-- The fate of one boundary node in `impose_traction_free_edge`, decided by its
own `dt/ds_n` alone. -/
theorem traction_free_node_after_cases (F : Libm α) (b : Nat) (P : BiharmonicFluidProblem α)
    (s : Nat) (hs : s_fixed_index_of (P.mesh_pt.face_index_at_boundary b 0) = some s)
    (n : Nat) (hn : n < P.mesh_pt.nboundary_node b) :
    ((P.boundary_node b n).dtds_n F s = 0 →
        (traction_free_node_after F b P n).pinned (1 + s) = true
          ∧ (traction_free_node_after F b P n).value (1 + s) = 0)
      ∧ ((P.boundary_node b n).dtds_n F s ≠ 0 →
        traction_free_node_after F b P n = P.boundary_node b n) := by
  rw [traction_free_node_after_eq F b P s hs n]
  constructor
  · intro hz
    exact node_after_ind (P.mesh_pt.boundary_node b) (fun _ => traction_free_effect F s) n _ hn
      (P.boundary_node b n) (fun x => x.x_gen = (P.boundary_node b n).x_gen)
      (fun x => x.pinned (1 + s) = true ∧ x.value (1 + s) = 0) rfl
      (fun _ x hx => by
        beta_reduce at hx ⊢
        rw [traction_free_effect_x_gen, hx])
      (fun _ x hx => by
        beta_reduce at hx ⊢
        have hzx : dtds_n F (x.dxds_n s) (x.dxds_t s) = 0 := by
          simp only [Node.dxds_n, Node.dxds_t, hx]
          exact hz
        simp [traction_free_effect, hzx, Node.pin, Node.set_value])
  · intro hz
    exact node_after_inv (P.mesh_pt.boundary_node b) (fun _ => traction_free_effect F s) _ _
      (P.boundary_node b n) (fun x => x = P.boundary_node b n) rfl
      (fun _ x hx => by
        beta_reduce at hx ⊢
        rw [hx]
        exact if_neg hz)

theorem traction_free_active_eq_nil (F : Libm α) (M : Mesh α) (b s k : Nat)
    (hall : ∀ n, n < k → traction_free_dtds_n F M b s n = 0) :
    traction_free_active F M b s k = [] := by
  unfold traction_free_active
  rw [List.filter_eq_nil_iff]
  intro n hn
  simp [hall n (List.mem_range.mp hn)]

theorem traction_free_active_map (F : Libm α) (M : Mesh α) (b s : Nat) :
    (traction_free_active F M b s (M.nboundary_node b)).map (fun n => M.boundary_node_pt b n)
      = (M.boundary_node b).filter (fun id => decide ((M.node id).dtds_n F s ≠ 0)) := by
  have hids := map_getD_range (M.boundary_node b)
  unfold traction_free_active Mesh.nboundary_node
  have hfm : List.filter (fun id => decide ((M.node id).dtds_n F s ≠ 0))
      (List.map (fun i => (M.boundary_node b).getD i 0) (List.range (M.boundary_node b).length))
      = List.map (fun i => (M.boundary_node b).getD i 0)
          (List.filter ((fun id => decide ((M.node id).dtds_n F s ≠ 0))
            ∘ (fun i => (M.boundary_node b).getD i 0)) (List.range (M.boundary_node b).length)) :=
    List.filter_map _ _
  rw [hids] at hfm
  rw [hfm]
  rfl

/-- C9: if `dt/ds_n` is exactly `0` at every node of boundary `b` (the face
index being one the routine accepts, with fixed index `s`), then
`impose_traction_free_edge(b)` completes, pins the normal-derivative slot
`1 + s` of every boundary node with value exactly `0`, hijacks nothing, adds no
element to the mesh and leaves `Npoint_element` unchanged. -/
theorem impose_traction_free_edge_degenerate (F : Libm α) (b : Nat)
    (P : BiharmonicFluidProblem α) (s : Nat)
    (hs : s_fixed_index_of (P.mesh_pt.face_index_at_boundary b 0) = some s)
    (hall : ∀ n, n < P.mesh_pt.nboundary_node b → (P.boundary_node b n).dtds_n F s = 0) :
    (impose_traction_free_edge F b P).err = none
      ∧ (∀ n, n < P.mesh_pt.nboundary_node b →
          (traction_free_node_after F b P n).pinned (1 + s) = true
            ∧ (traction_free_node_after F b P n).value (1 + s) = 0)
      ∧ (impose_traction_free_edge F b P).st.mesh_pt.hijacked = P.mesh_pt.hijacked
      ∧ (impose_traction_free_edge F b P).st.mesh_pt.element_pt = P.mesh_pt.element_pt
      ∧ (impose_traction_free_edge F b P).st.Npoint_element = P.Npoint_element := by
  have hnil := traction_free_active_eq_nil F P.mesh_pt b s (P.mesh_pt.nboundary_node b) hall
  refine ⟨?_, ?_, ?_, ?_, ?_⟩
  · rw [impose_traction_free_edge_eq F b P s hs]
  · intro n hn
    exact (traction_free_node_after_cases F b P s hs n hn).1 (hall n hn)
  · rw [impose_traction_free_edge_eq F b P s hs]
    simp [traction_free_state, hnil]
  · rw [impose_traction_free_edge_eq F b P s hs]
    simp [traction_free_state, hnil]
  · rw [impose_traction_free_edge_eq F b P s hs]
    simp [traction_free_state, hnil]

/-- C10: for a boundary `b` with a valid face index (fixed index `s`),
`impose_traction_free_edge` completes and treats each boundary node by its own
`dt/ds_n`: if it is exactly `0` the normal slot `1 + s` is pinned with value
`0`; otherwise the node is left as it was (so its normal slot is not pinned by
the call) and exactly one `BiharmonicFluidBoundaryElement(node, s)` is appended
for it.  The appended elements are, in order, those of the boundary nodes with
`dt/ds_n ≠ 0`, so the number of elements appended and the increase of
`Npoint_element` both equal the number of such nodes. -/
theorem impose_traction_free_edge_per_node (F : Libm α) (b : Nat)
    (P : BiharmonicFluidProblem α) (s : Nat)
    (hs : s_fixed_index_of (P.mesh_pt.face_index_at_boundary b 0) = some s) :
    (impose_traction_free_edge F b P).err = none
      ∧ (∀ n, n < P.mesh_pt.nboundary_node b →
          ((P.boundary_node b n).dtds_n F s = 0 →
            (traction_free_node_after F b P n).pinned (1 + s) = true
              ∧ (traction_free_node_after F b P n).value (1 + s) = 0)
          ∧ ((P.boundary_node b n).dtds_n F s ≠ 0 →
            traction_free_node_after F b P n = P.boundary_node b n))
      ∧ (impose_traction_free_edge F b P).st.mesh_pt.element_pt
          = P.mesh_pt.element_pt
            ++ ((P.mesh_pt.boundary_node b).filter
                (fun id => decide ((P.mesh_pt.node id).dtds_n F s ≠ 0))).map
                (fun id => Element.BiharmonicFluidBoundaryElement id s)
      ∧ (impose_traction_free_edge F b P).st.mesh_pt.element_pt.length
          = P.mesh_pt.element_pt.length
            + ((P.mesh_pt.boundary_node b).filter
                (fun id => decide ((P.mesh_pt.node id).dtds_n F s ≠ 0))).length
      ∧ (impose_traction_free_edge F b P).st.Npoint_element
          = P.Npoint_element
            + ((P.mesh_pt.boundary_node b).filter
                (fun id => decide ((P.mesh_pt.node id).dtds_n F s ≠ 0))).length := by
  have hmap := traction_free_active_map F P.mesh_pt b s
  have hlen := congrArg List.length hmap
  rw [List.length_map] at hlen
  have helts : (impose_traction_free_edge F b P).st.mesh_pt.element_pt
      = P.mesh_pt.element_pt
        ++ ((P.mesh_pt.boundary_node b).filter
            (fun id => decide ((P.mesh_pt.node id).dtds_n F s ≠ 0))).map
            (fun id => Element.BiharmonicFluidBoundaryElement id s) := by
    rw [impose_traction_free_edge_eq F b P s hs, ← hmap, List.map_map]
    rfl
  refine ⟨?_, ?_, helts, ?_, ?_⟩
  · rw [impose_traction_free_edge_eq F b P s hs]
  · intro n hn
    exact traction_free_node_after_cases F b P s hs n hn
  · rw [helts, List.length_append, List.length_map]
  · rw [impose_traction_free_edge_eq F b P s hs, ← hlen]
    rfl

end TractionFreeClaims

theorem impose_traction_free_edge_degenerate_witness :
    (impose_traction_free_edge exLibm 0 (exFluidProblem 0)).st.Npoint_element = 0 :=
  (impose_traction_free_edge_degenerate exLibm 0 (exFluidProblem 0) 1 (by decide)
    (fun n _ => by
      simp [Node.dtds_n, dtds_n, BiharmonicFluidProblem.boundary_node, exFluidProblem, exMesh,
        exNode, Node.dxds_n, Node.dxds_t])).2.2.2.2

theorem impose_traction_free_edge_per_node_witness :
    (impose_traction_free_edge exLibm 0 (exFluidProblem 1)).st.mesh_pt.element_pt.length
      = (exFluidProblem 1).mesh_pt.element_pt.length
        + (((exFluidProblem 1).mesh_pt.boundary_node 0).filter
            (fun id => decide (((exFluidProblem 1).mesh_pt.node id).dtds_n exLibm 1 ≠ 0))).length :=
  (impose_traction_free_edge_per_node exLibm 0 (exFluidProblem 1) 1 (by decide)).2.2.2.1


/-! ## `impose_traction_free_edge`: the hijacking table -/

section HijackTable

variable [Field α] [DecidableEq α]

/-- C11: for `b` in `{0,1,2,3}` with `(L,R) = (1,0), (3,1), (3,2), (2,0)`
respectively, the calls of `hijack_nodal_value` made by
`impose_traction_free_edge(b)` are, for every node `n` with `dt/ds_n ≠ 0` in
order: value index `1 + s_fixed_index` at local node `L` of boundary element
`n-1` (only when `n > 0`), then at local node `R` of boundary element `n`
(only when `n < n_node-1`); nothing else is hijacked. -/
theorem impose_traction_free_edge_hijack_table (F : Libm α) (b L R : Nat)
    (P : BiharmonicFluidProblem α) (s : Nat)
    (hb : (b, L, R) = (0, 1, 0) ∨ (b, L, R) = (1, 3, 1) ∨ (b, L, R) = (2, 3, 2)
      ∨ (b, L, R) = (3, 2, 0))
    (hs : s_fixed_index_of (P.mesh_pt.face_index_at_boundary b 0) = some s) :
    (impose_traction_free_edge F b P).st.mesh_pt.hijacked
      = P.mesh_pt.hijacked
        ++ ((List.range (P.mesh_pt.nboundary_node b)).filter
            (fun n => decide ((P.boundary_node b n).dtds_n F s ≠ 0))).flatMap
          (fun n => (if 0 < n then [(⟨b, n - 1, L, 1 + s⟩ : HijackCall)] else [])
            ++ (if n < P.mesh_pt.nboundary_node b - 1 then [⟨b, n, R, 1 + s⟩] else [])) := by
  rw [impose_traction_free_edge_eq F b P s hs]
  have htab : traction_free_hijacks b s (P.mesh_pt.nboundary_node b)
      = fun n => (if 0 < n then [(⟨b, n - 1, L, 1 + s⟩ : HijackCall)] else [])
        ++ (if n < P.mesh_pt.nboundary_node b - 1 then [⟨b, n, R, 1 + s⟩] else []) := by
    funext n
    rcases hb with hb | hb | hb | hb <;>
      (simp only [Prod.mk.injEq] at hb
       obtain ⟨rfl, rfl, rfl⟩ := hb
       simp [traction_free_hijacks])
  simp only [traction_free_state]
  rw [htab]
  rfl

end HijackTable

theorem impose_traction_free_edge_hijack_table_witness :
    (impose_traction_free_edge exLibm 0 (exFluidProblem 1)).st.mesh_pt.hijacked
      = (exFluidProblem 1).mesh_pt.hijacked
        ++ ((List.range ((exFluidProblem 1).mesh_pt.nboundary_node 0)).filter
            (fun n => decide (((exFluidProblem 1).boundary_node 0 n).dtds_n exLibm 1 ≠ 0))).flatMap
          (fun n => (if 0 < n then [(⟨0, n - 1, 1, 1 + 1⟩ : HijackCall)] else [])
            ++ (if n < (exFluidProblem 1).mesh_pt.nboundary_node 0 - 1 then [⟨0, n, 0, 1 + 1⟩]
              else [])) :=
  impose_traction_free_edge_hijack_table exLibm 0 1 0 (exFluidProblem 1) 1 (Or.inl rfl)
    (by decide)


/-! ## Claims about the residual and Jacobian of `BiharmonicFluidBoundaryElement` -/

section BoundaryElement

variable [Field α]

/-- C12: when the normal-derivative dof is free (local equation number
`e ≥ 0`) the residual routine adds exactly
`value(k_normal) - (dt/ds_n)*(ds_t/dt)*value(k_tangential)` to `residual[e]`,
with `k_normal = 1 + S_fixed_index`, `k_tangential = 2 - S_fixed_index`, and
changes no other residual entry, so the contribution is zero if and only if
`value(k_normal) = (dt/ds_n)(ds_t/dt) value(k_tangential)`; when the normal dof
is pinned (`e < 0`) neither the residual nor the Jacobian is changed. -/
theorem boundary_element_residual (E : BiharmonicFluidBoundaryElement α) (F : Libm α)
    (residual : Nat → α) (jacobian : Nat → Nat → α) (JFLAG : Nat) :
    (0 ≤ E.nodal_local_eqn (1 + E.S_fixed_index) →
        (∀ i, (E.fill_in_generic_residual_contribution_biharmonic_boundary F residual jacobian
              JFLAG).1 i
            = if i = (E.nodal_local_eqn (1 + E.S_fixed_index)).toNat then
                residual i + (E.node_pt.value (1 + E.S_fixed_index)
                  - dtds_n F (E.node_pt.dxds_n E.S_fixed_index)
                      (E.node_pt.dxds_t E.S_fixed_index)
                    * ds_tdt F (E.node_pt.dxds_t E.S_fixed_index)
                    * E.node_pt.value (2 - E.S_fixed_index))
              else residual i)
          ∧ ((E.fill_in_generic_residual_contribution_biharmonic_boundary F residual jacobian
                JFLAG).1 (E.nodal_local_eqn (1 + E.S_fixed_index)).toNat
              - residual (E.nodal_local_eqn (1 + E.S_fixed_index)).toNat = 0
            ↔ E.node_pt.value (1 + E.S_fixed_index)
              = dtds_n F (E.node_pt.dxds_n E.S_fixed_index) (E.node_pt.dxds_t E.S_fixed_index)
                * ds_tdt F (E.node_pt.dxds_t E.S_fixed_index)
                * E.node_pt.value (2 - E.S_fixed_index)))
      ∧ (E.nodal_local_eqn (1 + E.S_fixed_index) < 0 →
        E.fill_in_generic_residual_contribution_biharmonic_boundary F residual jacobian JFLAG
          = (residual, jacobian)) := by
  constructor
  · intro he
    have hres : ∀ i, (E.fill_in_generic_residual_contribution_biharmonic_boundary F residual
          jacobian JFLAG).1 i
        = if i = (E.nodal_local_eqn (1 + E.S_fixed_index)).toNat then
            residual i + (E.node_pt.value (1 + E.S_fixed_index)
              - dtds_n F (E.node_pt.dxds_n E.S_fixed_index)
                  (E.node_pt.dxds_t E.S_fixed_index)
                * ds_tdt F (E.node_pt.dxds_t E.S_fixed_index)
                * E.node_pt.value (2 - E.S_fixed_index))
          else residual i := by
      intro i
      simp only [BiharmonicFluidBoundaryElement.fill_in_generic_residual_contribution_biharmonic_boundary,
        ge_iff_le, if_pos he]
      by_cases hi : i = (E.nodal_local_eqn (1 + E.S_fixed_index)).toNat
      · rw [hi, if_pos rfl]
        split_ifs <;> simp
      · rw [if_neg hi]
        split_ifs <;> simp [Function.update_noteq hi]
    refine ⟨hres, ?_⟩
    rw [hres, if_pos rfl, add_sub_cancel_left, sub_eq_zero]
  · intro he
    have hneg : ¬ (E.nodal_local_eqn (1 + E.S_fixed_index) ≥ 0) := by omega
    simp only [BiharmonicFluidBoundaryElement.fill_in_generic_residual_contribution_biharmonic_boundary,
      if_neg hneg]

/-- C13: with the normal dof free at local equation `e` and Jacobian assembly
requested (`JFLAG = 1`), the routine adds `1` to `jacobian(e,e)` and, when the
tangential dof is free at local dof `t`, adds `-(dt/ds_n)*(ds_t/dt)` to
`jacobian(e,t)`, and changes no other entry; when the tangential dof is pinned
only the `(e,e)` entry changes.  These increments are the derivatives of the
residual contribution: replacing `value(k_normal)` by `value(k_normal) + d`
changes the contribution by `1 * d`, replacing `value(k_tangential)` by
`value(k_tangential) + d` changes it by `-(dt/ds_n)*(ds_t/dt) * d`. -/
theorem boundary_element_jacobian (E : BiharmonicFluidBoundaryElement α) (F : Libm α)
    (residual : Nat → α) (jacobian : Nat → Nat → α)
    (he : 0 ≤ E.nodal_local_eqn (1 + E.S_fixed_index)) :
    (∀ i j, (E.fill_in_generic_residual_contribution_biharmonic_boundary F residual jacobian
          1).2 i j
        = jacobian i j
          + (if i = (E.nodal_local_eqn (1 + E.S_fixed_index)).toNat
              ∧ j = (E.nodal_local_eqn (1 + E.S_fixed_index)).toNat then 1 else 0)
          + (if 0 ≤ E.nodal_local_eqn (2 - E.S_fixed_index)
              ∧ i = (E.nodal_local_eqn (1 + E.S_fixed_index)).toNat
              ∧ j = (E.nodal_local_eqn (2 - E.S_fixed_index)).toNat
            then -(E.coefficient F) else 0))
      ∧ (∀ d : α,
          ((E.with_value (1 + E.S_fixed_index) (E.node_pt.value (1 + E.S_fixed_index) + d)
              ).fill_in_generic_residual_contribution_biharmonic_boundary F residual jacobian
                1).1 (E.nodal_local_eqn (1 + E.S_fixed_index)).toNat
            = (E.fill_in_generic_residual_contribution_biharmonic_boundary F residual jacobian
                1).1 (E.nodal_local_eqn (1 + E.S_fixed_index)).toNat + 1 * d)
      ∧ (∀ d : α,
          ((E.with_value (2 - E.S_fixed_index) (E.node_pt.value (2 - E.S_fixed_index) + d)
              ).fill_in_generic_residual_contribution_biharmonic_boundary F residual jacobian
                1).1 (E.nodal_local_eqn (1 + E.S_fixed_index)).toNat
            = (E.fill_in_generic_residual_contribution_biharmonic_boundary F residual jacobian
                1).1 (E.nodal_local_eqn (1 + E.S_fixed_index)).toNat
              + -(E.coefficient F) * d) := by
  have hk : 1 + E.S_fixed_index ≠ 2 - E.S_fixed_index := by omega
  refine ⟨?_, ?_, ?_⟩
  · intro i j
    simp only [BiharmonicFluidBoundaryElement.fill_in_generic_residual_contribution_biharmonic_boundary,
      ge_iff_le, if_pos he, if_true, BiharmonicFluidBoundaryElement.coefficient]
    by_cases ht : 0 ≤ E.nodal_local_eqn (2 - E.S_fixed_index)
    · simp only [if_pos ht, DenseMatrix_add, true_and]
      split_ifs <;> simp_all
    · simp only [if_neg ht, DenseMatrix_add, false_and, if_false, add_zero]
      split_ifs <;> simp_all
  · intro d
    simp only [BiharmonicFluidBoundaryElement.fill_in_generic_residual_contribution_biharmonic_boundary,
      BiharmonicFluidBoundaryElement.with_value, ge_iff_le, if_pos he, if_true,
      Function.update_same, Node.set_value, Node.dxds_n, Node.dxds_t,
      Function.update_noteq hk.symm]
    ring
  · intro d
    simp only [BiharmonicFluidBoundaryElement.fill_in_generic_residual_contribution_biharmonic_boundary,
      BiharmonicFluidBoundaryElement.with_value, ge_iff_le, if_pos he, if_true,
      Function.update_same, Node.set_value, Node.dxds_n, Node.dxds_t,
      Function.update_noteq hk, BiharmonicFluidBoundaryElement.coefficient]
    ring

end BoundaryElement

theorem boundary_element_jacobian_witness :
    (exBoundaryElement.fill_in_generic_residual_contribution_biharmonic_boundary exLibm
          (fun _ => 0) (fun _ _ => 0) 1).2 0 1
        = (fun _ _ => (0 : ℚ)) 0 1
          + (if 0 = (exBoundaryElement.nodal_local_eqn (1 + exBoundaryElement.S_fixed_index)).toNat
              ∧ 1 = (exBoundaryElement.nodal_local_eqn
                  (1 + exBoundaryElement.S_fixed_index)).toNat then 1 else 0)
          + (if 0 ≤ exBoundaryElement.nodal_local_eqn (2 - exBoundaryElement.S_fixed_index)
              ∧ 0 = (exBoundaryElement.nodal_local_eqn
                  (1 + exBoundaryElement.S_fixed_index)).toNat
              ∧ 1 = (exBoundaryElement.nodal_local_eqn
                  (2 - exBoundaryElement.S_fixed_index)).toNat
            then -(exBoundaryElement.coefficient exLibm) else 0) :=
  (boundary_element_jacobian exBoundaryElement exLibm (fun _ => 0) (fun _ _ => 0)
    (by decide)).1 0 1


/-! ## Claims about `set_neumann_boundary_condition` -/

theorem foldl_append_singleton {β γ : Type} (f : γ → β) (l : List γ) (init : List β) :
    l.foldl (fun acc e => acc ++ [f e]) init = init ++ l.map f := by
  induction l generalizing init with
  | nil => simp
  | cons a l ih => simp [ih]

section Neumann

/-- C14: `set_neumann_boundary_condition(b, flux0, flux1)` appends to the
face-element mesh exactly `nboundary_element(b)` new flux elements, in element
order `e = 0..n-1`, the `e`-th built from
`(boundary_element_pt(b,e), face_index_at_boundary(b,e), b)`; the elements
already in the face mesh are kept in place, and the face mesh is created
(empty) first if it does not exist yet. -/
theorem set_neumann_appends_flux_elements (b : Nat) (flux0_fct_pt flux1_fct_pt : Option (α → α))
    (P : BiharmonicProblem α) :
    (set_neumann_boundary_condition b flux0_fct_pt flux1_fct_pt P).Face_element_mesh_pt
        = some ((P.Face_element_mesh_pt.getD [])
          ++ (List.range (P.Bulk_element_mesh_pt.nboundary_element b)).map
            (fun e => ⟨P.Bulk_element_mesh_pt.boundary_element_pt b e,
              P.Bulk_element_mesh_pt.face_index_at_boundary b e, b, flux0_fct_pt,
              flux1_fct_pt⟩))
      ∧ (∀ new_mesh,
          (set_neumann_boundary_condition b flux0_fct_pt flux1_fct_pt P).Face_element_mesh_pt
            = some new_mesh →
          new_mesh.length = (P.Face_element_mesh_pt.getD []).length
            + P.Bulk_element_mesh_pt.nboundary_element b) := by
  have hbody : neumann_element b flux0_fct_pt flux1_fct_pt P.Bulk_element_mesh_pt
      = fun acc e => acc ++ [(⟨P.Bulk_element_mesh_pt.boundary_element_pt b e,
          P.Bulk_element_mesh_pt.face_index_at_boundary b e, b, flux0_fct_pt,
          flux1_fct_pt⟩ : BiharmonicFluxElement α)] := by
    funext acc e
    cases flux1_fct_pt <;> rfl
  have hmesh : (match P.Face_element_mesh_pt with
      | none => []
      | some m => m) = P.Face_element_mesh_pt.getD [] := by
    cases P.Face_element_mesh_pt <;> rfl
  have hclosed :
      (set_neumann_boundary_condition b flux0_fct_pt flux1_fct_pt P).Face_element_mesh_pt
        = some ((P.Face_element_mesh_pt.getD [])
          ++ (List.range (P.Bulk_element_mesh_pt.nboundary_element b)).map
            (fun e => ⟨P.Bulk_element_mesh_pt.boundary_element_pt b e,
              P.Bulk_element_mesh_pt.face_index_at_boundary b e, b, flux0_fct_pt,
              flux1_fct_pt⟩)) := by
    simp only [set_neumann_boundary_condition]
    rw [hbody, hmesh, foldl_append_singleton]
  refine ⟨hclosed, ?_⟩
  intro new_mesh hnew
  rw [hclosed] at hnew
  rw [← Option.some.inj hnew]
  simp

/-- C15: `set_neumann_boundary_condition` performs no pinning: the bulk mesh
is the same after the call as before it, so for every node the pinned flag and
the stored value of every slot are unchanged. -/
theorem set_neumann_no_pinning (b : Nat) (flux0_fct_pt flux1_fct_pt : Option (α → α))
    (P : BiharmonicProblem α) :
    (set_neumann_boundary_condition b flux0_fct_pt flux1_fct_pt P).Bulk_element_mesh_pt
        = P.Bulk_element_mesh_pt
      ∧ ∀ id k,
        ((set_neumann_boundary_condition b flux0_fct_pt flux1_fct_pt
            P).Bulk_element_mesh_pt.node id).pinned k
          = (P.Bulk_element_mesh_pt.node id).pinned k
        ∧ ((set_neumann_boundary_condition b flux0_fct_pt flux1_fct_pt
            P).Bulk_element_mesh_pt.node id).value k
          = (P.Bulk_element_mesh_pt.node id).value k :=
  ⟨rfl, fun _ _ => ⟨rfl, rfl⟩⟩

end Neumann


/-! ## Claims about `impose_solid_boundary_on_edge` and `impose_fluid_flow_on_edge` -/

theorem foldl_const_idem {β γ : Type} (e : β → β) (he : ∀ x, e (e x) = e x) (L : List γ)
    (x : β) : L.foldl (fun y _ => e y) x = if L.isEmpty then x else e x := by
  induction L generalizing x with
  | nil => simp
  | cons a L ih =>
    rw [List.foldl_cons, ih]
    cases L with
    | nil => simp
    | cons c L => simp [he]

section SolidBoundary

variable [Field α]

theorem solid_boundary_node_eq (b : Nat) (psi : α) (M : Mesh α) (n : Nat) :
    solid_boundary_node b psi M n
      = M.modify_node (M.boundary_node_pt b n) (solid_boundary_effect psi) := by
  simp only [solid_boundary_node, List.foldl_cons, List.foldl_nil, Mesh.pin, Mesh.set_value,
    modify_node_modify_node, Mesh.boundary_node_pt, Mesh.modify_node, solid_boundary_effect]
  simp only [Function.update_idem, Function.update_same]

theorem impose_solid_boundary_on_edge_eq (b : Nat) (psi : α) (P : BiharmonicFluidProblem α) :
    impose_solid_boundary_on_edge b psi P
      = ⟨P.mesh_pt.after_loop b (fun _ => solid_boundary_effect psi), P.Npoint_element⟩ := by
  have hbody : solid_boundary_node b psi
      = fun M n => M.modify_node (M.boundary_node_pt b n) (solid_boundary_effect psi) := by
    funext M n
    exact solid_boundary_node_eq b psi M n
  simp only [impose_solid_boundary_on_edge]
  rw [hbody, foldl_modify_node]
  rfl

theorem solid_boundary_effect_slots (psi : α) (nd : Node α) :
    ((solid_boundary_effect psi nd).pinned 0 = true
        ∧ (solid_boundary_effect psi nd).pinned 1 = true
        ∧ (solid_boundary_effect psi nd).pinned 2 = true
        ∧ (solid_boundary_effect psi nd).pinned 3 = true)
      ∧ (solid_boundary_effect psi nd).value 0 = psi
      ∧ (solid_boundary_effect psi nd).value 1 = 0
      ∧ (solid_boundary_effect psi nd).value 2 = 0
      ∧ (solid_boundary_effect psi nd).value 3 = 0 := by
  simp [solid_boundary_effect, Node.pin, Node.set_value, Function.update_apply]

theorem solid_boundary_effect_idem (psi : α) (nd : Node α) :
    solid_boundary_effect psi (solid_boundary_effect psi nd) = solid_boundary_effect psi nd := by
  simp only [solid_boundary_effect, Node.pin, Node.set_value, Node.mk.injEq, and_true]
  constructor
  · funext k
    simp only [Function.update_apply]
    split_ifs <;> rfl
  · funext k
    simp only [Function.update_apply]
    split_ifs <;> rfl

/-- C16: `impose_solid_boundary_on_edge(b, psi)` leaves every node on boundary
`b` with all four slots `0..3` pinned, slot `0` equal to `psi` and slots `1`,
`2`, `3` equal to `0`; it leaves the nodes that are not on boundary `b`
unchanged; and applying it twice with the same `psi` gives the same state as
applying it once. -/
theorem impose_solid_boundary_on_edge_spec (b : Nat) (psi : α)
    (P : BiharmonicFluidProblem α) :
    (∀ n, n < P.mesh_pt.nboundary_node b →
        (((impose_solid_boundary_on_edge b psi P).mesh_pt.node
              (P.mesh_pt.boundary_node_pt b n)).pinned 0 = true
          ∧ ((impose_solid_boundary_on_edge b psi P).mesh_pt.node
              (P.mesh_pt.boundary_node_pt b n)).pinned 1 = true
          ∧ ((impose_solid_boundary_on_edge b psi P).mesh_pt.node
              (P.mesh_pt.boundary_node_pt b n)).pinned 2 = true
          ∧ ((impose_solid_boundary_on_edge b psi P).mesh_pt.node
              (P.mesh_pt.boundary_node_pt b n)).pinned 3 = true)
        ∧ ((impose_solid_boundary_on_edge b psi P).mesh_pt.node
              (P.mesh_pt.boundary_node_pt b n)).value 0 = psi
        ∧ ((impose_solid_boundary_on_edge b psi P).mesh_pt.node
              (P.mesh_pt.boundary_node_pt b n)).value 1 = 0
        ∧ ((impose_solid_boundary_on_edge b psi P).mesh_pt.node
              (P.mesh_pt.boundary_node_pt b n)).value 2 = 0
        ∧ ((impose_solid_boundary_on_edge b psi P).mesh_pt.node
              (P.mesh_pt.boundary_node_pt b n)).value 3 = 0)
      ∧ (∀ j, j ∉ P.mesh_pt.boundary_node b →
        (impose_solid_boundary_on_edge b psi P).mesh_pt.node j = P.mesh_pt.node j)
      ∧ impose_solid_boundary_on_edge b psi (impose_solid_boundary_on_edge b psi P)
          = impose_solid_boundary_on_edge b psi P := by
  refine ⟨?_, ?_, ?_⟩
  · intro n hn
    rw [impose_solid_boundary_on_edge_eq]
    exact node_after_ind (P.mesh_pt.boundary_node b) (fun _ => solid_boundary_effect psi) n _ hn
      (P.mesh_pt.node (P.mesh_pt.boundary_node_pt b n)) (fun _ => True)
      (fun x => (x.pinned 0 = true ∧ x.pinned 1 = true ∧ x.pinned 2 = true
          ∧ x.pinned 3 = true)
        ∧ x.value 0 = psi ∧ x.value 1 = 0 ∧ x.value 2 = 0 ∧ x.value 3 = 0)
      trivial (fun _ _ _ => trivial)
      (fun _ x _ => solid_boundary_effect_slots psi x)
  · intro j hj
    rw [impose_solid_boundary_on_edge_eq]
    exact node_after_not_mem (P.mesh_pt.boundary_node b) (fun _ => solid_boundary_effect psi)
      _ j le_rfl hj (P.mesh_pt.node j)
  · rw [impose_solid_boundary_on_edge_eq, impose_solid_boundary_on_edge_eq]
    simp only [Mesh.after_loop, Mesh.nboundary_node, node_after,
      BiharmonicFluidProblem.mk.injEq, Mesh.mk.injEq, and_true]
    funext j
    rw [foldl_const_idem _ (solid_boundary_effect_idem psi),
      foldl_const_idem _ (solid_boundary_effect_idem psi)]
    split_ifs
    · rfl
    · exact solid_boundary_effect_idem psi _

end SolidBoundary


section FluidFlow

variable [Field α]

theorem fluid_flow_switch_range (f : Int) (s : Nat) (es : Int)
    (hs : fluid_flow_switch f = some (s, es)) : s = 0 ∨ s = 1 := by
  unfold fluid_flow_switch at hs
  split_ifs at hs
  all_goals
    simp only [Option.some.injEq, Prod.mk.injEq] at hs
    omega

theorem fluid_flow_node_eq (F : Libm α) (b s n_node : Nat) (es : Int)
    (u_imposed_fn : α → α × α) (M : Mesh α) (n : Nat) :
    fluid_flow_node F b s n_node es u_imposed_fn M n
      = M.modify_node (M.boundary_node_pt b n)
          (fluid_flow_effect F b s n_node es u_imposed_fn n) := by
  simp only [fluid_flow_node, Mesh.pin, Mesh.set_value, modify_node_modify_node]
  simp only [Mesh.modify_node, fluid_flow_effect]

theorem impose_fluid_flow_on_edge_eq (F : Libm α) (b : Nat) (u_imposed_fn : α → α × α)
    (P : BiharmonicFluidProblem α) (s : Nat) (es : Int)
    (hs : fluid_flow_switch (P.mesh_pt.face_index_at_boundary b 0) = some (s, es)) :
    impose_fluid_flow_on_edge F b u_imposed_fn P
      = ⟨none, ⟨P.mesh_pt.after_loop b
          (fluid_flow_effect F b s (P.mesh_pt.nboundary_node b) es u_imposed_fn),
          P.Npoint_element⟩⟩ := by
  have hbody : fluid_flow_node F b s (P.mesh_pt.nboundary_node b) es u_imposed_fn
      = fun M n => M.modify_node (M.boundary_node_pt b n)
          (fluid_flow_effect F b s (P.mesh_pt.nboundary_node b) es u_imposed_fn n) := by
    funext M n
    exact fluid_flow_node_eq F b s _ es u_imposed_fn M n
  simp only [impose_fluid_flow_on_edge, hs]
  rw [hbody, foldl_modify_node]
  rfl

theorem fluid_flow_effect_slots (F : Libm α) (b s n_node : Nat) (hs : s = 0 ∨ s = 1)
    (es : Int) (u_imposed_fn : α → α × α) (n : Nat) (nd : Node α) :
    ((fluid_flow_effect F b s n_node es u_imposed_fn n nd).pinned (1 + s) = true
        ∧ (fluid_flow_effect F b s n_node es u_imposed_fn n nd).pinned (2 - s) = true
        ∧ (fluid_flow_effect F b s n_node es u_imposed_fn n nd).pinned 3 = true)
      ∧ (fluid_flow_effect F b s n_node es u_imposed_fn n nd).value (1 + s)
          = (fluid_flow_values F b s n_node es u_imposed_fn n nd).1
      ∧ (fluid_flow_effect F b s n_node es u_imposed_fn n nd).value (2 - s)
          = (fluid_flow_values F b s n_node es u_imposed_fn n nd).2.1
      ∧ (fluid_flow_effect F b s n_node es u_imposed_fn n nd).value 3
          = (fluid_flow_values F b s n_node es u_imposed_fn n nd).2.2 := by
  rcases hs with rfl | rfl <;> simp [fluid_flow_effect, Node.pin, Node.set_value]

theorem fluid_flow_effect_frame (F : Libm α) (b s n_node : Nat) (es : Int)
    (u_imposed_fn : α → α × α) (n : Nat) (nd : Node α) (k : Nat) (hk1 : k ≠ 1 + s)
    (hk2 : k ≠ 2 - s) (hk3 : k ≠ 3) :
    (fluid_flow_effect F b s n_node es u_imposed_fn n nd).pinned k = nd.pinned k
      ∧ (fluid_flow_effect F b s n_node es u_imposed_fn n nd).value k = nd.value k := by
  simp [fluid_flow_effect, Node.pin, Node.set_value, Function.update_noteq hk1,
    Function.update_noteq hk2, Function.update_noteq hk3]

theorem fluid_flow_values_zero (F : Libm α) (b s n_node : Nat) (es : Int) (n : Nat)
    (nd : Node α) :
    fluid_flow_values F b s n_node es (fun _ => (0, 0)) n nd = (0, 0, 0) := by
  simp [fluid_flow_values]

/-- C17: `impose_fluid_flow_on_edge(b, u_imposed_fn)` (face index accepted by
the routine) completes and pins the three derivative slots `1`, `2`, `3` of
every node on boundary `b` (normal `1 + s_fixed_index`, tangential
`2 - s_fixed_index`, mixed `3`); no slot other than `1`, `2`, `3`, in particular
not the value slot `0`, is pinned or changed at any node; and when the imposed
flow is identically zero the three slots are set to `0`. -/
theorem impose_fluid_flow_on_edge_slots (F : Libm α) (b : Nat) (u_imposed_fn : α → α × α)
    (P : BiharmonicFluidProblem α) (s : Nat) (es : Int)
    (hs : fluid_flow_switch (P.mesh_pt.face_index_at_boundary b 0) = some (s, es)) :
    (impose_fluid_flow_on_edge F b u_imposed_fn P).err = none
      ∧ ((1 + s = 1 ∧ 2 - s = 2) ∨ (1 + s = 2 ∧ 2 - s = 1))
      ∧ (∀ n, n < P.mesh_pt.nboundary_node b →
          ((impose_fluid_flow_on_edge F b u_imposed_fn P).st.mesh_pt.node
              (P.mesh_pt.boundary_node_pt b n)).pinned 1 = true
          ∧ ((impose_fluid_flow_on_edge F b u_imposed_fn P).st.mesh_pt.node
              (P.mesh_pt.boundary_node_pt b n)).pinned 2 = true
          ∧ ((impose_fluid_flow_on_edge F b u_imposed_fn P).st.mesh_pt.node
              (P.mesh_pt.boundary_node_pt b n)).pinned 3 = true)
      ∧ (∀ j k, k ≠ 1 → k ≠ 2 → k ≠ 3 →
          ((impose_fluid_flow_on_edge F b u_imposed_fn P).st.mesh_pt.node j).pinned k
            = (P.mesh_pt.node j).pinned k
          ∧ ((impose_fluid_flow_on_edge F b u_imposed_fn P).st.mesh_pt.node j).value k
            = (P.mesh_pt.node j).value k)
      ∧ (∀ n, n < P.mesh_pt.nboundary_node b →
          ((impose_fluid_flow_on_edge F b (fun _ => (0, 0)) P).st.mesh_pt.node
              (P.mesh_pt.boundary_node_pt b n)).value 1 = 0
          ∧ ((impose_fluid_flow_on_edge F b (fun _ => (0, 0)) P).st.mesh_pt.node
              (P.mesh_pt.boundary_node_pt b n)).value 2 = 0
          ∧ ((impose_fluid_flow_on_edge F b (fun _ => (0, 0)) P).st.mesh_pt.node
              (P.mesh_pt.boundary_node_pt b n)).value 3 = 0) := by
  have hs01 := fluid_flow_switch_range _ s es hs
  refine ⟨?_, ?_, ?_, ?_, ?_⟩
  · rw [impose_fluid_flow_on_edge_eq F b u_imposed_fn P s es hs]
  · omega
  · intro n hn
    rw [impose_fluid_flow_on_edge_eq F b u_imposed_fn P s es hs]
    have hp := node_after_ind (P.mesh_pt.boundary_node b)
      (fluid_flow_effect F b s (P.mesh_pt.nboundary_node b) es u_imposed_fn) n _ hn
      (P.mesh_pt.node (P.mesh_pt.boundary_node_pt b n)) (fun _ => True)
      (fun x => x.pinned (1 + s) = true ∧ x.pinned (2 - s) = true ∧ x.pinned 3 = true)
      trivial (fun _ _ _ => trivial)
      (fun i x _ => (fluid_flow_effect_slots F b s _ hs01 es u_imposed_fn i x).1)
    rcases hs01 with rfl | rfl
    · exact ⟨hp.1, hp.2.1, hp.2.2⟩
    · exact ⟨hp.2.1, hp.1, hp.2.2⟩
  · intro j k hk1 hk2 hk3
    rw [impose_fluid_flow_on_edge_eq F b u_imposed_fn P s es hs]
    exact node_after_inv (P.mesh_pt.boundary_node b)
      (fluid_flow_effect F b s (P.mesh_pt.nboundary_node b) es u_imposed_fn) _ j
      (P.mesh_pt.node j)
      (fun x => x.pinned k = (P.mesh_pt.node j).pinned k
        ∧ x.value k = (P.mesh_pt.node j).value k)
      ⟨rfl, rfl⟩
      (fun i x hx => by
        beta_reduce at hx ⊢
        have hf := fluid_flow_effect_frame F b s (P.mesh_pt.nboundary_node b) es u_imposed_fn
          i x k (by omega) (by omega) hk3
        rw [hf.1, hf.2]
        exact hx)
  · intro n hn
    rw [impose_fluid_flow_on_edge_eq F b _ P s es hs]
    have hp := node_after_ind (P.mesh_pt.boundary_node b)
      (fluid_flow_effect F b s (P.mesh_pt.nboundary_node b) es (fun _ => (0, 0))) n _ hn
      (P.mesh_pt.node (P.mesh_pt.boundary_node_pt b n)) (fun _ => True)
      (fun x => x.value (1 + s) = 0 ∧ x.value (2 - s) = 0 ∧ x.value 3 = 0)
      trivial (fun _ _ _ => trivial)
      (fun i x _ => by
        beta_reduce
        have hsl := (fluid_flow_effect_slots F b s (P.mesh_pt.nboundary_node b) hs01 es
          (fun _ => (0, 0)) i x).2
        rw [hsl.1, hsl.2.1, hsl.2.2, fluid_flow_values_zero]
        exact ⟨rfl, rfl, rfl⟩)
    rcases hs01 with rfl | rfl
    · exact ⟨hp.1, hp.2.1, hp.2.2⟩
    · exact ⟨hp.2.1, hp.1, hp.2.2⟩

end FluidFlow

theorem impose_fluid_flow_on_edge_slots_witness :
    ((impose_fluid_flow_on_edge exLibm 0 (fun m => (m, 1)) (exFluidProblem 1)).st.mesh_pt.node
        ((exFluidProblem 1).mesh_pt.boundary_node_pt 0 1)).pinned 3 = true :=
  ((impose_fluid_flow_on_edge_slots exLibm 0 (fun m => (m, 1)) (exFluidProblem 1) 1 1
    (by decide)).2.2.1 1 (by decide)).2.2


/-! ## Claims about the preconditioner classes -/

/-- C18: a newly constructed `BiharmonicPreconditioner` has mode `2` when
`OOMPH_HAS_HYPRE` is defined and mode `1` otherwise, and in both cases its three
sub-preconditioner pointers and its bulk mesh pointer are null. -/
theorem BiharmonicPreconditioner_construct_defaults :
    (BiharmonicPreconditioner.construct true).Preconditioner_type = 2
      ∧ (BiharmonicPreconditioner.construct false).Preconditioner_type = 1
      ∧ ∀ hypre : Bool,
        (BiharmonicPreconditioner.construct hypre).Sub_preconditioner_1_pt = none
        ∧ (BiharmonicPreconditioner.construct hypre).Sub_preconditioner_2_pt = none
        ∧ (BiharmonicPreconditioner.construct hypre).Hijacked_sub_block_preconditioner_pt = none
        ∧ (BiharmonicPreconditioner.construct hypre).Bulk_element_mesh_pt = none :=
  ⟨rfl, rfl, fun _ => ⟨rfl, rfl, rfl, rfl⟩⟩

/-- `BiharmonicPreconditioner::clean_up_memory` leaves every data member as it
was and passes the three pointers to `delete`. -/
theorem BiharmonicPreconditioner_clean_up_memory_eq (S : BiharmonicPreconditioner × List Nat) :
    BiharmonicPreconditioner.clean_up_memory S
      = (S.1, delete S.1.Hijacked_sub_block_preconditioner_pt
          (delete S.1.Sub_preconditioner_2_pt (delete S.1.Sub_preconditioner_1_pt S.2))) :=
  rfl

/-- C19 (the code at a failing input): for a preconditioner holding the
sub-preconditioners with handles `7` and `9`, one call of `clean_up_memory`
deletes both but leaves the two pointers non-null, and a second call deletes
both handles a second time. -/
theorem BiharmonicPreconditioner_clean_up_memory_twice :
    (BiharmonicPreconditioner.clean_up_memory (exPreconditioner, [])).1.Sub_preconditioner_1_pt
        = some 7
      ∧ (BiharmonicPreconditioner.clean_up_memory
          (exPreconditioner, [])).1.Hijacked_sub_block_preconditioner_pt = some 9
      ∧ (BiharmonicPreconditioner.clean_up_memory (exPreconditioner, [])).2 = [7, 9]
      ∧ (BiharmonicPreconditioner.clean_up_memory
          (BiharmonicPreconditioner.clean_up_memory (exPreconditioner, []))).2 = [7, 9, 7, 9]
      ∧ BiharmonicPreconditioner.clean_up_memory
          (BiharmonicPreconditioner.clean_up_memory (exPreconditioner, []))
        ≠ BiharmonicPreconditioner.clean_up_memory (exPreconditioner, []) := by
  decide

theorem delete_none (deleted : List Nat) : delete none deleted = deleted := rfl

theorem delete_eq (p : Option Nat) (deleted : List Nat) :
    delete p deleted = deleted ++ p.toList := by
  cases p <;> simp [delete]

theorem clean_block_pointer_foldl (i : Nat) (E : Nat → Nat → Option Nat) (deleted : List Nat)
    (k : Nat) :
    (List.range k).foldl (clean_block_pointer i) (E, deleted)
      = (fun r c => if r = i ∧ c < k then none else E r c,
          deleted ++ (List.range k).filterMap (E i)) := by
  induction k with
  | zero => simp
  | succ k ih =>
    rw [List.range_succ, List.foldl_append, ih, List.filterMap_append]
    simp only [List.foldl_cons, List.foldl_nil, clean_block_pointer, lt_self_iff_false,
      and_false, if_false]
    cases hE : E i k with
    | none =>
      simp only [List.filterMap_cons, List.filterMap_nil, hE, List.append_nil, Prod.mk.injEq,
        and_true]
      funext r c
      by_cases hr : r = i
      · by_cases hc : c = k
        · subst hr; subst hc; simp [hE]
        · have hiff : c < k + 1 ↔ c < k := by omega
          simp [hr, hiff]
      · simp [hr]
    | some a =>
      simp only [List.filterMap_cons, List.filterMap_nil, hE, delete, List.append_assoc,
        Prod.mk.injEq, and_true]
      funext r c
      by_cases hr : r = i
      · by_cases hc : c = k
        · simp [hr, hc]
        · have hiff : c < k + 1 ↔ c < k := by omega
          simp [hr, hc, hiff]
      · simp [hr]

theorem clean_block_pointers_foldl (n : Nat) (E : Nat → Nat → Option Nat) (deleted : List Nat)
    (m : Nat) :
    (List.range m).foldl (fun st i => (List.range n).foldl (clean_block_pointer i) st)
        (E, deleted)
      = (fun r c => if r < m ∧ c < n then none else E r c,
          deleted ++ (List.range m).flatMap (fun i => (List.range n).filterMap (E i))) := by
  induction m with
  | zero => simp
  | succ m ih =>
    rw [List.range_succ, List.foldl_append, ih, List.flatMap_append]
    simp only [List.foldl_cons, List.foldl_nil, clean_block_pointer_foldl, lt_self_iff_false,
      false_and, if_false, List.flatMap_cons, List.flatMap_nil, List.append_nil,
      List.append_assoc, Prod.mk.injEq, and_true]
    funext r c
    by_cases hr : r = m
    · subst hr; simp
    · have hiff : r < m + 1 ↔ r < m := by omega
      simp [hr, hiff]

theorem InexactSub_clean_up_memory_eq (S : InexactSubBiharmonicPreconditioner × List Nat) :
    InexactSubBiharmonicPreconditioner.clean_up_memory S
      = (⟨none, none, none,
          ⟨S.1.Matrix_of_block_pointers.nrow, S.1.Matrix_of_block_pointers.ncol,
            fun r c => if r < S.1.Matrix_of_block_pointers.nrow
                ∧ c < S.1.Matrix_of_block_pointers.nrow then none
              else S.1.Matrix_of_block_pointers.entry r c⟩,
          S.1.S_00_pt, S.1.Use_amg⟩,
        S.2 ++ S.1.S_00_preconditioner_pt.toList ++ S.1.Lumped_J_11_preconditioner_pt.toList
          ++ S.1.Lumped_J_22_preconditioner_pt.toList
          ++ (List.range S.1.Matrix_of_block_pointers.nrow).flatMap
            (fun i => (List.range S.1.Matrix_of_block_pointers.nrow).filterMap
              (S.1.Matrix_of_block_pointers.entry i))) := by
  simp only [InexactSubBiharmonicPreconditioner.clean_up_memory, clean_block_pointers_foldl,
    delete_eq]

theorem flatMap_filterMap_cleared (n : Nat) (E : Nat → Nat → Option Nat) :
    (List.range n).flatMap (fun i => (List.range n).filterMap
      (fun c => if i < n ∧ c < n then none else E i c)) = [] := by
  rw [List.flatMap_eq_nil_iff]
  intro i hi
  rw [List.filterMap_eq_nil_iff]
  intro c hc
  simp [List.mem_range.mp hi, List.mem_range.mp hc]

/-- C20: `clean_up_memory` of `ExactSubBiharmonicPreconditioner` and of
`InexactSubBiharmonicPreconditioner` (with a square matrix of block pointers)
passes every non-null owned pointer to `delete` exactly once, in order, and
nulls it: afterwards `Sub_preconditioner_pt`, respectively
`S_00_preconditioner_pt`, `Lumped_J_11_preconditioner_pt`,
`Lumped_J_22_preconditioner_pt` and every entry of `Matrix_of_block_pointers`,
are null, and a second call changes nothing. -/
theorem sub_preconditioner_clean_up_memory (X : ExactSubBiharmonicPreconditioner × List Nat)
    (S : InexactSubBiharmonicPreconditioner × List Nat)
    (hsq : S.1.Matrix_of_block_pointers.ncol = S.1.Matrix_of_block_pointers.nrow) :
    ((ExactSubBiharmonicPreconditioner.clean_up_memory X).1.Sub_preconditioner_pt = none
        ∧ (ExactSubBiharmonicPreconditioner.clean_up_memory X).2
            = X.2 ++ X.1.Sub_preconditioner_pt.toList
        ∧ ExactSubBiharmonicPreconditioner.clean_up_memory
            (ExactSubBiharmonicPreconditioner.clean_up_memory X)
          = ExactSubBiharmonicPreconditioner.clean_up_memory X)
      ∧ ((InexactSubBiharmonicPreconditioner.clean_up_memory S).1.S_00_preconditioner_pt = none
        ∧ (InexactSubBiharmonicPreconditioner.clean_up_memory S).1.Lumped_J_11_preconditioner_pt
            = none
        ∧ (InexactSubBiharmonicPreconditioner.clean_up_memory S).1.Lumped_J_22_preconditioner_pt
            = none
        ∧ (∀ i j, i < S.1.Matrix_of_block_pointers.nrow → j < S.1.Matrix_of_block_pointers.ncol →
            (InexactSubBiharmonicPreconditioner.clean_up_memory
              S).1.Matrix_of_block_pointers.entry i j = none)
        ∧ (InexactSubBiharmonicPreconditioner.clean_up_memory S).2
            = S.2 ++ S.1.S_00_preconditioner_pt.toList
              ++ S.1.Lumped_J_11_preconditioner_pt.toList
              ++ S.1.Lumped_J_22_preconditioner_pt.toList
              ++ (List.range S.1.Matrix_of_block_pointers.nrow).flatMap
                (fun i => (List.range S.1.Matrix_of_block_pointers.ncol).filterMap
                  (S.1.Matrix_of_block_pointers.entry i))
        ∧ InexactSubBiharmonicPreconditioner.clean_up_memory
            (InexactSubBiharmonicPreconditioner.clean_up_memory S)
          = InexactSubBiharmonicPreconditioner.clean_up_memory S) := by
  refine ⟨⟨rfl, ?_, ?_⟩, ⟨?_, ?_, ?_, ?_, ?_, ?_⟩⟩
  · simp [ExactSubBiharmonicPreconditioner.clean_up_memory, delete_eq]
  · simp [ExactSubBiharmonicPreconditioner.clean_up_memory, delete]
  · rw [InexactSub_clean_up_memory_eq]
  · rw [InexactSub_clean_up_memory_eq]
  · rw [InexactSub_clean_up_memory_eq]
  · intro i j hi hj
    rw [InexactSub_clean_up_memory_eq]
    rw [hsq] at hj
    simp [hi, hj]
  · rw [InexactSub_clean_up_memory_eq, hsq]
  · rw [InexactSub_clean_up_memory_eq S, InexactSub_clean_up_memory_eq]
    simp only [Option.toList, List.append_nil, flatMap_filterMap_cleared, Prod.mk.injEq,
      InexactSubBiharmonicPreconditioner.mk.injEq, DenseMatrix.mk.injEq, true_and, and_true]
    funext r c
    split_ifs <;> rfl

theorem sub_preconditioner_clean_up_memory_witness :
    (InexactSubBiharmonicPreconditioner.clean_up_memory (exInexact, [])).2
      = [] ++ exInexact.S_00_preconditioner_pt.toList
        ++ exInexact.Lumped_J_11_preconditioner_pt.toList
        ++ exInexact.Lumped_J_22_preconditioner_pt.toList
        ++ (List.range exInexact.Matrix_of_block_pointers.nrow).flatMap
          (fun i => (List.range exInexact.Matrix_of_block_pointers.ncol).filterMap
            (exInexact.Matrix_of_block_pointers.entry i)) :=
  (sub_preconditioner_clean_up_memory (⟨some 4, false⟩, []) (exInexact, []) rfl).2.2.2.2.2.1


/-! ## The face-index switches of the three routines -/

section Switches

variable [Field α] [DecidableEq α]

/-- C22: for a face index in `{-2,-1,1,2}` the switches of
`set_dirichlet_boundary_condition` and of `impose_fluid_flow_on_edge` give the
same pair `(s_fixed_index, edge_sign)`: `s_fixed_index` is `0` for `-1`, `1` and
`1` for `-2`, `2`; `edge_sign` is `-1` for `-1`, `2` and `+1` for `1`, `-2`,
never `0`; and `impose_traction_free_edge` runs its node loop with the same
`s_fixed_index`. -/
theorem face_index_switches_agree (F : Libm α) (b : Nat) (P : BiharmonicFluidProblem α)
    (hf : P.mesh_pt.face_index_at_boundary b 0 = -2 ∨ P.mesh_pt.face_index_at_boundary b 0 = -1
      ∨ P.mesh_pt.face_index_at_boundary b 0 = 1 ∨ P.mesh_pt.face_index_at_boundary b 0 = 2) :
    fluid_flow_switch (P.mesh_pt.face_index_at_boundary b 0)
        = (s_fixed_index_of (P.mesh_pt.face_index_at_boundary b 0)).map
            (fun s => (s, edge_sign_of (P.mesh_pt.face_index_at_boundary b 0)))
      ∧ s_fixed_index_of (P.mesh_pt.face_index_at_boundary b 0)
        = some (if P.mesh_pt.face_index_at_boundary b 0 = -1
            ∨ P.mesh_pt.face_index_at_boundary b 0 = 1 then 0 else 1)
      ∧ edge_sign_of (P.mesh_pt.face_index_at_boundary b 0)
        = (if P.mesh_pt.face_index_at_boundary b 0 = -1
            ∨ P.mesh_pt.face_index_at_boundary b 0 = 2 then -1 else 1)
      ∧ edge_sign_of (P.mesh_pt.face_index_at_boundary b 0) ≠ 0
      ∧ ∃ s es, fluid_flow_switch (P.mesh_pt.face_index_at_boundary b 0) = some (s, es)
          ∧ impose_traction_free_edge F b P
            = ⟨none, traction_free_state F b s (P.mesh_pt.nboundary_node b)
                (P.mesh_pt.nboundary_node b) P⟩ := by
  have key : ∀ f : Int, (f = -2 ∨ f = -1 ∨ f = 1 ∨ f = 2) →
      fluid_flow_switch f = (s_fixed_index_of f).map (fun s => (s, edge_sign_of f))
        ∧ s_fixed_index_of f = some (if f = -1 ∨ f = 1 then 0 else 1)
        ∧ edge_sign_of f = (if f = -1 ∨ f = 2 then -1 else 1)
        ∧ edge_sign_of f ≠ 0 := by
    intro f hf
    rcases hf with rfl | rfl | rfl | rfl <;> decide
  obtain ⟨h1, h2, h3, h4⟩ := key _ hf
  refine ⟨h1, h2, h3, h4, _, edge_sign_of (P.mesh_pt.face_index_at_boundary b 0), ?_,
    impose_traction_free_edge_eq F b P _ h2⟩
  rw [h1, h2]
  rfl

end Switches

theorem face_index_switches_agree_witness :
    fluid_flow_switch ((exFluidProblem 0).mesh_pt.face_index_at_boundary 0 0)
      = (s_fixed_index_of ((exFluidProblem 0).mesh_pt.face_index_at_boundary 0 0)).map
          (fun s => (s, edge_sign_of ((exFluidProblem 0).mesh_pt.face_index_at_boundary 0 0))) :=
  (face_index_switches_agree exLibm 0 (exFluidProblem 0) (Or.inl rfl)).1


/-! ## `impose_traction_free_edge`: the log of hijacked values -/

theorem traction_free_hijacks_mem (b s N n : Nat) (c : HijackCall)
    (hc : c ∈ traction_free_hijacks b s N n) :
    c.b = b ∧ c.i = 1 + s ∧ ((0 < n ∧ c.e = n - 1) ∨ (n < N - 1 ∧ c.e = n)) := by
  unfold traction_free_hijacks at hc
  split_ifs at hc <;> simp at hc <;> rcases hc with rfl | rfl <;> simp <;> omega

theorem traction_free_hijacks_of_large (b s N n : Nat) (hb : 4 ≤ b) :
    traction_free_hijacks b s N n = [] := by
  unfold traction_free_hijacks
  have h0 : b ≠ 0 := by omega
  have h1 : b ≠ 1 := by omega
  have h2 : b ≠ 2 := by omega
  have h3 : b ≠ 3 := by omega
  simp [h0, h1, h2, h3]

section HijackLog

variable [Field α] [DecidableEq α]

theorem traction_free_active_mem (F : Libm α) (M : Mesh α) (b s k n : Nat)
    (hn : n ∈ traction_free_active F M b s k) : n < k := by
  unfold traction_free_active at hn
  exact List.mem_range.mp (List.mem_of_mem_filter hn)

theorem impose_traction_free_edge_hijacked (F : Libm α) (b : Nat)
    (P : BiharmonicFluidProblem α) (s : Nat)
    (hs : s_fixed_index_of (P.mesh_pt.face_index_at_boundary b 0) = some s) :
    (impose_traction_free_edge F b P).st.mesh_pt.hijacked
      = P.mesh_pt.hijacked
        ++ (traction_free_active F P.mesh_pt b s (P.mesh_pt.nboundary_node b)).flatMap
          (traction_free_hijacks b s (P.mesh_pt.nboundary_node b)) := by
  rw [impose_traction_free_edge_eq F b P s hs]
  rfl

/-- C23: in `impose_traction_free_edge` on a boundary with `n_node` nodes
(face index accepted, any `b`), every boundary-element index `e` passed to
`boundary_element_pt(b,e)` satisfies `e < n_node - 1`, that is `e` lies in
`0..n_node-2`; hence with `n_node-1` elements along the boundary every lookup
is in range, and on a boundary with at most one node no element is accessed. -/
theorem impose_traction_free_edge_element_range (F : Libm α) (b : Nat)
    (P : BiharmonicFluidProblem α) (s : Nat)
    (hs : s_fixed_index_of (P.mesh_pt.face_index_at_boundary b 0) = some s) :
    ∃ accessed : List HijackCall,
      (impose_traction_free_edge F b P).st.mesh_pt.hijacked = P.mesh_pt.hijacked ++ accessed
        ∧ (∀ c, c ∈ accessed → c.b = b ∧ c.e < P.mesh_pt.nboundary_node b - 1)
        ∧ (P.mesh_pt.nboundary_element b = P.mesh_pt.nboundary_node b - 1 →
            ∀ c, c ∈ accessed → c.e < P.mesh_pt.nboundary_element b)
        ∧ (P.mesh_pt.nboundary_node b ≤ 1 → accessed = []) := by
  have hrange : ∀ c, c ∈ (traction_free_active F P.mesh_pt b s
        (P.mesh_pt.nboundary_node b)).flatMap
          (traction_free_hijacks b s (P.mesh_pt.nboundary_node b)) →
      c.b = b ∧ c.e < P.mesh_pt.nboundary_node b - 1 := by
    intro c hc
    rw [List.mem_flatMap] at hc
    obtain ⟨n, hn, hcn⟩ := hc
    have hlt := traction_free_active_mem F P.mesh_pt b s _ n hn
    have hm := traction_free_hijacks_mem b s _ n c hcn
    refine ⟨hm.1, ?_⟩
    rcases hm.2.2 with ⟨h0, he⟩ | ⟨h1, he⟩ <;> omega
  refine ⟨_, impose_traction_free_edge_hijacked F b P s hs, hrange, ?_, ?_⟩
  · intro hel c hc
    rw [hel]
    exact (hrange c hc).2
  · intro hle
    rw [List.eq_nil_iff_forall_not_mem]
    intro c hc
    have := (hrange c hc).2
    omega

/-- C28: for a boundary id `b ≥ 4` with a face index the routine accepts,
`impose_traction_free_edge` raises no error and hijacks nothing, yet it appends
one `BiharmonicFluidBoundaryElement` for every boundary node with
`dt/ds_n ≠ 0` and increments `Npoint_element` by their number. -/
theorem impose_traction_free_edge_large_boundary_id (F : Libm α) (b : Nat)
    (P : BiharmonicFluidProblem α) (s : Nat) (hb : 4 ≤ b)
    (hs : s_fixed_index_of (P.mesh_pt.face_index_at_boundary b 0) = some s) :
    (impose_traction_free_edge F b P).err = none
      ∧ (impose_traction_free_edge F b P).st.mesh_pt.hijacked = P.mesh_pt.hijacked
      ∧ (impose_traction_free_edge F b P).st.mesh_pt.element_pt
          = P.mesh_pt.element_pt
            ++ ((P.mesh_pt.boundary_node b).filter
                (fun id => decide ((P.mesh_pt.node id).dtds_n F s ≠ 0))).map
                (fun id => Element.BiharmonicFluidBoundaryElement id s)
      ∧ (impose_traction_free_edge F b P).st.Npoint_element
          = P.Npoint_element
            + ((P.mesh_pt.boundary_node b).filter
                (fun id => decide ((P.mesh_pt.node id).dtds_n F s ≠ 0))).length := by
  have hmap := traction_free_active_map F P.mesh_pt b s
  have hlen := congrArg List.length hmap
  rw [List.length_map] at hlen
  refine ⟨?_, ?_, ?_, ?_⟩
  · rw [impose_traction_free_edge_eq F b P s hs]
  · rw [impose_traction_free_edge_hijacked F b P s hs]
    have hnil : traction_free_hijacks b s (P.mesh_pt.nboundary_node b) = fun _ => [] := by
      funext n
      exact traction_free_hijacks_of_large b s _ n hb
    rw [hnil]
    simp
  · rw [impose_traction_free_edge_eq F b P s hs, ← hmap, List.map_map]
    rfl
  · rw [impose_traction_free_edge_eq F b P s hs, ← hlen]
    rfl

end HijackLog

theorem impose_traction_free_edge_element_range_witness :
    ∃ accessed : List HijackCall,
      (impose_traction_free_edge exLibm 0 (exFluidProblem 1)).st.mesh_pt.hijacked
          = (exFluidProblem 1).mesh_pt.hijacked ++ accessed
        ∧ (∀ c, c ∈ accessed →
            c.b = 0 ∧ c.e < (exFluidProblem 1).mesh_pt.nboundary_node 0 - 1) := by
  obtain ⟨accessed, h1, h2, _⟩ :=
    impose_traction_free_edge_element_range exLibm 0 (exFluidProblem 1) 1 (by decide)
  exact ⟨accessed, h1, h2⟩



theorem impose_traction_free_edge_large_boundary_id_witness :
    (impose_traction_free_edge exLibm 4 exFluidProblem4).st.mesh_pt.hijacked
        = exFluidProblem4.mesh_pt.hijacked
      ∧ (impose_traction_free_edge exLibm 4 exFluidProblem4).st.Npoint_element
        = exFluidProblem4.Npoint_element
          + ((exFluidProblem4.mesh_pt.boundary_node 4).filter
              (fun id => decide ((exFluidProblem4.mesh_pt.node id).dtds_n exLibm 1 ≠ 0))).length :=
  ⟨(impose_traction_free_edge_large_boundary_id exLibm 4 exFluidProblem4 1 (by decide)
      (by decide)).2.1,
    (impose_traction_free_edge_large_boundary_id exLibm 4 exFluidProblem4 1 (by decide)
      (by decide)).2.2.2⟩

section HijackOnce

variable [Field α] [DecidableEq α]

theorem hijack_pairs_nodup (b L R s N : Nat) (hLR : L ≠ R) (l : List Nat)
    (hl : l.Pairwise (fun x y => x < y)) :
    (l.flatMap (fun n => (if 0 < n then [(⟨b, n - 1, L, 1 + s⟩ : HijackCall)] else [])
      ++ (if n < N - 1 then [⟨b, n, R, 1 + s⟩] else []))).Nodup := by
  rw [List.nodup_flatMap]
  constructor
  · intro n _
    split_ifs <;> simp [hLR]
  · refine List.Pairwise.imp ?_ hl
    intro n m hnm
    simp only [Function.onFun]
    rw [List.disjoint_left]
    intro c hc hc2
    simp only [List.mem_append, List.mem_ite_nil_right, List.mem_singleton] at hc hc2
    rcases hc with ⟨h0, rfl⟩ | ⟨h0, rfl⟩ <;> rcases hc2 with ⟨h1, h2⟩ | ⟨h1, h2⟩ <;>
      simp only [HijackCall.mk.injEq, true_and, and_true] at h2 <;> omega

/-- C27: for `b` in `{0,1,2,3}` the left and right local nodes
`(L,R) = (1,0), (3,1), (3,2), (2,0)` differ, and within one call of
`impose_traction_free_edge` no (boundary element, local node, value index)
triple is hijacked twice; the calls on boundary element `e` are at local node
`L` or `R` with value index `1 + s_fixed_index`, so there are at most two of
them. -/
theorem impose_traction_free_edge_hijacks_once (F : Libm α) (b L R : Nat)
    (P : BiharmonicFluidProblem α) (s : Nat)
    (hb : (b, L, R) = (0, 1, 0) ∨ (b, L, R) = (1, 3, 1) ∨ (b, L, R) = (2, 3, 2)
      ∨ (b, L, R) = (3, 2, 0))
    (hs : s_fixed_index_of (P.mesh_pt.face_index_at_boundary b 0) = some s) :
    L ≠ R
      ∧ ∃ calls : List HijackCall,
        (impose_traction_free_edge F b P).st.mesh_pt.hijacked = P.mesh_pt.hijacked ++ calls
          ∧ calls.Nodup
          ∧ ∀ e, (∀ c, c ∈ calls → c.e = e →
                c = ⟨b, e, L, 1 + s⟩ ∨ c = ⟨b, e, R, 1 + s⟩)
              ∧ (calls.filter (fun c => decide (c.e = e))).length ≤ 2 := by
  have hLR : L ≠ R := by
    rcases hb with hb | hb | hb | hb <;>
      (simp only [Prod.mk.injEq] at hb
       omega)
  have htab : traction_free_hijacks b s (P.mesh_pt.nboundary_node b)
      = fun n => (if 0 < n then [(⟨b, n - 1, L, 1 + s⟩ : HijackCall)] else [])
        ++ (if n < P.mesh_pt.nboundary_node b - 1 then [⟨b, n, R, 1 + s⟩] else []) := by
    funext n
    rcases hb with hb | hb | hb | hb <;>
      (simp only [Prod.mk.injEq] at hb
       obtain ⟨rfl, rfl, rfl⟩ := hb
       simp [traction_free_hijacks])
  have hsorted : (traction_free_active F P.mesh_pt b s (P.mesh_pt.nboundary_node b)).Pairwise
      (fun x y => x < y) := by
    unfold traction_free_active
    exact List.Pairwise.sublist (List.filter_sublist _) (List.pairwise_lt_range _)
  have hnodup : ((traction_free_active F P.mesh_pt b s (P.mesh_pt.nboundary_node b)).flatMap
      (traction_free_hijacks b s (P.mesh_pt.nboundary_node b))).Nodup := by
    rw [htab]
    exact hijack_pairs_nodup b L R s _ hLR _ hsorted
  have hform : ∀ e c, c ∈ (traction_free_active F P.mesh_pt b s
        (P.mesh_pt.nboundary_node b)).flatMap
          (traction_free_hijacks b s (P.mesh_pt.nboundary_node b)) → c.e = e →
      c = ⟨b, e, L, 1 + s⟩ ∨ c = ⟨b, e, R, 1 + s⟩ := by
    intro e c hc he
    rw [htab, List.mem_flatMap] at hc
    obtain ⟨n, _, hcn⟩ := hc
    simp only [List.mem_append, List.mem_ite_nil_right, List.mem_singleton] at hcn
    rcases hcn with ⟨_, rfl⟩ | ⟨_, rfl⟩
    · left
      simp only at he
      rw [he]
    · right
      simp only at he
      rw [he]
  refine ⟨hLR, _, impose_traction_free_edge_hijacked F b P s hs, hnodup, ?_⟩
  intro e
  refine ⟨hform e, ?_⟩
  have hsub : (List.filter (fun c => decide (c.e = e))
      ((traction_free_active F P.mesh_pt b s (P.mesh_pt.nboundary_node b)).flatMap
        (traction_free_hijacks b s (P.mesh_pt.nboundary_node b))))
      ⊆ [(⟨b, e, L, 1 + s⟩ : HijackCall), ⟨b, e, R, 1 + s⟩] := by
    intro c hc
    rw [List.mem_filter] at hc
    have := hform e c hc.1 (of_decide_eq_true hc.2)
    simpa using this
  have hle := (List.subperm_of_subset (List.Nodup.filter _ hnodup) hsub).length_le
  simpa using hle

end HijackOnce

theorem impose_traction_free_edge_hijacks_once_witness :
    (1 : Nat) ≠ 0
      ∧ ∃ calls : List HijackCall,
        (impose_traction_free_edge exLibm 0 (exFluidProblem 1)).st.mesh_pt.hijacked
            = (exFluidProblem 1).mesh_pt.hijacked ++ calls
          ∧ calls.Nodup := by
  obtain ⟨h1, calls, h2, h3, _⟩ :=
    impose_traction_free_edge_hijacks_once exLibm 0 1 0 (exFluidProblem 1) 1 (Or.inl rfl)
      (by decide)
  exact ⟨h1, calls, h2, h3⟩


/-! ## `set_dirichlet_boundary_condition`: frame and the absent `u_fn` -/

section DirichletFrame

variable [Field α]

/-- C25: `set_dirichlet_boundary_condition` with only `u_fn` supplied (face
index accepted, fixed index `s`) leaves the normal-derivative slot `1 + s` and
the mixed slot `3` of every node untouched, pinned flag and value, and leaves
every node that is not on boundary `b` untouched altogether. -/
theorem set_dirichlet_u_only_frame (F : Libm α) (b : Nat) (u_fn : α → α)
    (P : BiharmonicProblem α) (s : Nat)
    (hs : s_fixed_index_of (P.Bulk_element_mesh_pt.face_index_at_boundary b 0) = some s) :
    (∀ j,
        ((set_dirichlet_boundary_condition F b (some u_fn) none P).st.Bulk_element_mesh_pt.node
            j).pinned (1 + s) = (P.Bulk_element_mesh_pt.node j).pinned (1 + s)
        ∧ ((set_dirichlet_boundary_condition F b (some u_fn) none P).st.Bulk_element_mesh_pt.node
            j).value (1 + s) = (P.Bulk_element_mesh_pt.node j).value (1 + s)
        ∧ ((set_dirichlet_boundary_condition F b (some u_fn) none P).st.Bulk_element_mesh_pt.node
            j).pinned 3 = (P.Bulk_element_mesh_pt.node j).pinned 3
        ∧ ((set_dirichlet_boundary_condition F b (some u_fn) none P).st.Bulk_element_mesh_pt.node
            j).value 3 = (P.Bulk_element_mesh_pt.node j).value 3)
      ∧ (∀ j, j ∉ P.Bulk_element_mesh_pt.boundary_node b →
        (set_dirichlet_boundary_condition F b (some u_fn) none P).st.Bulk_element_mesh_pt.node j
          = P.Bulk_element_mesh_pt.node j) := by
  have hs01 := s_fixed_index_of_range _ s hs
  rw [set_dirichlet_u_only F b u_fn P s hs]
  constructor
  · intro j
    exact node_after_inv (P.Bulk_element_mesh_pt.boundary_node b)
      (dirichlet_u_effect b s (P.Bulk_element_mesh_pt.nboundary_node b) u_fn) _ j
      (P.Bulk_element_mesh_pt.node j)
      (fun x => x.pinned (1 + s) = (P.Bulk_element_mesh_pt.node j).pinned (1 + s)
        ∧ x.value (1 + s) = (P.Bulk_element_mesh_pt.node j).value (1 + s)
        ∧ x.pinned 3 = (P.Bulk_element_mesh_pt.node j).pinned 3
        ∧ x.value 3 = (P.Bulk_element_mesh_pt.node j).value 3)
      ⟨rfl, rfl, rfl, rfl⟩
      (fun i x hx => by
        beta_reduce at hx ⊢
        have f1 := dirichlet_u_effect_frame b s (P.Bulk_element_mesh_pt.nboundary_node b) u_fn
          i x (1 + s) (by omega) (by omega)
        have f3 := dirichlet_u_effect_frame b s (P.Bulk_element_mesh_pt.nboundary_node b) u_fn
          i x 3 (by omega) (by omega)
        rw [f1.1, f1.2, f3.1, f3.2]
        exact hx)
  · intro j hj
    exact node_after_not_mem (P.Bulk_element_mesh_pt.boundary_node b)
      (dirichlet_u_effect b s (P.Bulk_element_mesh_pt.nboundary_node b) u_fn) _ j le_rfl hj
      (P.Bulk_element_mesh_pt.node j)

/-- C26: the body of the `dudn_fn` loop calls `u_fn` at every boundary node,
whatever its position, so it fails at every node when `u_fn` is absent; hence a
call with `dudn_fn` supplied and `u_fn` absent on a boundary with at least one
node does not complete normally and pins nothing (the state is the one before
the call); with a face index the routine accepts, the failure is the call
through the null `u_fn`. -/
theorem set_dirichlet_dudn_needs_u_fn (F : Libm α) (b : Nat) (dudn_fn : α → α)
    (P : BiharmonicProblem α) (hn : 0 < P.Bulk_element_mesh_pt.nboundary_node b) :
    (∀ (s n_node : Nat) (es : Int) (M : Mesh α) (n : Nat),
        dirichlet_dudn_node F b s n_node es none dudn_fn M n
          = .error Err.NullFunctionPointer)
      ∧ (set_dirichlet_boundary_condition F b none (some dudn_fn) P).err ≠ none
      ∧ (set_dirichlet_boundary_condition F b none (some dudn_fn) P).st = P
      ∧ (∀ s, s_fixed_index_of (P.Bulk_element_mesh_pt.face_index_at_boundary b 0) = some s →
          (set_dirichlet_boundary_condition F b none (some dudn_fn) P).err
            = some Err.NullFunctionPointer) := by
  refine ⟨fun _ _ _ _ _ => rfl, ?_, ?_, ?_⟩
  · cases hs : s_fixed_index_of (P.Bulk_element_mesh_pt.face_index_at_boundary b 0) with
    | none => simp [set_dirichlet_boundary_condition, hs]
    | some s => rw [set_dirichlet_null_u_fn F b dudn_fn P s hs hn]; simp
  · cases hs : s_fixed_index_of (P.Bulk_element_mesh_pt.face_index_at_boundary b 0) with
    | none => simp [set_dirichlet_boundary_condition, hs]
    | some s => rw [set_dirichlet_null_u_fn F b dudn_fn P s hs hn]
  · intro s hs
    rw [set_dirichlet_null_u_fn F b dudn_fn P s hs hn]

end DirichletFrame

theorem set_dirichlet_u_only_frame_witness :
    ((set_dirichlet_boundary_condition exLibm 0 (some (fun m => m)) none
        (exProblem 0)).st.Bulk_element_mesh_pt.node 1).pinned 3
      = ((exProblem 0).Bulk_element_mesh_pt.node 1).pinned 3 :=
  ((set_dirichlet_u_only_frame exLibm 0 (fun m => m) (exProblem 0) 1 (by decide)).1 1).2.2.1

theorem set_dirichlet_dudn_needs_u_fn_witness :
    (set_dirichlet_boundary_condition exLibm 0 none (some (fun m => m)) (exProblem 0)).err
        ≠ none
      ∧ (set_dirichlet_boundary_condition exLibm 0 none (some (fun m => m)) (exProblem 0)).st
        = exProblem 0 :=
  ⟨(set_dirichlet_dudn_needs_u_fn exLibm 0 (fun m => m) (exProblem 0) (by decide)).2.1,
    (set_dirichlet_dudn_needs_u_fn exLibm 0 (fun m => m) (exProblem 0) (by decide)).2.2.1⟩


/-! ## The Jacobian flag of the boundary element -/

section JacobianFlag

variable [Field α]

/-- General behaviour of the Jacobian flag (line 443, `if (JFLAG == 1)`): the
routine computes the elemental Jacobian contribution when it is called with
`JFLAG = 1` and the normal dof is free (`+1` at `(e,e)`, then
`-(dt/ds_n)(ds_t/dt)` at `(e,t)` when the tangential dof is free); called with
`JFLAG = 0`, or any value other than `1`, it leaves the Jacobian as it was; the
residual it computes does not depend on `JFLAG`. -/
theorem boundary_element_jacobian_flag (E : BiharmonicFluidBoundaryElement α) (F : Libm α)
    (residual : Nat → α) (jacobian : Nat → Nat → α) (JFLAG : Nat) :
    (JFLAG ≠ 1 →
        (E.fill_in_generic_residual_contribution_biharmonic_boundary F residual jacobian
          JFLAG).2 = jacobian)
      ∧ (0 ≤ E.nodal_local_eqn (1 + E.S_fixed_index) →
        (E.fill_in_generic_residual_contribution_biharmonic_boundary F residual jacobian 1).2
          = if 0 ≤ E.nodal_local_eqn (2 - E.S_fixed_index) then
              DenseMatrix_add
                (DenseMatrix_add jacobian (E.nodal_local_eqn (1 + E.S_fixed_index)).toNat
                  (E.nodal_local_eqn (1 + E.S_fixed_index)).toNat 1)
                (E.nodal_local_eqn (1 + E.S_fixed_index)).toNat
                (E.nodal_local_eqn (2 - E.S_fixed_index)).toNat (-(E.coefficient F))
            else
              DenseMatrix_add jacobian (E.nodal_local_eqn (1 + E.S_fixed_index)).toNat
                (E.nodal_local_eqn (1 + E.S_fixed_index)).toNat 1)
      ∧ (E.fill_in_generic_residual_contribution_biharmonic_boundary F residual jacobian
          JFLAG).1
        = (E.fill_in_generic_residual_contribution_biharmonic_boundary F residual jacobian
          1).1 := by
  refine ⟨?_, ?_, ?_⟩
  · intro hflag
    simp only [BiharmonicFluidBoundaryElement.fill_in_generic_residual_contribution_biharmonic_boundary,
      if_neg hflag]
    split_ifs <;> rfl
  · intro he
    simp only [BiharmonicFluidBoundaryElement.fill_in_generic_residual_contribution_biharmonic_boundary,
      ge_iff_le, if_pos he, if_true, BiharmonicFluidBoundaryElement.coefficient]
  · simp only [BiharmonicFluidBoundaryElement.fill_in_generic_residual_contribution_biharmonic_boundary]
    split_ifs <;> rfl

end JacobianFlag

/-- C24 (code bug): the doc comment of the routine (lines 393-394) says that the
elemental Jacobian is computed if `JFLAG = 0`, but the code computes it under
`if (JFLAG == 1)` (line 443). For the example element, whose normal dof is free
at local equation `0`, a call with `JFLAG = 0` on a zero Jacobian leaves the
entry `(0,0)` at `0`, while the Jacobian contribution, which the code computes
with `JFLAG = 1`, puts `1` there; the two Jacobians differ. -/
theorem boundary_element_jacobian_not_computed_for_flag_zero :
    0 ≤ exBoundaryElement.nodal_local_eqn (1 + exBoundaryElement.S_fixed_index)
      ∧ (exBoundaryElement.fill_in_generic_residual_contribution_biharmonic_boundary exLibm
          (fun _ => 0) (fun _ _ => 0) 0).2 0 0 = 0
      ∧ (exBoundaryElement.fill_in_generic_residual_contribution_biharmonic_boundary exLibm
          (fun _ => 0) (fun _ _ => 0) 1).2 0 0 = 1
      ∧ (exBoundaryElement.fill_in_generic_residual_contribution_biharmonic_boundary exLibm
          (fun _ => 0) (fun _ _ => 0) 0).2
        ≠ (exBoundaryElement.fill_in_generic_residual_contribution_biharmonic_boundary exLibm
          (fun _ => 0) (fun _ _ => 0) 1).2 := by
  have h0 : (exBoundaryElement.fill_in_generic_residual_contribution_biharmonic_boundary exLibm
      (fun _ => 0) (fun _ _ => 0) 0).2 0 0 = 0 := by
    simp [BiharmonicFluidBoundaryElement.fill_in_generic_residual_contribution_biharmonic_boundary,
      exBoundaryElement]
  have h1 : (exBoundaryElement.fill_in_generic_residual_contribution_biharmonic_boundary exLibm
      (fun _ => 0) (fun _ _ => 0) 1).2 0 0 = 1 := by
    simp [BiharmonicFluidBoundaryElement.fill_in_generic_residual_contribution_biharmonic_boundary,
      exBoundaryElement, DenseMatrix_add]
  refine ⟨by decide, h0, h1, ?_⟩
  intro heq
  have := congrFun (congrFun heq 0) 0
  rw [h0, h1] at this
  exact absurd this (by norm_num)


/-! ## The point elements at the end of the element list -/

section PointElements

variable [Field α] [DecidableEq α]

theorem FluidEdgeCall_run_elements (F : Libm α) (P : BiharmonicFluidProblem α)
    (c : FluidEdgeCall α) :
    ∃ added : List Element,
      (c.run F P).mesh_pt.element_pt = P.mesh_pt.element_pt ++ added
        ∧ (∀ e, e ∈ added → e.is_point = true)
        ∧ (c.run F P).Npoint_element = P.Npoint_element + added.length := by
  cases c with
  | impose_traction_free_edge b =>
    cases hs : s_fixed_index_of (P.mesh_pt.face_index_at_boundary b 0) with
    | none =>
      refine ⟨[], ?_, ?_, ?_⟩ <;>
        simp [FluidEdgeCall.run, Biharmonic.impose_traction_free_edge, hs]
    | some s =>
      refine ⟨(traction_free_active F P.mesh_pt b s (P.mesh_pt.nboundary_node b)).map
        (fun n => Element.BiharmonicFluidBoundaryElement (P.mesh_pt.boundary_node_pt b n) s),
        ?_, ?_, ?_⟩
      · simp only [FluidEdgeCall.run]
        rw [impose_traction_free_edge_eq F b P s hs]
        rfl
      · intro e he
        rw [List.mem_map] at he
        obtain ⟨n, _, rfl⟩ := he
        rfl
      · simp only [FluidEdgeCall.run]
        rw [impose_traction_free_edge_eq F b P s hs, List.length_map]
        rfl
  | impose_solid_boundary_on_edge b psi =>
    refine ⟨[], ?_, ?_, ?_⟩
    · simp only [FluidEdgeCall.run]
      rw [impose_solid_boundary_on_edge_eq]
      simp [Mesh.after_loop]
    · simp
    · simp only [FluidEdgeCall.run]
      rw [impose_solid_boundary_on_edge_eq]
      simp
  | impose_fluid_flow_on_edge b u =>
    cases hs : fluid_flow_switch (P.mesh_pt.face_index_at_boundary b 0) with
    | none =>
      refine ⟨[], ?_, ?_, ?_⟩ <;>
        simp [FluidEdgeCall.run, Biharmonic.impose_fluid_flow_on_edge, hs]
    | some se =>
      obtain ⟨s, es⟩ := se
      refine ⟨[], ?_, ?_, ?_⟩
      · simp only [FluidEdgeCall.run]
        rw [impose_fluid_flow_on_edge_eq F b u P s es hs]
        simp [Mesh.after_loop]
      · simp
      · simp only [FluidEdgeCall.run]
        rw [impose_fluid_flow_on_edge_eq F b u P s es hs]
        simp

theorem FluidEdgeCall_foldl_elements (F : Libm α) (calls : List (FluidEdgeCall α))
    (P : BiharmonicFluidProblem α) :
    ∃ added : List Element,
      (calls.foldl (FluidEdgeCall.run F) P).mesh_pt.element_pt = P.mesh_pt.element_pt ++ added
        ∧ (∀ e, e ∈ added → e.is_point = true)
        ∧ (calls.foldl (FluidEdgeCall.run F) P).Npoint_element
            = P.Npoint_element + added.length := by
  induction calls generalizing P with
  | nil => exact ⟨[], by simp, by simp, by simp⟩
  | cons c calls ih =>
    obtain ⟨a1, h1, h2, h3⟩ := FluidEdgeCall_run_elements F P c
    obtain ⟨a2, k1, k2, k3⟩ := ih (c.run F P)
    refine ⟨a1 ++ a2, ?_, ?_, ?_⟩
    · rw [List.foldl_cons, k1, h1, List.append_assoc]
    · intro e he
      rcases List.mem_append.mp he with he | he
      · exact h2 e he
      · exact k2 e he
    · rw [List.foldl_cons, k3, h3, List.length_append, Nat.add_assoc]

/-- C29: starting from a mesh that holds only bulk elements, with
`Npoint_element = 0`, after any sequence of `impose_traction_free_edge`,
`impose_solid_boundary_on_edge` and `impose_fluid_flow_on_edge` calls,
`Npoint_element` is the number of `BiharmonicFluidBoundaryElement`s in the mesh,
these are exactly the last `Npoint_element` entries of the element list, and the
first `nelement() - Npoint_element` entries, the ones `doc_solution` treats as
bulk elements, are the original bulk elements in their original order. -/
theorem point_elements_at_end (F : Libm α) (calls : List (FluidEdgeCall α))
    (P : BiharmonicFluidProblem α)
    (hbulk : ∀ e, e ∈ P.mesh_pt.element_pt → e.is_point = false)
    (hzero : P.Npoint_element = 0) :
    (calls.foldl (FluidEdgeCall.run F) P).Npoint_element
        = ((calls.foldl (FluidEdgeCall.run F) P).mesh_pt.element_pt.filter
            Element.is_point).length
      ∧ (∀ e, e ∈ (calls.foldl (FluidEdgeCall.run F) P).mesh_pt.element_pt.drop
            ((calls.foldl (FluidEdgeCall.run F) P).mesh_pt.element_pt.length
              - (calls.foldl (FluidEdgeCall.run F) P).Npoint_element) →
          e.is_point = true)
      ∧ (calls.foldl (FluidEdgeCall.run F) P).mesh_pt.element_pt.take
            ((calls.foldl (FluidEdgeCall.run F) P).mesh_pt.element_pt.length
              - (calls.foldl (FluidEdgeCall.run F) P).Npoint_element)
          = P.mesh_pt.element_pt
      ∧ doc_solution_elements (calls.foldl (FluidEdgeCall.run F) P) = P.mesh_pt.element_pt := by
  obtain ⟨added, h1, h2, h3⟩ := FluidEdgeCall_foldl_elements F calls P
  rw [hzero, Nat.zero_add] at h3
  have hlen : (calls.foldl (FluidEdgeCall.run F) P).mesh_pt.element_pt.length
      - (calls.foldl (FluidEdgeCall.run F) P).Npoint_element = P.mesh_pt.element_pt.length := by
    rw [h1, h3, List.length_append, Nat.add_sub_cancel]
  have hf1 : P.mesh_pt.element_pt.filter Element.is_point = [] := by
    rw [List.filter_eq_nil_iff]
    intro e he
    simp [hbulk e he]
  have hf2 : added.filter Element.is_point = added := by
    rw [List.filter_eq_self]
    exact h2
  have htake : (calls.foldl (FluidEdgeCall.run F) P).mesh_pt.element_pt.take
      ((calls.foldl (FluidEdgeCall.run F) P).mesh_pt.element_pt.length
        - (calls.foldl (FluidEdgeCall.run F) P).Npoint_element) = P.mesh_pt.element_pt := by
    rw [hlen, h1, List.take_left']
    rfl
  refine ⟨?_, ?_, htake, ?_⟩
  · rw [h3, h1, List.filter_append, hf1, hf2, List.nil_append]
  · intro e he
    rw [hlen, h1, List.drop_left'] at he
    · exact h2 e he
    · rfl
  · unfold doc_solution_elements
    rw [hlen, h1]
    apply List.ext_getElem
    · simp
    · intro i hi1 hi2
      simp [List.getD_eq_getElem?_getD, List.getElem?_append_left hi2,
        List.getElem?_eq_getElem hi2]

end PointElements

theorem point_elements_at_end_witness :
    ([FluidEdgeCall.impose_traction_free_edge 0,
        FluidEdgeCall.impose_solid_boundary_on_edge 0 (5 : ℚ),
        FluidEdgeCall.impose_fluid_flow_on_edge 0 (fun m => (m, 1))].foldl
          (FluidEdgeCall.run exLibm) (exFluidProblem 1)).mesh_pt.element_pt.take
        (([FluidEdgeCall.impose_traction_free_edge 0,
          FluidEdgeCall.impose_solid_boundary_on_edge 0 (5 : ℚ),
          FluidEdgeCall.impose_fluid_flow_on_edge 0 (fun m => (m, 1))].foldl
            (FluidEdgeCall.run exLibm) (exFluidProblem 1)).mesh_pt.element_pt.length
          - ([FluidEdgeCall.impose_traction_free_edge 0,
            FluidEdgeCall.impose_solid_boundary_on_edge 0 (5 : ℚ),
            FluidEdgeCall.impose_fluid_flow_on_edge 0 (fun m => (m, 1))].foldl
              (FluidEdgeCall.run exLibm) (exFluidProblem 1)).Npoint_element)
      = (exFluidProblem 1).mesh_pt.element_pt :=
  (point_elements_at_end exLibm _ (exFluidProblem 1) (by decide) rfl).2.2.1


/-! ## DOF types of `LinearElasticityEquationsBase<DIM>` -/

theorem get_dof_numbers_inner_mem (DIM : Nat) (nodal_local_eqn : Nat → Int)
    (eqn_number : Nat → Nat) (l : List (Nat × Nat)) (p : Nat × Nat)
    (hp : p ∈ (List.range DIM).foldl
      (fun l i => if nodal_local_eqn i ≥ 0 then (eqn_number (nodal_local_eqn i).toNat, i) :: l
        else l) l) :
    p ∈ l ∨ p.2 < DIM := by
  induction DIM with
  | zero => left; simpa using hp
  | succ k ih =>
    rw [List.range_succ, List.foldl_append] at hp
    simp only [List.foldl_cons, List.foldl_nil] at hp
    split_ifs at hp
    · rcases List.mem_cons.mp hp with rfl | hp
      · right; simp
      · rcases ih hp with h1 | h1
        · exact Or.inl h1
        · exact Or.inr (by omega)
    · rcases ih hp with h1 | h1
      · exact Or.inl h1
      · exact Or.inr (by omega)

/-- Every pair that `get_dof_numbers_for_unknowns` adds has a DOF type below
`DIM`. -/
theorem get_dof_numbers_dof_type_lt_DIM (DIM n_node : Nat) (nodal_local_eqn : Nat → Nat → Int)
    (eqn_number : Nat → Nat) (l : List (Nat × Nat)) (p : Nat × Nat)
    (hp : p ∈ LinearElasticityEquationsBase.get_dof_numbers_for_unknowns DIM n_node
      nodal_local_eqn eqn_number l) :
    p ∈ l ∨ p.2 < DIM := by
  unfold LinearElasticityEquationsBase.get_dof_numbers_for_unknowns at hp
  induction n_node with
  | zero => left; simpa using hp
  | succ k ih =>
    rw [List.range_succ, List.foldl_append] at hp
    simp only [List.foldl_cons, List.foldl_nil] at hp
    rcases get_dof_numbers_inner_mem DIM (nodal_local_eqn k) eqn_number _ p hp with h1 | h1
    · exact ih h1
    · exact Or.inr h1

/-- For `DIM = 2` every pair added has a DOF type below `ndof_types()`. -/
theorem get_dof_numbers_dof_type_dim2 (n_node : Nat) (nodal_local_eqn : Nat → Nat → Int)
    (eqn_number : Nat → Nat) (p : Nat × Nat)
    (hp : p ∈ LinearElasticityEquationsBase.get_dof_numbers_for_unknowns 2 n_node
      nodal_local_eqn eqn_number []) :
    p.2 < LinearElasticityEquationsBase.ndof_types := by
  rcases get_dof_numbers_dof_type_lt_DIM 2 n_node nodal_local_eqn eqn_number [] p hp with h1 | h1
  · simp at h1
  · exact h1

/-- C30 (the code at a failing input): for `DIM = 3` and an element with one
node whose three displacement values are free (local and global equation
numbers `0, 1, 2`), `get_dof_numbers_for_unknowns` adds the pair `(2, 2)`, whose
DOF type `2` is not less than `ndof_types() = 2`. -/
theorem get_dof_numbers_dof_type_dim3 :
    LinearElasticityEquationsBase.get_dof_numbers_for_unknowns 3 1 (fun _ i => (i : Int))
        (fun k => k) [] = [(2, 2), (1, 1), (0, 0)]
      ∧ LinearElasticityEquationsBase.ndof_types = 2
      ∧ ¬ ((2, 2) : Nat × Nat).2 < LinearElasticityEquationsBase.ndof_types := by
  decide


/-! ## The inexact Schur complement as a matrix expression -/

section Schur

variable [Field α]

theorem inv_diagonal_of_ne_zero {n : Nat} (v : Fin n → α) (hv : ∀ k, v k ≠ 0) :
    (Matrix.diagonal v)⁻¹ = Matrix.diagonal (fun k => 1 / v k) := by
  apply Matrix.inv_eq_right_inv
  rw [Matrix.diagonal_mul_diagonal]
  have hone : (fun i => v i * (1 / v i)) = fun _ => (1 : α) := by
    funext i
    field_simp [hv i]
  rw [hone, Matrix.diagonal_one]

/-- C21: when no lumped diagonal entry is zero, the matrix produced by
`compute_inexact_schur_complement` is
`S_00 = J_00 - J_01 * lumped(J_11)^-1 * J_10 - J_02 * lumped(J_22)^-1 * J_20`,
where `lumped(J)` is the diagonal matrix of the row sums of `J` and its inverse
is the diagonal matrix of the reciprocals of these sums. -/
theorem compute_inexact_schur_complement_eq {n0 n1 n2 : Nat}
    (J_00 : Matrix (Fin n0) (Fin n0) α) (J_01 : Matrix (Fin n0) (Fin n1) α)
    (J_02 : Matrix (Fin n0) (Fin n2) α) (J_10 : Matrix (Fin n1) (Fin n0) α)
    (J_11 : Matrix (Fin n1) (Fin n1) α) (J_20 : Matrix (Fin n2) (Fin n0) α)
    (J_22 : Matrix (Fin n2) (Fin n2) α)
    (h11 : ∀ k, lumped J_11 k ≠ 0) (h22 : ∀ k, lumped J_22 k ≠ 0) :
    compute_inexact_schur_complement J_00 J_01 J_02 J_10 J_11 J_20 J_22
        = J_00 - J_01 * (Matrix.diagonal (lumped J_11))⁻¹ * J_10
          - J_02 * (Matrix.diagonal (lumped J_22))⁻¹ * J_20
      ∧ (Matrix.diagonal (lumped J_11))⁻¹ = Matrix.diagonal (fun k => 1 / lumped J_11 k)
      ∧ (Matrix.diagonal (lumped J_22))⁻¹ = Matrix.diagonal (fun k => 1 / lumped J_22 k)
      ∧ (∀ k, lumped J_11 k = Finset.univ.sum (fun j => J_11 k j))
      ∧ (∀ k, lumped J_22 k = Finset.univ.sum (fun j => J_22 k j)) := by
  refine ⟨?_, inv_diagonal_of_ne_zero _ h11, inv_diagonal_of_ne_zero _ h22,
    fun _ => rfl, fun _ => rfl⟩
  rw [inv_diagonal_of_ne_zero _ h11, inv_diagonal_of_ne_zero _ h22]
  ext i j
  simp only [compute_inexact_schur_complement, Matrix.sub_apply]
  rw [Matrix.mul_apply, Matrix.mul_apply]
  simp only [Matrix.mul_diagonal]

end Schur

theorem compute_inexact_schur_complement_eq_witness :
    compute_inexact_schur_complement (exBlock 5) (exBlock 1) (exBlock 1) (exBlock 1)
        (exBlock 2) (exBlock 1) (exBlock 4)
      = exBlock 5 - exBlock 1 * (Matrix.diagonal (lumped (exBlock 2)))⁻¹ * exBlock 1
        - exBlock 1 * (Matrix.diagonal (lumped (exBlock 4)))⁻¹ * exBlock 1 :=
  (compute_inexact_schur_complement_eq (exBlock 5) (exBlock 1) (exBlock 1) (exBlock 1)
    (exBlock 2) (exBlock 1) (exBlock 4)
    (fun k => by simp [lumped, exBlock]) (fun k => by simp [lumped, exBlock])).1

end Biharmonic
